import Mathlib

/-!
# Terraform provider for RabbitMQ: identifier codec and CRUD adapters

A shallow embedding of the resource files under `rabbitmq/` (binding, exchange,
user, permissions, federation upstream, shovel).  Go strings are Lean strings,
a Go `error` is a `GoError`, the attribute bag `*schema.ResourceData` is a
`ResourceData`, and the management client `*rabbithole.Client` is a record of
reply functions that may depend on everything done so far.
-/

namespace Rabbitmq

/-! ## Strings -/

/-- Go `strings.Split(s, sep)` for a one-character separator, on character lists:
the pieces between the separators, in order; a list without separator is one piece. -/
def splitChars (sep : Char) : List Char → List (List Char)
  | [] => [[]]
  | c :: cs =>
    if c = sep then [] :: splitChars sep cs
    else
      match splitChars sep cs with
      | [] => [[c]]
      | seg :: segs => (c :: seg) :: segs

/-- Go `strings.Split(s, sep)` where `sep` is a one-character string. -/
def stringsSplit (s : String) (sep : Char) : List String :=
  (splitChars sep s.data).map String.mk

/-- Go `strings.Replace(s, old, new, -1)` for a non-empty `old`, on character lists:
occurrences of `old` are found left to right without overlap.  The counter holds
how many characters of the occurrence just replaced are still to be dropped. -/
def replaceChars (old new : List Char) : Nat → List Char → List Char
  | _, [] => []
  | k + 1, _ :: cs => replaceChars old new k cs
  | 0, c :: cs =>
    if old.isPrefixOf (c :: cs) then new ++ replaceChars old new (old.length - 1) cs
    else c :: replaceChars old new 0 cs

/-- Go `strings.Replace(s, old, new, -1)` (`old` non-empty). -/
def stringsReplace (s old new : String) : String :=
  ⟨replaceChars old.data new.data 0 s.data⟩

/-- The text `sub` occurs inside `msg`. -/
def containsText (msg sub : String) : Prop :=
  ∃ before after : String, msg = before ++ sub ++ after

/-! ## Errors -/

/-- A Go `error` value: its message, and whether it is the management client's
typed "not found" error (HTTP 404). -/
structure GoError where
  message : String
  notFound : Bool
  deriving DecidableEq, Repr

/-- Go `fmt.Errorf(msg)` without a wrapped error. -/
def Errorf (msg : String) : GoError :=
  { message := msg, notFound := false }

/-! ## Identifier codec helpers (file `util.go`, not among the sources) -/

/-- Modelled from the spec: `percentEncodeSlashes` lives in `util.go`, which is missing.
The spec has the vhost segment percent-encoded before joining so that it round-trips
for any vhost containing `/` or reserved characters: every `%` becomes `%25`, then
every `/` becomes `%2F`. -/
def percentEncodeSlashes (s : String) : String :=
  stringsReplace (stringsReplace s "%" "%25") "/" "%2F"

/-- Modelled from the spec: `percentDecodeSlashes` lives in `util.go`, which is missing.
The inverse of the encoding: every `%2F` becomes `/`, then every `%25` becomes `%`. -/
def percentDecodeSlashes (s : String) : String :=
  stringsReplace (stringsReplace s "%2F" "/") "%25" "%"

/-- Go `fmt.Sprintf("%s/%s/%s/%s/%s", a, b, c, d, e)` as in `CreateBinding`
(resource_binding.go:121). -/
def sprintfBindingId (a b c d e : String) : String :=
  a ++ "/" ++ b ++ "/" ++ c ++ "/" ++ d ++ "/" ++ e

/-- Go `fmt.Sprintf("%s@%s", name, vhost)` as in `CreateExchange` (resource_exchange.go:94). -/
def sprintfNameAtVhost (name vhost : String) : String :=
  name ++ "@" ++ vhost

/-- The identifier decoding shared by `ReadBinding` (resource_binding.go:131-141) and
`DeleteBinding` (resource_binding.go:203-212): split on `/`, fail below five
segments, else take segments 0 to 4. -/
def bindingIdSegments (id : String) :
    Except GoError (String × String × String × String × String) :=
  match stringsSplit id '/' with
  | s0 :: s1 :: s2 :: s3 :: s4 :: _ => .ok (s0, s1, s2, s3, s4)
  | _ => .error (Errorf "Unable to determine binding ID")

/-! ## Dynamic values and the attribute bag -/

/-- A Go `interface{}` value as the attribute bag holds it: `nil`, `string`, `bool`,
`int`, `[]interface{}` or `map[string]interface{}`. -/
inductive Value where
  | null : Value
  | str (s : String) : Value
  | bool (b : Bool) : Value
  | int (n : Int) : Value
  | list (xs : List Value) : Value
  | map (kvs : List (String × Value)) : Value

/-- A Go `map[string]interface{}`: the first entry for a key is the one that counts. -/
abbrev GoMap := List (String × Value)

/-- Go map indexing `m[key]`: the `nil` interface when the key is absent. -/
def GoMap.index (m : GoMap) (key : String) : Value :=
  (m.lookup key).getD Value.null

/-- The two-valued type assertion `v, ok := x.(string)`. -/
def Value.asString? : Value → Option String
  | .str s => some s
  | _ => none

/-- The two-valued type assertion `v, ok := x.(bool)`. -/
def Value.asBool? : Value → Option Bool
  | .bool b => some b
  | _ => none

/-- The two-valued type assertion `v, ok := x.(int)`. -/
def Value.asInt? : Value → Option Int
  | .int n => some n
  | _ => none

/-- The two-valued type assertion `v, ok := x.([]interface{})`. -/
def Value.asList? : Value → Option (List Value)
  | .list xs => some xs
  | _ => none

/-- The two-valued type assertion `v, ok := x.(map[string]interface{})`. -/
def Value.asMap? : Value → Option GoMap
  | .map kvs => some kvs
  | _ => none

/-- The comparison `x != nil` on an interface value. -/
def Value.isNil : Value → Bool
  | .null => true
  | _ => false

/-- Whether every value of the map is a string.  The schemas of this provider
declare their maps as `schema.TypeMap` without `Elem` (resource_binding.go:68-74,
resource_exchange.go:66-70, data_source_exchange.go:60-64,
resource_shovel.go:90-96, 112-118, 126-132, 141-147), and the elements of such a map
are strings. -/
def GoMap.allStrings (m : GoMap) : Bool :=
  m.all (fun kv => match kv.2 with
    | Value.str _ => true
    | _ => false)

/-- Whether the SDK accepts the value in `d.Set(key, value)` for the values that the
adapters of this provider write: a map attribute must hold strings only, and so must
every map that is a field of a record of a nested list (`settings`, `info`);
strings, booleans, integers and lists of them are accepted as they are. -/
def Value.fitsSchema : Value → Bool
  | Value.map m => GoMap.allStrings m
  | Value.list xs =>
    xs.all (fun x => match x with
      | Value.map block =>
        block.all (fun kv => match kv.2 with
          | Value.map m => GoMap.allStrings m
          | _ => true)
      | _ => true)
  | _ => true

/-- The attribute bag `*schema.ResourceData`: the identifier, what `Get` answers
for each key, what `HasChange` and `GetChange` (old value, new value) answer
for each key during an update, and what the SDK leaves under a key after a `Set`
that it refused (key, value held before, value refused): by default the value held
before. -/
structure ResourceData where
  id : String
  attrs : String → Value
  hasChange : String → Bool := fun _ => false
  getChange : String → Value × Value := fun k => (attrs k, attrs k)
  afterRefusedSet : String → Value → Value → Value := fun _ held _ => held

/-- Go `d.Id()`. -/
def ResourceData.Id (d : ResourceData) : String := d.id

/-- Go `d.Get(key)`. -/
def ResourceData.Get (d : ResourceData) (key : String) : Value := d.attrs key

/-- Go `d.SetId(v)`. -/
def ResourceData.SetId (d : ResourceData) (v : String) : ResourceData :=
  { d with id := v }

/-- Go `d.Set(key, value)` with its error dropped, as every adapter drops it: the
SDK checks the value against the schema and stores it when it fits; when it does
not, `d.Set` returns an error and the value is not stored. -/
def ResourceData.Set (d : ResourceData) (key : String) (v : Value) : ResourceData :=
  { d with attrs := fun k =>
      if k = key then
        (if v.fitsSchema then v else d.afterRefusedSet key (d.attrs key) v)
      else d.attrs k }

/-- Go `d.HasChange(key)`. -/
def ResourceData.HasChange (d : ResourceData) (key : String) : Bool := d.hasChange key

/-- Go `d.GetChange(key)`: the old and the new value. -/
def ResourceData.GetChange (d : ResourceData) (key : String) : Value × Value :=
  d.getChange key

/-- A bag that answers from a list of entries and `nil` elsewhere. -/
def ResourceData.ofList (id : String) (entries : GoMap) : ResourceData :=
  { id := id, attrs := fun k => GoMap.index entries k }

/-! ## The management client's types (package `rabbithole`) -/

/-- The part of `*http.Response` the adapters look at. -/
structure Response where
  StatusCode : Int
  Status : String
  Header : List (String × String)

/-- Go `resp.Header.Get(key)`: the empty string when the header is absent. -/
def Response.HeaderGet (resp : Response) (key : String) : String :=
  (resp.Header.lookup key).getD ""

/-- Go `rabbithole.BindingInfo`. -/
structure BindingInfo where
  Source : String := ""
  Vhost : String := ""
  Destination : String := ""
  DestinationType : String := ""
  RoutingKey : String := ""
  Arguments : GoMap := []
  PropertiesKey : String := ""

/-- Go `rabbithole.ExchangeSettings`; the Go field `Type` is `Type_` here. -/
structure ExchangeSettings where
  Type_ : String := ""
  Durable : Bool := false
  AutoDelete : Bool := false
  Arguments : GoMap := []

/-- The fields of `rabbithole.DetailedExchangeInfo` that are read; the Go field
`Type` is `Type_` here. -/
structure DetailedExchangeInfo where
  Name : String
  Vhost : String
  Type_ : String
  Durable : Bool
  AutoDelete : Bool
  Arguments : GoMap

/-- Go `rabbithole.UserSettings` as the adapters fill it. -/
structure UserSettings where
  Password : String := ""
  Tags : List String := []

/-- The fields of `rabbithole.UserInfo` that are read. -/
structure UserInfo where
  Name : String
  Tags : List String

/-- Go `rabbithole.Permissions`. -/
structure Permissions where
  Configure : String := ""
  Write : String := ""
  Read : String := ""

/-- The fields of `rabbithole.PermissionInfo` that are read. -/
structure PermissionInfo where
  User : String
  Vhost : String
  Configure : String
  Write : String
  Read : String

/-- Go `rabbithole.FederationDefinition`; `MessageTTL` is an `int32`. -/
structure FederationDefinition where
  Uri : List String := []
  Expires : Int := 0
  MessageTTL : Int := 0
  MaxHops : Int := 0
  PrefetchCount : Int := 0
  ReconnectDelay : Int := 0
  AckMode : String := ""
  TrustUserId : Bool := false
  Exchange : String := ""
  Queue : String := ""

/-- The fields of `rabbithole.FederationUpstream` that are read. -/
structure FederationUpstream where
  Name : String
  Vhost : String
  Component : String
  Definition : FederationDefinition

/-- Go `rabbithole.ShovelDefinition`; `DeleteAfter` values are strings and the URI sets
are string lists. -/
structure ShovelDefinition where
  AckMode : String := ""
  AddForwardHeaders : Bool := false
  DeleteAfter : String := ""
  DestinationAddForwardHeaders : Bool := false
  DestinationAddTimestampHeader : Bool := false
  DestinationAddress : String := ""
  DestinationApplicationProperties : GoMap := []
  DestinationExchange : String := ""
  DestinationExchangeKey : String := ""
  DestinationProperties : GoMap := []
  DestinationProtocol : String := ""
  DestinationPublishProperties : GoMap := []
  DestinationQueue : String := ""
  DestinationQueueArgs : GoMap := []
  DestinationURI : List String := []
  PrefetchCount : Int := 0
  ReconnectDelay : Int := 0
  SourceAddress : String := ""
  SourceDeleteAfter : String := ""
  SourceExchange : String := ""
  SourceExchangeKey : String := ""
  SourcePrefetchCount : Int := 0
  SourceProtocol : String := ""
  SourceQueue : String := ""
  SourceURI : List String := []

/-- The fields of `rabbithole.ShovelInfo` that are read. -/
structure ShovelInfo where
  Name : String
  Vhost : String
  Definition : ShovelDefinition

/-! ## Calls, events and the client -/

/-- A call on the management client, with its arguments. -/
inductive Call where
  | DeclareBinding (vhost : String) (info : BindingInfo)
  | DeleteBinding (vhost : String) (info : BindingInfo)
  | ListQueueBindingsBetween (vhost exchange queue : String)
  | ListExchangeBindingsBetween (vhost source destination : String)
  | ListBindingsIn (vhost : String)
  | DeclareExchange (vhost name : String) (settings : ExchangeSettings)
  | GetExchange (vhost name : String)
  | DeleteExchange (vhost name : String)
  | PutUser (name : String) (settings : UserSettings)
  | GetUser (name : String)
  | DeleteUser (name : String)
  | UpdatePermissionsIn (vhost user : String) (perms : Permissions)
  | GetPermissionsIn (vhost user : String)
  | ClearPermissionsIn (vhost user : String)
  | PutFederationUpstream (vhost name : String) (definition : FederationDefinition)
  | GetFederationUpstream (vhost name : String)
  | DeleteFederationUpstream (vhost name : String)
  | DeclareShovel (vhost name : String) (definition : ShovelDefinition)
  | GetShovel (vhost name : String)
  | DeleteShovel (vhost name : String)

/-- What an adapter does that can be observed: a call on the client, `d.SetId`,
`d.Set`. -/
inductive Event where
  | call (c : Call)
  | setId (id : String)
  | set (key : String) (v : Value)

/-- The client `*rabbithole.Client`: the reply to each call, which may depend on
everything that happened before it. -/
structure Client where
  DeclareBinding : List Event → String → BindingInfo → Except GoError Response
  DeleteBinding : List Event → String → BindingInfo → Except GoError Response
  ListQueueBindingsBetween :
    List Event → String → String → String → Except GoError (List BindingInfo)
  ListExchangeBindingsBetween :
    List Event → String → String → String → Except GoError (List BindingInfo)
  ListBindingsIn : List Event → String → Except GoError (List BindingInfo)
  DeclareExchange : List Event → String → String → ExchangeSettings → Except GoError Response
  GetExchange : List Event → String → String → Except GoError DetailedExchangeInfo
  DeleteExchange : List Event → String → String → Except GoError Response
  PutUser : List Event → String → UserSettings → Except GoError Response
  GetUser : List Event → String → Except GoError UserInfo
  DeleteUser : List Event → String → Except GoError Response
  UpdatePermissionsIn : List Event → String → String → Permissions → Except GoError Response
  GetPermissionsIn : List Event → String → String → Except GoError PermissionInfo
  ClearPermissionsIn : List Event → String → String → Except GoError Response
  PutFederationUpstream :
    List Event → String → String → FederationDefinition → Except GoError Response
  GetFederationUpstream : List Event → String → String → Except GoError FederationUpstream
  DeleteFederationUpstream : List Event → String → String → Except GoError Response
  DeclareShovel : List Event → String → String → ShovelDefinition → Except GoError Response
  GetShovel : List Event → String → String → Except GoError ShovelInfo
  DeleteShovel : List Event → String → String → Except GoError Response

/-- The Go library functions the adapters call: `json.Unmarshal` into a
`map[string]interface{}`, `json.Marshal` of such a map, `url.PathUnescape`. -/
structure Lib where
  jsonUnmarshal : String → Except GoError GoMap
  jsonMarshal : GoMap → Except GoError String
  PathUnescape : String → Except GoError String

/-- The bag together with the events so far, oldest first. -/
structure State where
  d : ResourceData
  log : List Event

/-- Record a call on the client. -/
def State.call (s : State) (c : Call) : State :=
  { s with log := s.log ++ [Event.call c] }

/-- Go `d.SetId(id)`, recorded. -/
def State.SetId (s : State) (id : String) : State :=
  { d := s.d.SetId id, log := s.log ++ [Event.setId id] }

/-- Go `d.Set(key, v)`, recorded. -/
def State.Set (s : State) (key : String) (v : Value) : State :=
  { d := s.d.Set key v, log := s.log ++ [Event.set key v] }

/-- How an adapter ends: `return nil`, `return err`, or a Go run-time panic
(failed one-valued type assertion, index out of range). -/
inductive Ret where
  | nil : Ret
  | err (e : GoError) : Ret
  | goPanic : Ret

/-- Go `fmt.Errorf(pre + "%w", e)`: the message is extended, the wrapped error stays
recognisable. -/
def ErrorfWrap (pre : String) (e : GoError) : GoError :=
  { message := pre ++ e.message, notFound := e.notFound }

/-- Modelled from the spec: `parseResourceId` lives in `util.go`, which is missing.
Decoding takes the full identifier, splits on `@`, and treats what is before as
name and what is after as vhost.  The spec fixes the result for one `@` only; an
identifier that does not split into exactly two parts is taken to give the error
that every caller tests for (`if err != nil`). -/
def parseResourceId (d : ResourceData) : Except GoError (String × String) :=
  match stringsSplit d.Id '@' with
  | [name, vhost] => .ok (name, vhost)
  | _ => .error (Errorf ("Unable to parse resource id: " ++ d.Id))

/-- Modelled from the spec: `checkDeleted` lives in `util.go`, which is missing.
When the fetch reports the client's typed "not found" error the identifier is
cleared and no error is returned; any other error propagates. -/
def checkDeleted (s : State) (e : GoError) : Ret × State :=
  if e.notFound then (Ret.nil, s.SetId "") else (Ret.err e, s)

/-! ## Binding (resource_binding.go) -/

/-- Function `declareBinding` (resource_binding.go:244-266).  The left side of the result is
how the function ends without a key. -/
def declareBinding (lib : Lib) (rmqc : Client) (s : State) (vhost : String)
    (bindingInfo : BindingInfo) : Except Ret String × State :=
  let s1 := s.call (Call.DeclareBinding vhost bindingInfo)
  match rmqc.DeclareBinding s.log vhost bindingInfo with
  | .error e => (.error (Ret.err e), s1)
  | .ok resp =>
    if resp.StatusCode ≥ 400 then
      (.error (Ret.err (Errorf ("Error declaring RabbitMQ binding: " ++ resp.Status))), s1)
    else
      let location := stringsSplit (resp.HeaderGet "Location") '/'
      match location[location.length - 1]? with
      | none => (.error Ret.goPanic, s1)
      | some last =>
        match lib.PathUnescape last with
        | .error e => (.error (Ret.err e), s1)
        | .ok propertiesKey => (.ok propertiesKey, s1)

/-- The `for _, binding := range bindings` loop of `ReadBinding`
(resource_binding.go:165-189), carrying `bindingFound`; the left side of the result
is the early `return` on a JSON encoding error. -/
def ReadBindingLoop (lib : Lib) (source destination destinationType propertiesKey : String) :
    List BindingInfo → Bool → State → Except (GoError × State) (Bool × State)
  | [], bindingFound, s => .ok (bindingFound, s)
  | binding :: rest, bindingFound, s =>
    if binding.Source = source ∧ binding.Destination = destination ∧
        binding.DestinationType = destinationType ∧ binding.PropertiesKey = propertiesKey then
      let s1 := s.Set "vhost" (Value.str binding.Vhost)
      let s2 := s1.Set "source" (Value.str binding.Source)
      let s3 := s2.Set "destination" (Value.str binding.Destination)
      let s4 := s3.Set "destination_type" (Value.str binding.DestinationType)
      let s5 := s4.Set "routing_key" (Value.str binding.RoutingKey)
      let s6 := s5.Set "properties_key" (Value.str binding.PropertiesKey)
      let useJson : Bool :=
        match (s6.d.Get "arguments_json").asString? with
        | some v => v ≠ ""
        | none => false
      if useJson then
        match lib.jsonMarshal binding.Arguments with
        | .error e => .error (ErrorfWrap "could not encode arguments as JSON: " e, s6)
        | .ok bytes =>
          ReadBindingLoop lib source destination destinationType propertiesKey rest true
            (s6.Set "arguments_json" (Value.str bytes))
      else
        ReadBindingLoop lib source destination destinationType propertiesKey rest true
          (s6.Set "arguments" (Value.map binding.Arguments))
    else
      ReadBindingLoop lib source destination destinationType propertiesKey rest bindingFound s

/-- Function `ReadBinding` (resource_binding.go:127-198). -/
def ReadBinding (lib : Lib) (rmqc : Client) (s : State) : Ret × State :=
  match bindingIdSegments s.d.Id with
  | .error e => (Ret.err e, s)
  | .ok (seg0, source, destination, destinationType, propertiesKey) =>
    let vhost := percentDecodeSlashes seg0
    let listed : Except GoError (List BindingInfo) × State :=
      if destinationType = "queue" then
        (rmqc.ListQueueBindingsBetween s.log vhost source destination,
          s.call (Call.ListQueueBindingsBetween vhost source destination))
      else if destinationType = "exchange" then
        (rmqc.ListExchangeBindingsBetween s.log vhost source destination,
          s.call (Call.ListExchangeBindingsBetween vhost source destination))
      else
        (rmqc.ListBindingsIn s.log vhost, s.call (Call.ListBindingsIn vhost))
    match listed with
    | (.error e, s1) => (Ret.err e, s1)
    | (.ok bindings, s1) =>
      match ReadBindingLoop lib source destination destinationType propertiesKey
          bindings false s1 with
      | .error (e, s2) => (Ret.err e, s2)
      | .ok (bindingFound, s2) =>
        if !bindingFound then (Ret.nil, s2.SetId "") else (Ret.nil, s2)

/-- The arguments that `CreateBinding` transmits (resource_binding.go:94-104): the
parsed `arguments_json` when that attribute is a non-empty string, else the
structured `arguments`; a parse error ends the adapter. -/
def bindingArguments (lib : Lib) (d : ResourceData) (arguments : GoMap) :
    Except GoError GoMap :=
  match (d.Get "arguments_json").asString? with
  | some v => if v ≠ "" then lib.jsonUnmarshal v else .ok arguments
  | none => .ok arguments

/-- Function `CreateBinding` (resource_binding.go:88-125). -/
def CreateBinding (lib : Lib) (rmqc : Client) (s : State) : Ret × State :=
  match (s.d.Get "vhost").asString?, (s.d.Get "arguments").asMap? with
  | some vhost, some arguments0 =>
    match bindingArguments lib s.d arguments0 with
    | .error e => (Ret.err e, s)
    | .ok arguments =>
      match (s.d.Get "source").asString?, (s.d.Get "destination").asString?,
          (s.d.Get "destination_type").asString?, (s.d.Get "routing_key").asString? with
      | some source, some destination, some destinationType, some routingKey =>
        let bindingInfo : BindingInfo :=
          { Source := source, Destination := destination,
            DestinationType := destinationType, RoutingKey := routingKey,
            Arguments := arguments }
        match declareBinding lib rmqc s vhost bindingInfo with
        | (.error r, s1) => (r, s1)
        | (.ok propertiesKey, s1) =>
          let bindingInfo1 : BindingInfo := { bindingInfo with PropertiesKey := propertiesKey }
          let name := sprintfBindingId (percentEncodeSlashes vhost) bindingInfo1.Source
            bindingInfo1.Destination bindingInfo1.DestinationType bindingInfo1.PropertiesKey
          ReadBinding lib rmqc (s1.SetId name)
      | _, _, _, _ => (Ret.goPanic, s)
  | _, _ => (Ret.goPanic, s)

/-- Function `DeleteBinding` (resource_binding.go:200-242). -/
def DeleteBinding (rmqc : Client) (s : State) : Ret × State :=
  match bindingIdSegments s.d.Id with
  | .error e => (Ret.err e, s)
  | .ok (seg0, source, destination, destinationType, propertiesKey) =>
    let vhost := percentDecodeSlashes seg0
    let bindingInfo : BindingInfo :=
      { Vhost := vhost, Source := source, Destination := destination,
        DestinationType := destinationType, PropertiesKey := propertiesKey }
    let s1 := s.call (Call.DeleteBinding vhost bindingInfo)
    match rmqc.DeleteBinding s.log vhost bindingInfo with
    | .error e => (Ret.err e, s1)
    | .ok resp =>
      if resp.StatusCode = 404 then (Ret.nil, s1)
      else if resp.StatusCode ≥ 400 then
        (Ret.err (Errorf ("Error deleting RabbitMQ binding: " ++ resp.Status)), s1)
      else (Ret.nil, s1)

/-! ## Exchange (resource_exchange.go) -/

/-- The `exchangeSettings` that `declareExchange` builds from the settings map
(resource_exchange.go:159-175). -/
def exchangeSettingsFromMap (settingsMap : GoMap) : ExchangeSettings :=
  { Type_ := ((settingsMap.index "type").asString?).getD "",
    Durable := ((settingsMap.index "durable").asBool?).getD false,
    AutoDelete := ((settingsMap.index "auto_delete").asBool?).getD false,
    Arguments := ((settingsMap.index "arguments").asMap?).getD [] }

/-- Function `declareExchange` (resource_exchange.go:158-190). -/
def declareExchange (rmqc : Client) (s : State) (vhost name : String)
    (settingsMap : GoMap) : Ret × State :=
  let exchangeSettings := exchangeSettingsFromMap settingsMap
  let s1 := s.call (Call.DeclareExchange vhost name exchangeSettings)
  match rmqc.DeclareExchange s.log vhost name exchangeSettings with
  | .error e => (Ret.err e, s1)
  | .ok resp =>
    if resp.StatusCode ≥ 400 then
      (Ret.err (Errorf ("Error declaring RabbitMQ exchange: " ++ resp.Status)), s1)
    else (Ret.nil, s1)

/-- Function `ReadExchange` (resource_exchange.go:100-128). -/
def ReadExchange (rmqc : Client) (s : State) : Ret × State :=
  match parseResourceId s.d with
  | .error e => (Ret.err e, s)
  | .ok (name, vhost) =>
    let s1 := s.call (Call.GetExchange vhost name)
    match rmqc.GetExchange s.log vhost name with
    | .error e => checkDeleted s1 e
    | .ok exchangeSettings =>
      let s2 := s1.Set "name" (Value.str exchangeSettings.Name)
      let s3 := s2.Set "vhost" (Value.str exchangeSettings.Vhost)
      let e : GoMap :=
        [("type", Value.str exchangeSettings.Type_),
         ("durable", Value.bool exchangeSettings.Durable),
         ("auto_delete", Value.bool exchangeSettings.AutoDelete),
         ("arguments", Value.map exchangeSettings.Arguments)]
      (Ret.nil, s3.Set "settings" (Value.list [Value.map e]))

/-- Function `CreateExchange` (resource_exchange.go:78-98). -/
def CreateExchange (rmqc : Client) (s : State) : Ret × State :=
  match (s.d.Get "name").asString?, (s.d.Get "vhost").asString?,
      (s.d.Get "settings").asList? with
  | some name, some vhost, some (first :: _) =>
    match first.asMap? with
    | none => (Ret.err (Errorf "Unable to parse settings"), s)
    | some settingsMap =>
      match declareExchange rmqc s vhost name settingsMap with
      | (Ret.nil, s1) => ReadExchange rmqc (s1.SetId (sprintfNameAtVhost name vhost))
      | (r, s1) => (r, s1)
  | _, _, _ => (Ret.goPanic, s)

/-- Function `DeleteExchange` (resource_exchange.go:130-156). -/
def DeleteExchange (rmqc : Client) (s : State) : Ret × State :=
  match parseResourceId s.d with
  | .error e => (Ret.err e, s)
  | .ok (name, vhost) =>
    let s1 := s.call (Call.DeleteExchange vhost name)
    match rmqc.DeleteExchange s.log vhost name with
    | .error e => (Ret.err e, s1)
    | .ok resp =>
      if resp.StatusCode = 404 then (Ret.nil, s1)
      else if resp.StatusCode ≥ 400 then
        (Ret.err (Errorf ("Error deleting RabbitMQ exchange: " ++ resp.Status)), s1)
      else (Ret.nil, s1)

/-! ## User (resource_user.go) -/

/-- Function `userTagsToString` (resource_user.go:153-162), on the value of `d.Get("tags")`
once asserted to be a list: the string elements, in order. -/
def userTagsToString (tags : List Value) : List String :=
  tags.filterMap Value.asString?

/-- Function `ReadUser` (resource_user.go:75-100). -/
def ReadUser (rmqc : Client) (s : State) : Ret × State :=
  let s1 := s.call (Call.GetUser s.d.Id)
  match rmqc.GetUser s.log s.d.Id with
  | .error e => checkDeleted s1 e
  | .ok user =>
    let s2 := s1.Set "name" (Value.str user.Name)
    if user.Tags.length > 0 then
      let tagList := user.Tags.filter (fun v => v ≠ "")
      if tagList.length > 0 then
        (Ret.nil, s2.Set "tags" (Value.list (tagList.map Value.str)))
      else (Ret.nil, s2)
    else (Ret.nil, s2)

/-- Function `CreateUser` (resource_user.go:48-73). -/
def CreateUser (rmqc : Client) (s : State) : Ret × State :=
  match (s.d.Get "name").asString?, (s.d.Get "password").asString?,
      (s.d.Get "tags").asList? with
  | some name, some password, some tags =>
    let userSettings : UserSettings :=
      { Password := password, Tags := userTagsToString tags }
    let s1 := s.call (Call.PutUser name userSettings)
    match rmqc.PutUser s.log name userSettings with
    | .error e => (Ret.err e, s1)
    | .ok resp =>
      if resp.StatusCode ≥ 400 then
        (Ret.err (Errorf ("Error creating RabbitMQ user: " ++ resp.Status)), s1)
      else ReadUser rmqc (s1.SetId name)
  | _, _, _ => (Ret.goPanic, s)

/-- Function `DeleteUser` (resource_user.go:129-151). -/
def DeleteUser (rmqc : Client) (s : State) : Ret × State :=
  let name := s.d.Id
  let s1 := s.call (Call.DeleteUser name)
  match rmqc.DeleteUser s.log name with
  | .error e => (Ret.err e, s1)
  | .ok resp =>
    if resp.StatusCode = 404 then (Ret.nil, s1)
    else if resp.StatusCode ≥ 400 then
      (Ret.err (Errorf ("Error deleting RabbitMQ user: " ++ resp.Status)), s1)
    else (Ret.nil, s1)

/-- Function `UpdateUser` (resource_user.go:102-127). -/
def UpdateUser (rmqc : Client) (s : State) : Ret × State :=
  let name := s.d.Id
  match (s.d.Get "tags").asList?, (s.d.Get "password").asString? with
  | some tags, some password =>
    let userSettings : UserSettings :=
      { Password := password, Tags := userTagsToString tags }
    let s1 := s.call (Call.PutUser name userSettings)
    match rmqc.PutUser s.log name userSettings with
    | .error e => (Ret.err e, s1)
    | .ok resp =>
      if resp.StatusCode ≥ 400 then
        (Ret.err (Errorf ("Error updating RabbitMQ user: " ++ resp.Status)), s1)
      else ReadUser rmqc s1
  | _, _ => (Ret.goPanic, s)

/-! ## Permissions (resource_permissions.go) -/

/-- The `perms` that `setPermissionsIn` builds from the permissions map
(resource_permissions.go:175-187). -/
def permissionsFromMap (permsMap : GoMap) : Permissions :=
  { Configure := ((permsMap.index "configure").asString?).getD "",
    Write := ((permsMap.index "write").asString?).getD "",
    Read := ((permsMap.index "read").asString?).getD "" }

/-- Function `setPermissionsIn` (resource_permissions.go:174-202). -/
def setPermissionsIn (rmqc : Client) (s : State) (vhost user : String)
    (permsMap : GoMap) : Ret × State :=
  let perms := permissionsFromMap permsMap
  let s1 := s.call (Call.UpdatePermissionsIn vhost user perms)
  match rmqc.UpdatePermissionsIn s.log vhost user perms with
  | .error e => (Ret.err e, s1)
  | .ok resp =>
    if resp.StatusCode ≥ 400 then
      (Ret.err (Errorf ("Error setting permissions: " ++ resp.Status)), s1)
    else (Ret.nil, s1)

/-- Function `ReadPermissions` (resource_permissions.go:92-119). -/
def ReadPermissions (rmqc : Client) (s : State) : Ret × State :=
  match parseResourceId s.d with
  | .error e => (Ret.err e, s)
  | .ok (user, vhost) =>
    let s1 := s.call (Call.GetPermissionsIn vhost user)
    match rmqc.GetPermissionsIn s.log vhost user with
    | .error e => checkDeleted s1 e
    | .ok userPerms =>
      let s2 := s1.Set "user" (Value.str userPerms.User)
      let s3 := s2.Set "vhost" (Value.str userPerms.Vhost)
      let p : GoMap :=
        [("configure", Value.str userPerms.Configure),
         ("write", Value.str userPerms.Write),
         ("read", Value.str userPerms.Read)]
      (Ret.nil, s3.Set "permissions" (Value.list [Value.map p]))

/-- Function `CreatePermissions` (resource_permissions.go:70-90). -/
def CreatePermissions (rmqc : Client) (s : State) : Ret × State :=
  match (s.d.Get "user").asString?, (s.d.Get "vhost").asString?,
      (s.d.Get "permissions").asList? with
  | some user, some vhost, some (first :: _) =>
    let asserted : Option GoMap := if first.isNil then some [] else first.asMap?
    match asserted with
    | none => (Ret.goPanic, s)
    | some permsMap =>
      match setPermissionsIn rmqc s vhost user permsMap with
      | (Ret.nil, s1) => ReadPermissions rmqc (s1.SetId (sprintfNameAtVhost user vhost))
      | (r, s1) => (r, s1)
  | _, _, _ => (Ret.goPanic, s)

/-- Function `DeletePermissions` (resource_permissions.go:146-172). -/
def DeletePermissions (rmqc : Client) (s : State) : Ret × State :=
  match parseResourceId s.d with
  | .error e => (Ret.err e, s)
  | .ok (user, vhost) =>
    let s1 := s.call (Call.ClearPermissionsIn vhost user)
    match rmqc.ClearPermissionsIn s.log vhost user with
    | .error e => (Ret.err e, s1)
    | .ok resp =>
      if resp.StatusCode = 404 then (Ret.nil, s1)
      else if resp.StatusCode ≥ 400 then
        (Ret.err (Errorf ("Error deleting RabbitMQ permission: " ++ resp.Status)), s1)
      else (Ret.nil, s1)

/-- Function `UpdatePermissions` (resource_permissions.go:121-144). -/
def UpdatePermissions (rmqc : Client) (s : State) : Ret × State :=
  match parseResourceId s.d with
  | .error e => (Ret.err e, s)
  | .ok (user, vhost) =>
    if s.d.HasChange "permissions" then
      match (s.d.GetChange "permissions").2.asList? with
      | some (first :: _) =>
        match first.asMap? with
        | none => (Ret.err (Errorf "Unable to parse permissions"), s)
        | some permsMap =>
          match setPermissionsIn rmqc s vhost user permsMap with
          | (Ret.nil, s1) => ReadPermissions rmqc s1
          | (r, s1) => (r, s1)
      | _ => (Ret.goPanic, s)
    else ReadPermissions rmqc s

/-! ## Federation upstream (resource_federation_upstream.go) -/

/-- The Go conversion `int32(v)` of an `int`: reduction modulo 2^32 into the signed
range. -/
def toInt32 (v : Int) : Int :=
  (v + 2147483648) % 4294967296 - 2147483648

/-- The `definition` that `putFederationUpstream` builds from the definition map
(resource_federation_upstream.go:248-290). -/
def federationDefinitionFromMap (defMap : GoMap) : FederationDefinition :=
  { Uri := match (defMap.index "uri").asString? with
      | some v => [v]
      | none => [],
    Expires := ((defMap.index "expires").asInt?).getD 0,
    MessageTTL := match (defMap.index "message_ttl").asInt? with
      | some v => toInt32 v
      | none => 0,
    MaxHops := ((defMap.index "max_hops").asInt?).getD 0,
    PrefetchCount := ((defMap.index "prefetch_count").asInt?).getD 0,
    ReconnectDelay := ((defMap.index "reconnect_delay").asInt?).getD 0,
    AckMode := ((defMap.index "ack_mode").asString?).getD "",
    TrustUserId := ((defMap.index "trust_user_id").asBool?).getD false,
    Exchange := ((defMap.index "exchange").asString?).getD "",
    Queue := ((defMap.index "queue").asString?).getD "" }

/-- Function `putFederationUpstream` (resource_federation_upstream.go:247-305). -/
def putFederationUpstream (rmqc : Client) (s : State) (vhost name : String)
    (defMap : GoMap) : Ret × State :=
  let definition := federationDefinitionFromMap defMap
  let s1 := s.call (Call.PutFederationUpstream vhost name definition)
  match rmqc.PutFederationUpstream s.log vhost name definition with
  | .error e => (Ret.err e, s1)
  | .ok resp =>
    if resp.StatusCode ≥ 400 then
      (Ret.err (Errorf ("Error creating RabbitMQ federation upstream: " ++ resp.Status)), s1)
    else (Ret.nil, s1)

/-- Function `ReadFederationUpstream` (resource_federation_upstream.go:152-192). -/
def ReadFederationUpstream (rmqc : Client) (s : State) : Ret × State :=
  match parseResourceId s.d with
  | .error e => (Ret.err e, s)
  | .ok (name, vhost) =>
    let s1 := s.call (Call.GetFederationUpstream vhost name)
    match rmqc.GetFederationUpstream s.log vhost name with
    | .error e => checkDeleted s1 e
    | .ok upstream =>
      let s2 := s1.Set "name" (Value.str upstream.Name)
      let s3 := s2.Set "vhost" (Value.str upstream.Vhost)
      let s4 := s3.Set "component" (Value.str upstream.Component)
      let uri : String :=
        match upstream.Definition.Uri with
        | u :: _ => u
        | [] => ""
      let defMap : GoMap :=
        [("uri", Value.str uri),
         ("prefetch_count", Value.int upstream.Definition.PrefetchCount),
         ("reconnect_delay", Value.int upstream.Definition.ReconnectDelay),
         ("ack_mode", Value.str upstream.Definition.AckMode),
         ("trust_user_id", Value.bool upstream.Definition.TrustUserId),
         ("exchange", Value.str upstream.Definition.Exchange),
         ("max_hops", Value.int upstream.Definition.MaxHops),
         ("expires", Value.int upstream.Definition.Expires),
         ("message_ttl", Value.int upstream.Definition.MessageTTL),
         ("queue", Value.str upstream.Definition.Queue)]
      (Ret.nil, s4.Set "definition" (Value.list [Value.map defMap]))

/-- Function `CreateFederationUpstream` (resource_federation_upstream.go:130-150). -/
def CreateFederationUpstream (rmqc : Client) (s : State) : Ret × State :=
  match (s.d.Get "name").asString?, (s.d.Get "vhost").asString?,
      (s.d.Get "definition").asList? with
  | some name, some vhost, some (first :: _) =>
    match first.asMap? with
    | none => (Ret.err (Errorf "Unable to parse federation upstream definition"), s)
    | some defMap =>
      match putFederationUpstream rmqc s vhost name defMap with
      | (Ret.nil, s1) =>
        ReadFederationUpstream rmqc (s1.SetId (sprintfNameAtVhost name vhost))
      | (r, s1) => (r, s1)
  | _, _, _ => (Ret.goPanic, s)

/-- Function `DeleteFederationUpstream` (resource_federation_upstream.go:219-245). -/
def DeleteFederationUpstream (rmqc : Client) (s : State) : Ret × State :=
  match parseResourceId s.d with
  | .error e => (Ret.err e, s)
  | .ok (name, vhost) =>
    let s1 := s.call (Call.DeleteFederationUpstream vhost name)
    match rmqc.DeleteFederationUpstream s.log vhost name with
    | .error e => (Ret.err e, s1)
    | .ok resp =>
      if resp.StatusCode = 404 then (Ret.nil, s1)
      else if resp.StatusCode ≥ 400 then
        (Ret.err (Errorf ("Error deleting RabbitMQ federation upstream: " ++ resp.Status)), s1)
      else (Ret.nil, s1)

/-- Function `UpdateFederationUpstream` (resource_federation_upstream.go:194-217). -/
def UpdateFederationUpstream (rmqc : Client) (s : State) : Ret × State :=
  match parseResourceId s.d with
  | .error e => (Ret.err e, s)
  | .ok (name, vhost) =>
    if s.d.HasChange "definition" then
      match (s.d.GetChange "definition").2.asList? with
      | some (first :: _) =>
        match first.asMap? with
        | none => (Ret.err (Errorf "Unable to parse federation definition"), s)
        | some defMap =>
          match putFederationUpstream rmqc s vhost name defMap with
          | (Ret.nil, s1) => ReadFederationUpstream rmqc s1
          | (r, s1) => (r, s1)
      | _ => (Ret.goPanic, s)
    else ReadFederationUpstream rmqc s

/-! ## Shovel (resource_shovel.go) -/

/-- Function `setShovelDefinition` (resource_shovel.go:371-473): each key that holds a value of
the expected type is copied, a field whose key is absent or of another type stays
at its zero value. -/
def setShovelDefinition (shovelMap : GoMap) : ShovelDefinition :=
  { AckMode := ((shovelMap.index "ack_mode").asString?).getD "",
    AddForwardHeaders := ((shovelMap.index "add_forward_headers").asBool?).getD false,
    DeleteAfter := ((shovelMap.index "delete_after").asString?).getD "",
    DestinationAddForwardHeaders :=
      ((shovelMap.index "destination_add_forward_headers").asBool?).getD false,
    DestinationAddTimestampHeader :=
      ((shovelMap.index "destination_add_timestamp_header").asBool?).getD false,
    DestinationAddress := ((shovelMap.index "destination_address").asString?).getD "",
    DestinationApplicationProperties :=
      ((shovelMap.index "destination_application_properties").asMap?).getD [],
    DestinationExchange := ((shovelMap.index "destination_exchange").asString?).getD "",
    DestinationExchangeKey :=
      ((shovelMap.index "destination_exchange_key").asString?).getD "",
    DestinationProperties := ((shovelMap.index "destination_properties").asMap?).getD [],
    DestinationProtocol := ((shovelMap.index "destination_protocol").asString?).getD "",
    DestinationPublishProperties :=
      ((shovelMap.index "destination_publish_properties").asMap?).getD [],
    DestinationQueue := ((shovelMap.index "destination_queue").asString?).getD "",
    DestinationQueueArgs :=
      ((shovelMap.index "destination_queue_arguments").asMap?).getD [],
    DestinationURI := match (shovelMap.index "destination_uri").asString? with
      | some v => [v]
      | none => [],
    PrefetchCount := ((shovelMap.index "prefetch_count").asInt?).getD 0,
    ReconnectDelay := ((shovelMap.index "reconnect_delay").asInt?).getD 0,
    SourceAddress := ((shovelMap.index "source_address").asString?).getD "",
    SourceDeleteAfter := ((shovelMap.index "source_delete_after").asString?).getD "",
    SourceExchange := ((shovelMap.index "source_exchange").asString?).getD "",
    SourceExchangeKey := ((shovelMap.index "source_exchange_key").asString?).getD "",
    SourcePrefetchCount := ((shovelMap.index "source_prefetch_count").asInt?).getD 0,
    SourceProtocol := ((shovelMap.index "source_protocol").asString?).getD "",
    SourceQueue := ((shovelMap.index "source_queue").asString?).getD "",
    SourceURI := match (shovelMap.index "source_uri").asString? with
      | some v => [v]
      | none => [] }

/-- The `info` map that `ReadShovel` builds from a remote definition
(resource_shovel.go:281-310); the two URI keys are present only for a non-empty
URI list. -/
def shovelInfoMap (definition : ShovelDefinition) : GoMap :=
  [("ack_mode", Value.str definition.AckMode),
   ("add_forward_headers", Value.bool definition.AddForwardHeaders),
   ("delete_after", Value.str definition.DeleteAfter),
   ("destination_add_forward_headers", Value.bool definition.DestinationAddForwardHeaders),
   ("destination_add_timestamp_header", Value.bool definition.DestinationAddTimestampHeader),
   ("destination_address", Value.str definition.DestinationAddress),
   ("destination_application_properties",
     Value.map definition.DestinationApplicationProperties),
   ("destination_exchange", Value.str definition.DestinationExchange),
   ("destination_exchange_key", Value.str definition.DestinationExchangeKey),
   ("destination_properties", Value.map definition.DestinationProperties),
   ("destination_protocol", Value.str definition.DestinationProtocol),
   ("destination_publish_properties", Value.map definition.DestinationPublishProperties),
   ("destination_queue", Value.str definition.DestinationQueue),
   ("destination_queue_arguments", Value.map definition.DestinationQueueArgs)]
  ++ (match definition.DestinationURI with
      | u :: _ => [("destination_uri", Value.str u)]
      | [] => [])
  ++ [("prefetch_count", Value.int definition.PrefetchCount),
      ("reconnect_delay", Value.int definition.ReconnectDelay),
      ("source_address", Value.str definition.SourceAddress),
      ("source_delete_after", Value.str definition.SourceDeleteAfter),
      ("source_exchange", Value.str definition.SourceExchange),
      ("source_exchange_key", Value.str definition.SourceExchangeKey),
      ("source_prefetch_count", Value.int definition.SourcePrefetchCount),
      ("source_protocol", Value.str definition.SourceProtocol),
      ("source_queue", Value.str definition.SourceQueue)]
  ++ (match definition.SourceURI with
      | u :: _ => [("source_uri", Value.str u)]
      | [] => [])

/-- Function `ReadShovel` (resource_shovel.go:266-317). -/
def ReadShovel (rmqc : Client) (s : State) : Ret × State :=
  match parseResourceId s.d with
  | .error e => (Ret.err e, s)
  | .ok (name, vhost) =>
    let s1 := s.call (Call.GetShovel vhost name)
    match rmqc.GetShovel s.log vhost name with
    | .error e => checkDeleted s1 e
    | .ok shovelInfo =>
      let info := shovelInfoMap shovelInfo.Definition
      let s2 := s1.Set "name" (Value.str shovelInfo.Name)
      let s3 := s2.Set "vhost" (Value.str shovelInfo.Vhost)
      (Ret.nil, s3.Set "info" (Value.list [Value.map info]))

/-- Function `CreateShovel` (resource_shovel.go:238-264). -/
def CreateShovel (rmqc : Client) (s : State) : Ret × State :=
  match (s.d.Get "vhost").asString?, (s.d.Get "name").asString?,
      (s.d.Get "info").asList? with
  | some vhost, some shovelName, some (first :: _) =>
    match first.asMap? with
    | none => (Ret.err (Errorf "Unable to parse shovel info"), s)
    | some shovelMap =>
      let shovelDefinition := setShovelDefinition shovelMap
      let s1 := s.call (Call.DeclareShovel vhost shovelName shovelDefinition)
      match rmqc.DeclareShovel s.log vhost shovelName shovelDefinition with
      | .error e => (Ret.err e, s1)
      | .ok _ => ReadShovel rmqc (s1.SetId (sprintfNameAtVhost shovelName vhost))
  | _, _, _ => (Ret.goPanic, s)

/-- Function `DeleteShovel` (resource_shovel.go:348-369). -/
def DeleteShovel (rmqc : Client) (s : State) : Ret × State :=
  match parseResourceId s.d with
  | .error e => (Ret.err e, s)
  | .ok (name, vhost) =>
    let s1 := s.call (Call.DeleteShovel vhost name)
    match rmqc.DeleteShovel s.log vhost name with
    | .error e => (Ret.err e, s1)
    | .ok resp =>
      if resp.StatusCode ≥ 400 then
        (Ret.err (Errorf ("Error deleting RabbitMQ shovel: " ++ resp.Status)), s1)
      else (Ret.nil, s1)

/-! ## User data source (data_source_user.go) -/

/-- Function `dataSourcesReadUser` (data_source_user.go:38-69); the diagnostics it
returns are empty (`nil`) or hold the one error given to `diag.FromErr`. -/
def dataSourcesReadUser (rmqc : Client) (s : State) : Ret × State :=
  match (s.d.Get "name").asString? with
  | none => (Ret.goPanic, s)
  | some name =>
    let s1 := s.call (Call.GetUser name)
    match rmqc.GetUser s.log name with
    | .error e => checkDeleted s1 e
    | .ok user =>
      let s2 := s1.Set "name" (Value.str user.Name)
      let s3 : State :=
        if user.Tags.length > 0 then
          let tagList := user.Tags.filter (fun v => v ≠ "")
          if tagList.length > 0 then s2.Set "tags" (Value.list (tagList.map Value.str))
          else s2
        else s2
      (Ret.nil, s3.SetId name)

/-! ## Exchange data source (data_source_exchange.go) -/

/-- Function `dataSourcesReadExchange` (data_source_exchange.go:72-103); the
diagnostics it returns are empty (`nil`) or hold the one error given to
`diag.FromErr`. -/
def dataSourcesReadExchange (rmqc : Client) (s : State) : Ret × State :=
  match (s.d.Get "name").asString?, (s.d.Get "vhost").asString? with
  | some name, some vhost =>
    let id := sprintfNameAtVhost name vhost
    let s1 := s.call (Call.GetExchange vhost name)
    match rmqc.GetExchange s.log vhost name with
    | .error e => checkDeleted s1 e
    | .ok exchangeSettings =>
      let s2 := s1.Set "name" (Value.str exchangeSettings.Name)
      let s3 := s2.Set "vhost" (Value.str exchangeSettings.Vhost)
      let e : GoMap :=
        [("type", Value.str exchangeSettings.Type_),
         ("durable", Value.bool exchangeSettings.Durable),
         ("auto_delete", Value.bool exchangeSettings.AutoDelete),
         ("arguments", Value.map exchangeSettings.Arguments)]
      (Ret.nil, (s3.Set "settings" (Value.list [Value.map e])).SetId id)
  | _, _ => (Ret.goPanic, s)

/-! ## The end-to-end scenarios of the spec, as a concrete client -/

/-- The reply `201 Created` with a `Location` header. -/
def createdAt (location : String) : Response :=
  { StatusCode := 201, Status := "201 Created", Header := [("Location", location)] }

/-- The reply `204 No Content`. -/
def noContent : Response :=
  { StatusCode := 204, Status := "204 No Content", Header := [] }

/-- The reply `404 Not Found`. -/
def notFoundResponse : Response :=
  { StatusCode := 404, Status := "404 Not Found", Header := [] }

/-- The reply `400 Bad Request`. -/
def badRequest : Response :=
  { StatusCode := 400, Status := "400 Bad Request", Header := [] }

/-- The binding of the scenario, as the server lists it. -/
def scenarioBinding : BindingInfo :=
  { Source := "ex1", Vhost := "/", Destination := "q1", DestinationType := "queue",
    RoutingKey := "routingkey", Arguments := [], PropertiesKey := "routingkey" }

/-- A server that accepts every declaration, assigns the properties key
`routingkey`, holds the fanout exchange `test` and the binding from `ex1` to `q1`
in the vhost `/`, and answers every delete with `204 No Content`. -/
def scenarioClient : Client :=
  { DeclareBinding := fun _ _ _ => .ok (createdAt "/api/bindings/%2F/e/ex1/q/q1/routingkey"),
    DeleteBinding := fun _ _ _ => .ok noContent,
    ListQueueBindingsBetween := fun _ _ _ _ => .ok [scenarioBinding],
    ListExchangeBindingsBetween := fun _ _ _ _ => .ok [],
    ListBindingsIn := fun _ _ => .ok [scenarioBinding],
    DeclareExchange := fun _ _ _ _ => .ok (createdAt ""),
    GetExchange := fun _ vhost name =>
      .ok { Name := name, Vhost := vhost, Type_ := "fanout", Durable := true,
            AutoDelete := false, Arguments := [] },
    DeleteExchange := fun _ _ _ => .ok noContent,
    PutUser := fun _ _ _ => .ok (createdAt ""),
    GetUser := fun _ name => .ok { Name := name, Tags := ["administrator", "management"] },
    DeleteUser := fun _ _ => .ok noContent,
    UpdatePermissionsIn := fun _ _ _ _ => .ok (createdAt ""),
    GetPermissionsIn := fun _ vhost user =>
      .ok { User := user, Vhost := vhost, Configure := ".*", Write := ".*", Read := ".*" },
    ClearPermissionsIn := fun _ _ _ => .ok noContent,
    PutFederationUpstream := fun _ _ _ _ => .ok (createdAt ""),
    GetFederationUpstream := fun _ vhost name =>
      .ok { Name := name, Vhost := vhost, Component := "federation-upstream",
            Definition := {} },
    DeleteFederationUpstream := fun _ _ _ => .ok noContent,
    DeclareShovel := fun _ _ _ _ => .ok (createdAt ""),
    GetShovel := fun _ vhost name => .ok { Name := name, Vhost := vhost, Definition := {} },
    DeleteShovel := fun _ _ _ => .ok noContent }

/-- The server of the scenario once everything is gone: every delete is answered
with `404 Not Found`. -/
def goneClient : Client :=
  { scenarioClient with
    DeleteBinding := fun _ _ _ => .ok notFoundResponse,
    DeleteExchange := fun _ _ _ => .ok notFoundResponse,
    DeleteUser := fun _ _ => .ok notFoundResponse,
    ClearPermissionsIn := fun _ _ _ => .ok notFoundResponse,
    DeleteFederationUpstream := fun _ _ _ => .ok notFoundResponse,
    DeleteShovel := fun _ _ _ => .ok notFoundResponse }

/-- A server that rejects every declaration and every delete with
`400 Bad Request`. -/
def rejectingClient : Client :=
  { scenarioClient with
    DeclareBinding := fun _ _ _ => .ok badRequest,
    DeleteBinding := fun _ _ _ => .ok badRequest,
    DeclareExchange := fun _ _ _ _ => .ok badRequest,
    DeleteExchange := fun _ _ _ => .ok badRequest,
    PutUser := fun _ _ _ => .ok badRequest,
    DeleteUser := fun _ _ => .ok badRequest,
    UpdatePermissionsIn := fun _ _ _ _ => .ok badRequest,
    ClearPermissionsIn := fun _ _ _ => .ok badRequest,
    PutFederationUpstream := fun _ _ _ _ => .ok badRequest,
    DeleteFederationUpstream := fun _ _ _ => .ok badRequest,
    DeclareShovel := fun _ _ _ _ => .ok badRequest,
    DeleteShovel := fun _ _ _ => .ok badRequest }

/-- Library functions for the scenarios: no escapes to undo, empty JSON objects. -/
def scenarioLib : Lib :=
  { jsonUnmarshal := fun _ => .ok [],
    jsonMarshal := fun _ => .ok "\x7b\x7d",
    PathUnescape := fun s => .ok s }

/-- The binding block of the scenario before creation. -/
def scenarioBindingState : State :=
  { d := ResourceData.ofList ""
      [("source", Value.str "ex1"), ("vhost", Value.str "/"),
       ("destination", Value.str "q1"), ("destination_type", Value.str "queue"),
       ("properties_key", Value.str ""), ("routing_key", Value.str "routingkey"),
       ("arguments", Value.map []), ("arguments_json", Value.str "")],
    log := [] }

/-- The exchange block of the scenario before creation. -/
def scenarioExchangeState : State :=
  { d := ResourceData.ofList ""
      [("name", Value.str "test"), ("vhost", Value.str "/"),
       ("settings", Value.list [Value.map
          [("type", Value.str "fanout"), ("durable", Value.bool true),
           ("auto_delete", Value.bool false), ("arguments", Value.map [])]])],
    log := [] }

/-- A user block before creation. -/
def scenarioUserState : State :=
  { d := ResourceData.ofList ""
      [("name", Value.str "mctest"), ("password", Value.str "foobar"),
       ("tags", Value.list [Value.str "administrator", Value.str "management"])],
    log := [] }

/-- A permissions block before creation. -/
def scenarioPermissionsState : State :=
  { d := ResourceData.ofList ""
      [("user", Value.str "mctest"), ("vhost", Value.str "/"),
       ("permissions", Value.list [Value.map
          [("configure", Value.str ".*"), ("write", Value.str ".*"),
           ("read", Value.str ".*")]])],
    log := [] }

/-- A federation upstream block before creation. -/
def scenarioFederationState : State :=
  { d := ResourceData.ofList ""
      [("name", Value.str "up"), ("vhost", Value.str "/"),
       ("definition", Value.list [Value.map
          [("uri", Value.str "amqp://server-name"), ("ack_mode", Value.str "on-confirm")]])],
    log := [] }

/-- A shovel block before creation. -/
def scenarioShovelState : State :=
  { d := ResourceData.ofList ""
      [("name", Value.str "sh"), ("vhost", Value.str "/"),
       ("info", Value.list [Value.map
          [("source_uri", Value.str "amqp:///src"), ("source_queue", Value.str "q1"),
           ("destination_uri", Value.str "amqp:///dst"),
           ("destination_queue", Value.str "q2")]])],
    log := [] }

/-- A resource that was created earlier: only its identifier matters. -/
def existingResource (id : String) : State :=
  { d := ResourceData.ofList id [], log := [] }

/-- A server that answers a delete with `204 No Content` when nothing happened
before and with `404 Not Found` afterwards. -/
def deleteOnceClient : Client :=
  { scenarioClient with
    DeleteBinding := fun log _ _ =>
      if log.isEmpty then .ok noContent else .ok notFoundResponse,
    DeleteExchange := fun log _ _ =>
      if log.isEmpty then .ok noContent else .ok notFoundResponse,
    DeleteUser := fun log _ =>
      if log.isEmpty then .ok noContent else .ok notFoundResponse,
    ClearPermissionsIn := fun log _ _ =>
      if log.isEmpty then .ok noContent else .ok notFoundResponse,
    DeleteFederationUpstream := fun log _ _ =>
      if log.isEmpty then .ok noContent else .ok notFoundResponse,
    DeleteShovel := fun log _ _ =>
      if log.isEmpty then .ok noContent else .ok notFoundResponse }

/-- A server that cannot be reached: every delete fails with a transport error. -/
def unreachableClient : Client :=
  { scenarioClient with
    DeleteBinding := fun _ _ _ => .error (Errorf "connection refused"),
    DeleteExchange := fun _ _ _ => .error (Errorf "connection refused"),
    DeleteUser := fun _ _ => .error (Errorf "connection refused"),
    ClearPermissionsIn := fun _ _ _ => .error (Errorf "connection refused"),
    DeleteFederationUpstream := fun _ _ _ => .error (Errorf "connection refused"),
    DeleteShovel := fun _ _ _ => .error (Errorf "connection refused") }

/-! ## JSON text into a map -/

/-- The JSON kind of a value as `encoding/json` names it in a type error; JSON
numbers are `Value.int` values here. -/
def jsonKind : Value → String
  | .null => "null"
  | .str _ => "string"
  | .bool _ => "bool"
  | .int _ => "number"
  | .list _ => "array"
  | .map _ => "object"

/-- Go `json.Unmarshal(data, &m)` for `m` declared `map[string]interface{}`
(resource_binding.go:97-98), given `decode`, the reading of JSON text: a syntax
error is returned; an object fills the map; `null` leaves the map nil; every other
kind of value is a type error, since it cannot be stored in a map. -/
def jsonUnmarshalIntoMap (decode : String → Except GoError Value) (data : String) :
    Except GoError GoMap :=
  match decode data with
  | .error e => .error e
  | .ok (.map kvs) => .ok kvs
  | .ok .null => .ok []
  | .ok other =>
    .error (Errorf ("json: cannot unmarshal " ++ jsonKind other ++
      " into Go value of type map[string]interface \x7b\x7d"))

/-- The reading of the JSON texts used in the scenarios; any other text is taken as
malformed. -/
def scenarioDecode (data : String) : Except GoError Value :=
  if data = "\x7b\"y\":2\x7d" then .ok (Value.map [("y", Value.int 2)])
  else if data = "\x7b\x7d" then .ok (Value.map [])
  else if data = "[1,2]" then .ok (Value.list [Value.int 1, Value.int 2])
  else if data = "null" then .ok Value.null
  else if data = "\"a\"" then .ok (Value.str "a")
  else if data = "2" then .ok (Value.int 2)
  else if data = "true" then .ok (Value.bool true)
  else .error (Errorf "invalid character looking for beginning of value")

/-- Library functions whose `json.Unmarshal` reads the scenario texts. -/
def jsonLib : Lib :=
  { scenarioLib with jsonUnmarshal := jsonUnmarshalIntoMap scenarioDecode }

/-- The binding block of the scenario with both argument attributes given. -/
def scenarioBindingJsonState : State :=
  { d := ResourceData.ofList ""
      [("source", Value.str "ex1"), ("vhost", Value.str "/"),
       ("destination", Value.str "q1"), ("destination_type", Value.str "queue"),
       ("properties_key", Value.str ""), ("routing_key", Value.str "routingkey"),
       ("arguments", Value.map [("x", Value.str "1")]),
       ("arguments_json", Value.str "\x7b\"y\":2\x7d")],
    log := [] }

/-- The binding block of the scenario with a JSON array as `arguments_json`. -/
def scenarioBindingArrayState : State :=
  { d := ResourceData.ofList ""
      [("source", Value.str "ex1"), ("vhost", Value.str "/"),
       ("destination", Value.str "q1"), ("destination_type", Value.str "queue"),
       ("properties_key", Value.str ""), ("routing_key", Value.str "routingkey"),
       ("arguments", Value.map []), ("arguments_json", Value.str "[1,2]")],
    log := [] }

/-- The client's typed "not found" error. -/
def notFoundError : GoError :=
  { message := "Error 404 (Object Not Found): Not Found", notFound := true }

/-- A server on which nothing exists: every fetch and every listing reports the
"not found" error. -/
def missingClient : Client :=
  { scenarioClient with
    ListQueueBindingsBetween := fun _ _ _ _ => .error notFoundError,
    ListExchangeBindingsBetween := fun _ _ _ _ => .error notFoundError,
    ListBindingsIn := fun _ _ => .error notFoundError,
    GetExchange := fun _ _ _ => .error notFoundError,
    GetUser := fun _ _ => .error notFoundError,
    GetPermissionsIn := fun _ _ _ => .error notFoundError,
    GetFederationUpstream := fun _ _ _ => .error notFoundError,
    GetShovel := fun _ _ _ => .error notFoundError }

/-- A server that cannot be reached for reading: every fetch fails with a transport
error. -/
def unreadableClient : Client :=
  { scenarioClient with
    GetExchange := fun _ _ _ => .error (Errorf "connection refused"),
    GetUser := fun _ _ => .error (Errorf "connection refused"),
    GetPermissionsIn := fun _ _ _ => .error (Errorf "connection refused"),
    GetFederationUpstream := fun _ _ _ => .error (Errorf "connection refused"),
    GetShovel := fun _ _ _ => .error (Errorf "connection refused") }

/-- A server whose users carry the tags `administrator`, an empty tag and
`management`. -/
def taggedClient : Client :=
  { scenarioClient with
    GetUser := fun _ name =>
      .ok { Name := name, Tags := ["administrator", "", "management"] } }

/-- A user block whose tags hold an empty string and a missing element. -/
def emptyTagUserState : State :=
  { d := ResourceData.ofList "mctest"
      [("name", Value.str "mctest"), ("password", Value.str "foobar"),
       ("tags", Value.list [Value.str "", Value.null, Value.str "administrator"])],
    log := [] }

/-- The user data source block before it is read. -/
def scenarioUserDataState : State :=
  { d := ResourceData.ofList "" [("name", Value.str "test")], log := [] }

/-- Existing permissions during an update in which nothing changed. -/
def unchangedPermissionsState : State :=
  { d := { id := "mctest@/", attrs := fun _ => Value.null }, log := [] }

/-- Existing permissions during an update that changes the `read` pattern. -/
def changedPermissionsState : State :=
  { d := { id := "mctest@/",
           attrs := fun _ => Value.null,
           hasChange := fun k => k = "permissions",
           getChange := fun _ =>
            (Value.list [Value.map
              [("configure", Value.str ".*"), ("write", Value.str ".*"),
               ("read", Value.str ".*")]],
             Value.list [Value.map
              [("configure", Value.str ".*"), ("write", Value.str ".*"),
               ("read", Value.str "^$")]]) },
    log := [] }

/-- An existing federation upstream during an update that changes the
acknowledgement mode. -/
def changedFederationState : State :=
  { d := { id := "up@/",
           attrs := fun _ => Value.null,
           hasChange := fun k => k = "definition",
           getChange := fun _ =>
            (Value.list [Value.map
              [("uri", Value.str "amqp://server-name"), ("ack_mode", Value.str "on-confirm")]],
             Value.list [Value.map
              [("uri", Value.str "amqp://server-name"),
               ("ack_mode", Value.str "on-publish")]]) },
    log := [] }

/-- The exchange data source block of the test before it is read. -/
def scenarioExchangeDataState : State :=
  { d := ResourceData.ofList ""
      [("name", Value.str "test"), ("vhost", Value.str "testvhost")],
    log := [] }

/-- A permissions block whose single element is missing. -/
def nilPermissionsState : State :=
  { d := ResourceData.ofList ""
      [("user", Value.str "mctest"), ("vhost", Value.str "/"),
       ("permissions", Value.list [Value.null])],
    log := [] }

/-- Existing permissions during an update whose new single element is missing. -/
def nilChangedPermissionsState : State :=
  { d := { id := "mctest@/",
           attrs := fun _ => Value.null,
           hasChange := fun k => k = "permissions",
           getChange := fun _ =>
            (Value.list [Value.map
              [("configure", Value.str ".*"), ("write", Value.str ".*"),
               ("read", Value.str ".*")]],
             Value.list [Value.null]) },
    log := [] }

/-- An exchange block whose single settings element is missing. -/
def nilSettingsState : State :=
  { d := ResourceData.ofList ""
      [("name", Value.str "test"), ("vhost", Value.str "/"),
       ("settings", Value.list [Value.null])],
    log := [] }

/-- A server whose users carry no tag but an empty one. -/
def untaggedClient : Client :=
  { scenarioClient with GetUser := fun _ name => .ok { Name := name, Tags := [""] } }

/-- A user whose bag holds the tag `administrator`. -/
def taggedUserState : State :=
  { d := ResourceData.ofList "mctest"
      [("name", Value.str "mctest"), ("tags", Value.list [Value.str "administrator"])],
    log := [] }

/-- A server whose exchange `test` carries the argument `n` with the number 5. -/
def numericArgumentsClient : Client :=
  { scenarioClient with
    GetExchange := fun _ vhost name =>
      .ok { Name := name, Vhost := vhost, Type_ := "fanout", Durable := true,
            AutoDelete := false, Arguments := [("n", Value.int 5)] } }

/-- The exchange `test@testvhost` as the resource holds it after an earlier read: a
fanout, durable exchange without arguments. -/
def createdExchangeState : State :=
  { d := ResourceData.ofList "test@testvhost"
      [("name", Value.str "test"), ("vhost", Value.str "testvhost"),
       ("settings", Value.list [Value.map
          [("type", Value.str "fanout"), ("durable", Value.bool true),
           ("auto_delete", Value.bool false), ("arguments", Value.map [])]])],
    log := [] }

/-- The binding from `ex1` to `q1` with the argument `n` holding the number 5. -/
def numericBinding : BindingInfo :=
  { scenarioBinding with Arguments := [("n", Value.int 5)] }

/-- A server that lists `numericBinding` between `ex1` and `q1`. -/
def numericBindingClient : Client :=
  { scenarioClient with ListQueueBindingsBetween := fun _ _ _ _ => .ok [numericBinding] }

/-- The binding of the scenario as the resource holds it after creation: no
`arguments_json`, empty `arguments`. -/
def createdBindingState : State :=
  { d := ResourceData.ofList "%2F/ex1/q1/queue/routingkey"
      [("source", Value.str "ex1"), ("vhost", Value.str "/"),
       ("destination", Value.str "q1"), ("destination_type", Value.str "queue"),
       ("properties_key", Value.str "routingkey"), ("routing_key", Value.str "routingkey"),
       ("arguments", Value.map []), ("arguments_json", Value.str "")],
    log := [] }

/-- The same binding held with `arguments_json` in use. -/
def createdJsonBindingState : State :=
  { d := ResourceData.ofList "%2F/ex1/q1/queue/routingkey"
      [("source", Value.str "ex1"), ("vhost", Value.str "/"),
       ("destination", Value.str "q1"), ("destination_type", Value.str "queue"),
       ("properties_key", Value.str "routingkey"), ("routing_key", Value.str "routingkey"),
       ("arguments", Value.map []), ("arguments_json", Value.str "\x7b\"x\":1\x7d")],
    log := [] }

/-- The binding from `ex1` to `q1` with the argument `x-match` holding the string
`all`. -/
def headersBinding : BindingInfo :=
  { scenarioBinding with Arguments := [("x-match", Value.str "all")] }

/-- A server that lists `headersBinding` between `ex1` and `q1`. -/
def headersBindingClient : Client :=
  { scenarioClient with ListQueueBindingsBetween := fun _ _ _ _ => .ok [headersBinding] }

/-- The error that the management client returns for a shovel declaration answered
with `400 Bad Request`. -/
def badRequestError : GoError :=
  { message := "Error 400 (bad_request): Validation failed", notFound := false }

/-- A server whose refusal of a shovel declaration reaches the adapter as an error of
the management client. -/
def refusingClient : Client :=
  { scenarioClient with DeclareShovel := fun _ _ _ _ => .error badRequestError }

/-- A federation definition record that gives a value to each of the ten keys. -/
def fullFederationDefinition : GoMap :=
  [("uri", Value.str "amqp://server-name"), ("exchange", Value.str "ex"),
   ("queue", Value.str "q"), ("ack_mode", Value.str "on-confirm"),
   ("trust_user_id", Value.bool true), ("prefetch_count", Value.int 1000),
   ("reconnect_delay", Value.int 5), ("max_hops", Value.int 1),
   ("expires", Value.int 3600000), ("message_ttl", Value.int 2147483647)]

/-- A server that holds the federation upstream as it was put from
`fullFederationDefinition`. -/
def fullFederationClient : Client :=
  { scenarioClient with
    GetFederationUpstream := fun _ vhost name =>
      .ok { Name := name, Vhost := vhost, Component := "federation-upstream",
            Definition :=
              { Uri := ["amqp://server-name"], Expires := 3600000, MessageTTL := 2147483647,
                MaxHops := 1, PrefetchCount := 1000, ReconnectDelay := 5,
                AckMode := "on-confirm", TrustUserId := true, Exchange := "ex",
                Queue := "q" } } }

/-- A server that accepts a binding declaration without a `Location` header. -/
def headerlessClient : Client :=
  { scenarioClient with DeclareBinding := fun _ _ _ => .ok noContent }

/-! ## Reading back what was read -/

/-- The calls of a log, in order. -/
def callsOf : List Event → List Call
  | [] => []
  | Event.call c :: rest => c :: callsOf rest
  | _ :: rest => callsOf rest

/-- The attribute writes of a log, in order. -/
def writesOf : List Event → List (String × Value)
  | [] => []
  | Event.set key v :: rest => (key, v) :: writesOf rest
  | _ :: rest => writesOf rest

/-- The `defMap` that `ReadFederationUpstream` builds from a remote definition
(resource_federation_upstream.go:171-186). -/
def federationDefinitionMap (definition : FederationDefinition) : GoMap :=
  [("uri", Value.str (match definition.Uri with
      | u :: _ => u
      | [] => "")),
   ("prefetch_count", Value.int definition.PrefetchCount),
   ("reconnect_delay", Value.int definition.ReconnectDelay),
   ("ack_mode", Value.str definition.AckMode),
   ("trust_user_id", Value.bool definition.TrustUserId),
   ("exchange", Value.str definition.Exchange),
   ("max_hops", Value.int definition.MaxHops),
   ("expires", Value.int definition.Expires),
   ("message_ttl", Value.int definition.MessageTTL),
   ("queue", Value.str definition.Queue)]

/-- The ten keys of a federation definition record. -/
def federationKeys : List String :=
  ["uri", "prefetch_count", "reconnect_delay", "ack_mode", "trust_user_id", "exchange",
   "max_hops", "expires", "message_ttl", "queue"]

/-- The keys of the shovel info record that hold strings. -/
def shovelStringKeys : List String :=
  ["ack_mode", "delete_after", "destination_address", "destination_exchange",
   "destination_exchange_key", "destination_protocol", "destination_queue",
   "destination_uri", "source_address", "source_delete_after", "source_exchange",
   "source_exchange_key", "source_protocol", "source_queue", "source_uri"]

/-- The keys of the shovel info record that hold booleans. -/
def shovelBoolKeys : List String :=
  ["add_forward_headers", "destination_add_forward_headers",
   "destination_add_timestamp_header"]

/-- The keys of the shovel info record that hold maps. -/
def shovelMapKeys : List String :=
  ["destination_application_properties", "destination_properties",
   "destination_publish_properties", "destination_queue_arguments"]

/-- The keys of the shovel info record that hold integers. -/
def shovelIntKeys : List String :=
  ["prefetch_count", "reconnect_delay", "source_prefetch_count"]

/-- The 25 keys of the shovel info record. -/
def shovelKeys : List String :=
  shovelStringKeys ++ shovelBoolKeys ++ shovelMapKeys ++ shovelIntKeys

/-- The info record gives each of the 25 shovel keys a value of the type that
`setShovelDefinition` asserts for it. -/
def ShovelInfoWellTyped (shovelMap : GoMap) : Prop :=
  (∀ k ∈ shovelStringKeys, ∃ v, shovelMap.index k = Value.str v) ∧
  (∀ k ∈ shovelBoolKeys, ∃ v, shovelMap.index k = Value.bool v) ∧
  (∀ k ∈ shovelMapKeys, ∃ v, shovelMap.index k = Value.map v) ∧
  (∀ k ∈ shovelIntKeys, ∃ v, shovelMap.index k = Value.int v)

/-- A shovel info record that gives a value to each of the 25 keys, the deprecated
aliases and their replacements included. -/
def fullShovelInfo : GoMap :=
  [("ack_mode", Value.str "on-confirm"), ("add_forward_headers", Value.bool true),
   ("delete_after", Value.str "never"),
   ("destination_add_forward_headers", Value.bool false),
   ("destination_add_timestamp_header", Value.bool true),
   ("destination_address", Value.str "addr"),
   ("destination_application_properties", Value.map [("a", Value.str "b")]),
   ("destination_exchange", Value.str "ex"), ("destination_exchange_key", Value.str "key"),
   ("destination_properties", Value.map []), ("destination_protocol", Value.str "amqp091"),
   ("destination_publish_properties", Value.map []), ("destination_queue", Value.str "q2"),
   ("destination_queue_arguments", Value.map []),
   ("destination_uri", Value.str "amqp:///dst"), ("prefetch_count", Value.int 1000),
   ("reconnect_delay", Value.int 1), ("source_address", Value.str ""),
   ("source_delete_after", Value.str "queue-length"), ("source_exchange", Value.str ""),
   ("source_exchange_key", Value.str ""), ("source_prefetch_count", Value.int 500),
   ("source_protocol", Value.str "amqp091"), ("source_queue", Value.str "q1"),
   ("source_uri", Value.str "amqp:///src")]

/-- A server that holds the shovel as it was declared from `fullShovelInfo`. -/
def fullShovelClient : Client :=
  { scenarioClient with
    GetShovel := fun _ vhost name =>
      .ok { Name := name, Vhost := vhost, Definition := setShovelDefinition fullShovelInfo } }

/-! ## The listing of `ReadBinding`, named -/

/-- The reply to the listing call of `ReadBinding` (resource_binding.go:147-162),
chosen by the destination type. -/
def bindingListing (rmqc : Client) (log : List Event)
    (vhost source destination destinationType : String) :
    Except GoError (List BindingInfo) :=
  if destinationType = "queue" then rmqc.ListQueueBindingsBetween log vhost source destination
  else if destinationType = "exchange" then
    rmqc.ListExchangeBindingsBetween log vhost source destination
  else rmqc.ListBindingsIn log vhost

/-- The listing call of `ReadBinding` (resource_binding.go:147-162), chosen by the
destination type. -/
def bindingListingCall (vhost source destination destinationType : String) : Call :=
  if destinationType = "queue" then Call.ListQueueBindingsBetween vhost source destination
  else if destinationType = "exchange" then
    Call.ListExchangeBindingsBetween vhost source destination
  else Call.ListBindingsIn vhost

/-- The test of the loop of `ReadBinding` (resource_binding.go:168): the listed
binding is the one the identifier names. -/
def bindingMatches (source destination destinationType propertiesKey : String)
    (binding : BindingInfo) : Prop :=
  binding.Source = source ∧ binding.Destination = destination ∧
    binding.DestinationType = destinationType ∧ binding.PropertiesKey = propertiesKey

/-- The six attribute writes that the loop of `ReadBinding` makes for a matching
binding before it turns to the arguments (resource_binding.go:172-177). -/
def writeBindingAttributes (s : State) (binding : BindingInfo) : State :=
  (((((s.Set "vhost" (Value.str binding.Vhost)).Set "source" (Value.str binding.Source)).Set
    "destination" (Value.str binding.Destination)).Set
    "destination_type" (Value.str binding.DestinationType)).Set
    "routing_key" (Value.str binding.RoutingKey)).Set
    "properties_key" (Value.str binding.PropertiesKey)

/-! ## Mutating calls -/

/-- Whether a call changes something on the server (declare, put, update, delete,
clear) rather than reading it (get, list). -/
def Call.isMutating : Call → Bool
  | .DeclareBinding _ _ => true
  | .DeleteBinding _ _ => true
  | .ListQueueBindingsBetween _ _ _ => false
  | .ListExchangeBindingsBetween _ _ _ => false
  | .ListBindingsIn _ => false
  | .DeclareExchange _ _ _ => true
  | .GetExchange _ _ => false
  | .DeleteExchange _ _ => true
  | .PutUser _ _ => true
  | .GetUser _ => false
  | .DeleteUser _ => true
  | .UpdatePermissionsIn _ _ _ => true
  | .GetPermissionsIn _ _ => false
  | .ClearPermissionsIn _ _ => true
  | .PutFederationUpstream _ _ _ => true
  | .GetFederationUpstream _ _ => false
  | .DeleteFederationUpstream _ _ => true
  | .DeclareShovel _ _ _ => true
  | .GetShovel _ _ => false
  | .DeleteShovel _ _ => true

/-- The mutating calls of a log, in order. -/
def mutatingCalls : List Event → List Call
  | [] => []
  | Event.call c :: rest => if c.isMutating then c :: mutatingCalls rest else mutatingCalls rest
  | _ :: rest => mutatingCalls rest

/-! ## Comparing event logs and outcomes -/

/-- The adapter returned an error whose message contains `status`. -/
def RejectedWith (out : Ret × State) (status : String) : Prop :=
  ∃ e, out.1 = Ret.err e ∧ containsText e.message status

/-- The log `after` is the log `before` followed by further events. -/
def LogExtends (before after : List Event) : Prop :=
  ∃ es, after = before ++ es

/-- Running an adapter twice in sequence succeeds both times. -/
def SucceedsTwice (adapter : State → Ret × State) (s : State) : Prop :=
  (adapter s).1 = Ret.nil ∧ (adapter (adapter s).2).1 = Ret.nil

/-- The `BindingInfo` that `DeleteBinding` sends for decoded identifier segments
(resource_binding.go:208-220). -/
def deleteBindingInfo (seg : String × String × String × String × String) : BindingInfo :=
  { Vhost := percentDecodeSlashes seg.1, Source := seg.2.1, Destination := seg.2.2.1,
    DestinationType := seg.2.2.2.1, PropertiesKey := seg.2.2.2.2 }

/-- What the spec asks of a Delete adapter once the remote call has been made, apart
from the 404 case: a transport error is returned unchanged; a status of 400 or
more other than 404 gives an error whose message contains the status text; a
status below 400 gives nil. -/
def DeleteContract (out : Ret × State) (reply : Except GoError Response) : Prop :=
  match reply with
  | .error e => out.1 = Ret.err e
  | .ok resp =>
    (resp.StatusCode ≥ 400 → resp.StatusCode ≠ 404 → RejectedWith out resp.Status) ∧
    (resp.StatusCode < 400 → out.1 = Ret.nil)

/-! ## Character-wise view of the escaping, used in the proofs -/

/-- Replace each character by a list of characters. -/
def escapeChars (f : Char → List Char) : List Char → List Char
  | [] => []
  | c :: cs => f c ++ escapeChars f cs

/-- The escape of one character after the percent signs were encoded. -/
def escapePercent (c : Char) : List Char :=
  if c = '%' then ['%', '2', '5'] else [c]

/-- The escape of one character after percent signs and slashes were encoded. -/
def escapeBoth (c : Char) : List Char :=
  if c = '%' then ['%', '2', '5'] else if c = '/' then ['%', '2', 'F'] else [c]

/-! ## Facts about splitting and replacing -/

theorem splitChars_ne_nil (sep : Char) (l : List Char) : splitChars sep l ≠ [] := by
  cases l with
  | nil => simp [splitChars]
  | cons c cs =>
    unfold splitChars
    split
    · simp
    · split <;> simp

theorem splitChars_of_not_mem (sep : Char) (l : List Char) (h : sep ∉ l) :
    splitChars sep l = [l] := by
  induction l with
  | nil => rfl
  | cons c cs ih =>
    have hc : c ≠ sep := fun e => h (by simp [e])
    have hcs : sep ∉ cs := fun e => h (by simp [e])
    simp [splitChars, hc, ih hcs]

theorem splitChars_append_sep (sep : Char) (a b : List Char) (h : sep ∉ a) :
    splitChars sep (a ++ sep :: b) = a :: splitChars sep b := by
  induction a with
  | nil => simp [splitChars]
  | cons c cs ih =>
    have hc : c ≠ sep := fun e => h (by simp [e])
    have hcs : sep ∉ cs := fun e => h (by simp [e])
    simp [splitChars, hc, ih hcs]

theorem not_mem_of_mem_splitChars (sep : Char) (l seg : List Char)
    (h : seg ∈ splitChars sep l) : sep ∉ seg := by
  induction l generalizing seg with
  | nil =>
    simp [splitChars] at h
    simp [h]
  | cons c cs ih =>
    unfold splitChars at h
    split at h
    · rcases List.mem_cons.1 h with h | h
      · simp [h]
      · exact ih seg h
    · split at h
      · next hnil => exact absurd hnil (splitChars_ne_nil sep cs)
      · next s0 rest heq =>
        rcases List.mem_cons.1 h with h | h
        · subst h
          have h0 : sep ∉ s0 := ih s0 (by simp [heq])
          intro hm
          rcases List.mem_cons.1 hm with e | e
          · exact absurd e.symm (by assumption)
          · exact h0 e
        · exact ih seg (by simp [heq, h])

/-- Replacing every `%` by `%25` escapes character by character. -/
theorem replace_percent (l : List Char) :
    replaceChars ['%'] ['%', '2', '5'] 0 l = escapeChars escapePercent l := by
  induction l with
  | nil => rfl
  | cons c cs ih =>
    by_cases hc : c = '%'
    · subst hc
      simp [replaceChars, escapeChars, escapePercent, ih]
    · have hc2 : ¬ '%' = c := fun e => hc e.symm
      simp [replaceChars, escapeChars, escapePercent, hc, hc2, ih]

/-- Replacing every `/` by `%2F` after the percent signs were escaped. -/
theorem replace_slash (l : List Char) :
    replaceChars ['/'] ['%', '2', 'F'] 0 (escapeChars escapePercent l) =
      escapeChars escapeBoth l := by
  induction l with
  | nil => rfl
  | cons c cs ih =>
    by_cases hc : c = '%'
    · subst hc
      simp [replaceChars, escapeChars, escapePercent, escapeBoth, ih]
    · by_cases hs : c = '/'
      · subst hs
        simp [replaceChars, escapeChars, escapePercent, escapeBoth, ih]
      · have hs2 : ¬ '/' = c := fun e => hs e.symm
        simp [replaceChars, escapeChars, escapePercent, escapeBoth, hc, hs, hs2, ih]

/-- Replacing every `%2F` by `/` in an escaped list undoes the slash escapes only. -/
theorem unreplace_slash (l : List Char) :
    replaceChars ['%', '2', 'F'] ['/'] 0 (escapeChars escapeBoth l) =
      escapeChars escapePercent l := by
  induction l with
  | nil => rfl
  | cons c cs ih =>
    by_cases hc : c = '%'
    · subst hc
      simp [replaceChars, escapeChars, escapePercent, escapeBoth, ih]
    · by_cases hs : c = '/'
      · subst hs
        simp [replaceChars, escapeChars, escapePercent, escapeBoth, ih]
      · have hc2 : ¬ '%' = c := fun e => hc e.symm
        simp [replaceChars, escapeChars, escapePercent, escapeBoth, hc, hc2, hs, ih]

/-- Replacing every `%25` by `%` in a percent-escaped list gives the list back. -/
theorem unreplace_percent (l : List Char) :
    replaceChars ['%', '2', '5'] ['%'] 0 (escapeChars escapePercent l) = l := by
  induction l with
  | nil => rfl
  | cons c cs ih =>
    by_cases hc : c = '%'
    · subst hc
      simp [replaceChars, escapeChars, escapePercent, ih]
    · have hc2 : ¬ '%' = c := fun e => hc e.symm
      simp [replaceChars, escapeChars, escapePercent, hc, hc2, ih]

/-- C3: percent-decoding a percent-encoded vhost gives the vhost back, for every
string (with or without `/` and `%`). -/
theorem percentDecodeSlashes_percentEncodeSlashes (vhost : String) :
    percentDecodeSlashes (percentEncodeSlashes vhost) = vhost := by
  have e1 : ("%" : String).data = ['%'] := rfl
  have e2 : ("%25" : String).data = ['%', '2', '5'] := rfl
  have e3 : ("/" : String).data = ['/'] := rfl
  have e4 : ("%2F" : String).data = ['%', '2', 'F'] := rfl
  simp only [percentDecodeSlashes, percentEncodeSlashes, stringsReplace, e1, e2, e3, e4,
    replace_percent, replace_slash, unreplace_slash, unreplace_percent]

/-! ## Identifier round trips -/

theorem not_mem_data_of_mem_stringsSplit (s seg : String) (sep : Char)
    (h : seg ∈ stringsSplit s sep) : sep ∉ seg.data := by
  simp only [stringsSplit, List.mem_map] at h
  obtain ⟨l, hl, rfl⟩ := h
  exact not_mem_of_mem_splitChars sep s.data l hl

theorem stringsSplit_two (a b : String) (sep : Char) (ha : sep ∉ a.data)
    (hb : sep ∉ b.data) :
    stringsSplit (a ++ String.singleton sep ++ b) sep = [a, b] := by
  have e : (a ++ String.singleton sep ++ b).data = a.data ++ sep :: b.data := by
    simp [String.data_append, String.singleton]
  simp [stringsSplit, e, splitChars_append_sep sep _ _ ha, splitChars_of_not_mem sep _ hb]

theorem stringsSplit_append_sep (a b : String) (sep : Char) (ha : sep ∉ a.data) :
    stringsSplit (a ++ String.singleton sep ++ b) sep = a :: stringsSplit b sep := by
  have e : (a ++ String.singleton sep ++ b).data = a.data ++ sep :: b.data := by
    simp [String.data_append, String.singleton]
  simp [stringsSplit, e, splitChars_append_sep sep _ _ ha]

theorem sprintfBindingId_eq (a b c d e : String) :
    sprintfBindingId a b c d e =
      a ++ String.singleton '/' ++ (b ++ String.singleton '/' ++
        (c ++ String.singleton '/' ++ (d ++ String.singleton '/' ++ e))) := by
  have h : String.singleton '/' = "/" := rfl
  simp only [sprintfBindingId, h, String.append_assoc]

/-- The split of a binding identifier whose first four parts hold no slash. -/
theorem stringsSplit_sprintfBindingId (a b c d e : String) (ha : '/' ∉ a.data)
    (hb : '/' ∉ b.data) (hc : '/' ∉ c.data) (hd : '/' ∉ d.data) :
    stringsSplit (sprintfBindingId a b c d e) '/' = a :: b :: c :: d :: stringsSplit e '/' := by
  rw [sprintfBindingId_eq, stringsSplit_append_sep _ _ _ ha, stringsSplit_append_sep _ _ _ hb,
    stringsSplit_append_sep _ _ _ hc, stringsSplit_append_sep _ _ _ hd]

theorem stringsSplit_of_not_mem (a : String) (sep : Char) (ha : sep ∉ a.data) :
    stringsSplit a sep = [a] := by
  simp [stringsSplit, splitChars_of_not_mem sep _ ha]

/-- C1: for a first segment without `/`, the identifier built by `CreateBinding`
splits (as `ReadBinding` and `DeleteBinding` split it) into exactly the five parts
it was built from if and only if none of source, destination, destination type and
properties key contains `/`. -/
theorem bindingId_join_split_roundtrip
    (e source destination destinationType propertiesKey : String) (he : '/' ∉ e.data) :
    bindingIdSegments (sprintfBindingId e source destination destinationType propertiesKey)
        = Except.ok (e, source, destination, destinationType, propertiesKey)
      ↔ ('/' ∉ source.data ∧ '/' ∉ destination.data ∧ '/' ∉ destinationType.data ∧
          '/' ∉ propertiesKey.data) := by
  constructor
  · intro h
    unfold bindingIdSegments at h
    split at h
    · next s0 s1 s2 s3 s4 rest heq =>
      simp only [Except.ok.injEq, Prod.mk.injEq] at h
      obtain ⟨-, h1, h2, h3, h4⟩ := h
      subst h1 h2 h3 h4
      refine ⟨?_, ?_, ?_, ?_⟩ <;>
        exact not_mem_data_of_mem_stringsSplit _ _ '/' (by rw [heq]; simp)
    · cases h
  · rintro ⟨h1, h2, h3, h4⟩
    simp [bindingIdSegments, stringsSplit_sprintfBindingId _ _ _ _ _ he h1 h2 h3,
      stringsSplit_of_not_mem _ _ h4]

/-- Witness for C1: the identifier of the end-to-end scenario splits back into its
parts, one whose source is `a/b` does not. -/
theorem bindingId_join_split_roundtrip_witness :
    '/' ∉ ("%2F" : String).data ∧
      bindingIdSegments (sprintfBindingId "%2F" "ex1" "q1" "queue" "routingkey")
        = Except.ok ("%2F", "ex1", "q1", "queue", "routingkey") ∧
      bindingIdSegments (sprintfBindingId "%2F" "a/b" "q1" "queue" "routingkey")
        ≠ Except.ok ("%2F", "a/b", "q1", "queue", "routingkey") :=
  ⟨by decide,
   (bindingId_join_split_roundtrip "%2F" "ex1" "q1" "queue" "routingkey" (by decide)).2
      ⟨by decide, by decide, by decide, by decide⟩,
   fun h =>
    absurd ((bindingId_join_split_roundtrip "%2F" "a/b" "q1" "queue" "routingkey"
      (by decide)).1 h).1 (by decide)⟩

/-- C4: for a name and a vhost without `@`, `parseResourceId` decodes the identifier
`name@vhost` that the Create adapters assign into `(name, vhost)`, without error. -/
theorem parseResourceId_nameAtVhost (d : ResourceData) (name vhost : String)
    (hn : '@' ∉ name.data) (hv : '@' ∉ vhost.data) :
    parseResourceId (d.SetId (sprintfNameAtVhost name vhost)) = Except.ok (name, vhost) := by
  have h : sprintfNameAtVhost name vhost = name ++ String.singleton '@' ++ vhost := rfl
  simp [parseResourceId, ResourceData.SetId, ResourceData.Id, h,
    stringsSplit_two name vhost '@' hn hv]

/-- Witness for C4: the exchange `test` in the vhost `/`. -/
theorem parseResourceId_nameAtVhost_witness :
    '@' ∉ ("test" : String).data ∧ '@' ∉ ("/" : String).data ∧
      parseResourceId ((ResourceData.ofList "" []).SetId (sprintfNameAtVhost "test" "/"))
        = Except.ok ("test", "/") :=
  ⟨by decide, by decide,
    parseResourceId_nameAtVhost (ResourceData.ofList "" []) "test" "/" (by decide) (by decide)⟩

/-! ## Every adapter only adds events -/

theorem logExtends_refl (a : List Event) : LogExtends a a := ⟨[], by simp⟩

theorem logExtends_trans {a b c : List Event} (h1 : LogExtends a b) (h2 : LogExtends b c) :
    LogExtends a c := by
  obtain ⟨e1, rfl⟩ := h1
  obtain ⟨e2, rfl⟩ := h2
  exact ⟨e1 ++ e2, by simp⟩

theorem logExtends_Set (s : State) (key : String) (v : Value) :
    LogExtends s.log (s.Set key v).log := ⟨[Event.set key v], rfl⟩

theorem logExtends_SetId (s : State) (id : String) :
    LogExtends s.log (s.SetId id).log := ⟨[Event.setId id], rfl⟩

theorem logExtends_call (s : State) (c : Call) :
    LogExtends s.log (s.call c).log := ⟨[Event.call c], rfl⟩

theorem logExtends_mem {a b : List Event} (h : LogExtends a b) {e : Event} (he : e ∈ a) :
    e ∈ b := by
  obtain ⟨es, rfl⟩ := h
  exact List.mem_append_left _ he

/-- The loop of `ReadBinding` keeps the events it starts with. -/
theorem ReadBindingLoop_log (lib : Lib) (source destination destinationType propertiesKey : String)
    (bindings : List BindingInfo) :
    ∀ (bindingFound : Bool) (s : State),
      (∀ b s2, ReadBindingLoop lib source destination destinationType propertiesKey
          bindings bindingFound s = Except.ok (b, s2) → LogExtends s.log s2.log) ∧
      (∀ e s2, ReadBindingLoop lib source destination destinationType propertiesKey
          bindings bindingFound s = Except.error (e, s2) → LogExtends s.log s2.log) := by
  induction bindings with
  | nil =>
    intro bindingFound s
    constructor
    · intro b s2 h
      simp only [ReadBindingLoop, Except.ok.injEq, Prod.mk.injEq] at h
      rw [← h.2]
      exact logExtends_refl _
    · intro e s2 h
      simp [ReadBindingLoop] at h
  | cons binding rest ih =>
    intro bindingFound s
    have h6 : ∀ a b c d e f, LogExtends s.log
        ((((((s.Set "vhost" a).Set "source" b).Set "destination" c).Set
          "destination_type" d).Set "routing_key" e).Set "properties_key" f).log :=
      fun a b c d e f =>
        logExtends_trans (logExtends_trans (logExtends_trans (logExtends_trans
          (logExtends_trans (logExtends_Set s _ a) (logExtends_Set _ _ b))
          (logExtends_Set _ _ c)) (logExtends_Set _ _ d)) (logExtends_Set _ _ e))
          (logExtends_Set _ _ f)
    unfold ReadBindingLoop
    split
    · simp only []
      split
      · split
        · constructor
          · intro b s2 h
            cases h
          · intro e s2 h
            simp only [Except.error.injEq, Prod.mk.injEq] at h
            rw [← h.2]
            exact h6 _ _ _ _ _ _
        · constructor
          · intro b s2 h
            exact logExtends_trans (logExtends_trans (h6 _ _ _ _ _ _) (logExtends_Set _ _ _))
              ((ih _ _).1 b s2 h)
          · intro e s2 h
            exact logExtends_trans (logExtends_trans (h6 _ _ _ _ _ _) (logExtends_Set _ _ _))
              ((ih _ _).2 e s2 h)
      · constructor
        · intro b s2 h
          exact logExtends_trans (logExtends_trans (h6 _ _ _ _ _ _) (logExtends_Set _ _ _))
              ((ih _ _).1 b s2 h)
        · intro e s2 h
          exact logExtends_trans (logExtends_trans (h6 _ _ _ _ _ _) (logExtends_Set _ _ _))
              ((ih _ _).2 e s2 h)
    · exact ih _ _

/-- The adapter `ReadBinding` keeps the events it starts with. -/
theorem ReadBinding_log (lib : Lib) (rmqc : Client) (s : State) :
    LogExtends s.log (ReadBinding lib rmqc s).2.log := by
  unfold ReadBinding
  split
  · exact logExtends_refl _
  · next seg0 source destination destinationType propertiesKey _ =>
    simp only []
    split
    · next e s1 heq =>
      split at heq <;> [skip; split at heq] <;>
        · simp only [Prod.mk.injEq] at heq
          rw [← heq.2]
          exact logExtends_call _ _
    · next bindings s1 heq =>
      have hs1 : LogExtends s.log s1.log := by
        split at heq <;> [skip; split at heq] <;>
          · simp only [Prod.mk.injEq] at heq
            rw [← heq.2]
            exact logExtends_call _ _
      split
      · next e s2 hloop =>
        exact logExtends_trans hs1
          ((ReadBindingLoop_log lib _ _ _ _ bindings false _).2 e s2 hloop)
      · next bindingFound s2 hloop =>
        have h2 := logExtends_trans hs1
          ((ReadBindingLoop_log lib _ _ _ _ bindings false _).1 _ s2 hloop)
        split
        · exact logExtends_trans h2 (logExtends_SetId _ _)
        · exact h2

theorem ReadBindingLoop_id (lib : Lib) (source destination destinationType propertiesKey : String)
    (bindings : List BindingInfo) :
    ∀ (bindingFound : Bool) (s : State),
      (∀ b s2, ReadBindingLoop lib source destination destinationType propertiesKey
          bindings bindingFound s = Except.ok (b, s2) → s2.d.Id = s.d.Id) ∧
      (∀ e s2, ReadBindingLoop lib source destination destinationType propertiesKey
          bindings bindingFound s = Except.error (e, s2) → s2.d.Id = s.d.Id) := by
  induction bindings with
  | nil =>
    intro bindingFound s
    constructor
    · intro b s2 h
      simp only [ReadBindingLoop, Except.ok.injEq, Prod.mk.injEq] at h
      rw [← h.2]
    · intro e s2 h
      simp [ReadBindingLoop] at h
  | cons binding rest ih =>
    intro bindingFound s
    unfold ReadBindingLoop
    split
    · simp only []
      split
      · split
        · constructor
          · intro b s2 h
            cases h
          · intro e s2 h
            simp only [Except.error.injEq, Prod.mk.injEq] at h
            rw [← h.2]
            rfl
        · constructor
          · intro b s2 h
            exact ((ih _ _).1 b s2 h).trans rfl
          · intro e s2 h
            exact ((ih _ _).2 e s2 h).trans rfl
      · constructor
        · intro b s2 h
          exact ((ih _ _).1 b s2 h).trans rfl
        · intro e s2 h
          exact ((ih _ _).2 e s2 h).trans rfl
    · exact ih _ _

/-- The adapter `ReadBinding` keeps the identifier or clears it. -/
theorem ReadBinding_id (lib : Lib) (rmqc : Client) (s : State) :
    (ReadBinding lib rmqc s).2.d.Id = s.d.Id ∨ (ReadBinding lib rmqc s).2.d.Id = "" := by
  unfold ReadBinding
  split
  · exact Or.inl rfl
  · next seg0 source destination destinationType propertiesKey _ =>
    simp only []
    split
    · next e s1 heq =>
      left
      split at heq <;> [skip; split at heq] <;>
        · simp only [Prod.mk.injEq] at heq
          rw [← heq.2]
          rfl
    · next bindings s1 heq =>
      have hs1 : s1.d.Id = s.d.Id := by
        split at heq <;> [skip; split at heq] <;>
          · simp only [Prod.mk.injEq] at heq
            rw [← heq.2]
            rfl
      split
      · next e s2 hloop =>
        exact Or.inl (((ReadBindingLoop_id lib _ _ _ _ bindings false _).2 e s2 hloop).trans hs1)
      · next bindingFound s2 hloop =>
        split
        · exact Or.inr rfl
        · exact Or.inl
            (((ReadBindingLoop_id lib _ _ _ _ bindings false _).1 _ s2 hloop).trans hs1)

theorem checkDeleted_id (s : State) (e : GoError) :
    (checkDeleted s e).2.d.Id = s.d.Id ∨ (checkDeleted s e).2.d.Id = "" := by
  unfold checkDeleted
  split
  · exact Or.inr rfl
  · exact Or.inl rfl

theorem ReadExchange_id (rmqc : Client) (s : State) :
    (ReadExchange rmqc s).2.d.Id = s.d.Id ∨ (ReadExchange rmqc s).2.d.Id = "" := by
  unfold ReadExchange
  split
  · exact Or.inl rfl
  · simp only []
    split
    · exact checkDeleted_id _ _
    · exact Or.inl rfl

theorem ReadUser_id (rmqc : Client) (s : State) :
    (ReadUser rmqc s).2.d.Id = s.d.Id ∨ (ReadUser rmqc s).2.d.Id = "" := by
  unfold ReadUser
  simp only []
  split
  · exact checkDeleted_id _ _
  · split
    · split <;> exact Or.inl rfl
    · exact Or.inl rfl

theorem ReadPermissions_id (rmqc : Client) (s : State) :
    (ReadPermissions rmqc s).2.d.Id = s.d.Id ∨ (ReadPermissions rmqc s).2.d.Id = "" := by
  unfold ReadPermissions
  split
  · exact Or.inl rfl
  · simp only []
    split
    · exact checkDeleted_id _ _
    · exact Or.inl rfl

theorem ReadFederationUpstream_id (rmqc : Client) (s : State) :
    (ReadFederationUpstream rmqc s).2.d.Id = s.d.Id ∨
      (ReadFederationUpstream rmqc s).2.d.Id = "" := by
  unfold ReadFederationUpstream
  split
  · exact Or.inl rfl
  · simp only []
    split
    · exact checkDeleted_id _ _
    · exact Or.inl rfl

theorem ReadShovel_id (rmqc : Client) (s : State) :
    (ReadShovel rmqc s).2.d.Id = s.d.Id ∨ (ReadShovel rmqc s).2.d.Id = "" := by
  unfold ReadShovel
  split
  · exact Or.inl rfl
  · simp only []
    split
    · exact checkDeleted_id _ _
    · exact Or.inl rfl

theorem declareBinding_state (lib : Lib) (rmqc : Client) (s : State) (vhost : String)
    (bindingInfo : BindingInfo) :
    (declareBinding lib rmqc s vhost bindingInfo).2 =
      s.call (Call.DeclareBinding vhost bindingInfo) := by
  unfold declareBinding
  simp only []
  split
  · rfl
  · split
    · rfl
    · split
      · rfl
      · split <;> rfl

theorem declareBinding_error_ne_nil (lib : Lib) (rmqc : Client) (s s1 : State)
    (vhost : String) (bindingInfo : BindingInfo) (r : Ret)
    (h : declareBinding lib rmqc s vhost bindingInfo = (Except.error r, s1)) : r ≠ Ret.nil := by
  unfold declareBinding at h
  simp only [] at h
  split at h
  · simp only [Prod.mk.injEq, Except.error.injEq] at h
    rw [← h.1]
    simp
  · split at h
    · simp only [Prod.mk.injEq, Except.error.injEq] at h
      rw [← h.1]
      simp
    · split at h
      · simp only [Prod.mk.injEq, Except.error.injEq] at h
        rw [← h.1]
        simp
      · split at h
        · simp only [Prod.mk.injEq, Except.error.injEq] at h
          rw [← h.1]
          simp
        · simp at h

/-- C2: whenever `CreateBinding` succeeds, the declare call returned a properties
key and the identifier set on the resource is exactly the percent-encoded vhost,
source, destination, destination type (the input attributes) and that key, joined
with `/`; `ReadBinding` then runs on the resource carrying that identifier, and
keeps it or (when it finds no such binding) clears it. -/
theorem CreateBinding_sets_identifier (lib : Lib) (rmqc : Client) (s : State)
    (vhost source destination destinationType : String)
    (hvhost : s.d.Get "vhost" = Value.str vhost)
    (hsource : s.d.Get "source" = Value.str source)
    (hdestination : s.d.Get "destination" = Value.str destination)
    (htype : s.d.Get "destination_type" = Value.str destinationType)
    (hok : (CreateBinding lib rmqc s).1 = Ret.nil) :
    ∃ (bindingInfo : BindingInfo) (propertiesKey : String),
      bindingInfo.Source = source ∧ bindingInfo.Destination = destination ∧
      bindingInfo.DestinationType = destinationType ∧
      declareBinding lib rmqc s vhost bindingInfo =
        (Except.ok propertiesKey, s.call (Call.DeclareBinding vhost bindingInfo)) ∧
      CreateBinding lib rmqc s =
        ReadBinding lib rmqc ((s.call (Call.DeclareBinding vhost bindingInfo)).SetId
          (sprintfBindingId (percentEncodeSlashes vhost) source destination destinationType
            propertiesKey)) ∧
      Event.setId (sprintfBindingId (percentEncodeSlashes vhost) source destination
          destinationType propertiesKey) ∈ (CreateBinding lib rmqc s).2.log ∧
      ((CreateBinding lib rmqc s).2.d.Id =
          sprintfBindingId (percentEncodeSlashes vhost) source destination destinationType
            propertiesKey ∨
        (CreateBinding lib rmqc s).2.d.Id = "") := by
  have e1 : (s.d.Get "vhost").asString? = some vhost := by rw [hvhost]; rfl
  have e2 : (s.d.Get "source").asString? = some source := by rw [hsource]; rfl
  have e3 : (s.d.Get "destination").asString? = some destination := by rw [hdestination]; rfl
  have e4 : (s.d.Get "destination_type").asString? = some destinationType := by rw [htype]; rfl
  unfold CreateBinding at hok ⊢
  simp only [e1, e2, e3, e4] at hok ⊢
  cases harg : (s.d.Get "arguments").asMap? with
  | none => simp [harg] at hok
  | some arguments0 =>
    simp only [harg] at hok ⊢
    split at hok
    · simp at hok
    · next arguments hparsed =>
      cases hrk : (s.d.Get "routing_key").asString? with
      | none => simp [hrk] at hok
      | some routingKey =>
        simp only [hrk] at hok ⊢
        have hst := declareBinding_state lib rmqc s vhost
          { Source := source, Destination := destination, DestinationType := destinationType,
            RoutingKey := routingKey, Arguments := arguments }
        split at hok
        · next r s1 hdecl =>
          exact absurd hok (declareBinding_error_ne_nil lib rmqc s s1 vhost _ r hdecl)
        · next propertiesKey s1 hdecl =>
          rw [hdecl] at hst
          simp only at hst
          subst hst
          refine ⟨_, propertiesKey, rfl, rfl, rfl, hdecl, rfl, ?_, ?_⟩
          · exact logExtends_mem (ReadBinding_log lib rmqc _)
              (List.mem_append_right _ (List.mem_singleton.2 rfl))
          · exact ReadBinding_id lib rmqc _

/-- Witness for C2, the end-to-end scenario: vhost `/`, source `ex1`, destination
`q1`, destination type `queue`, server key `routingkey`. -/
theorem CreateBinding_sets_identifier_witness :
    (CreateBinding scenarioLib scenarioClient scenarioBindingState).1 = Ret.nil ∧
    (CreateBinding scenarioLib scenarioClient scenarioBindingState).2.d.Id =
      "%2F/ex1/q1/queue/routingkey" ∧
    ∃ (bindingInfo : BindingInfo) (propertiesKey : String),
      bindingInfo.Source = "ex1" ∧ bindingInfo.Destination = "q1" ∧
      bindingInfo.DestinationType = "queue" ∧
      declareBinding scenarioLib scenarioClient scenarioBindingState "/" bindingInfo =
        (Except.ok propertiesKey,
          scenarioBindingState.call (Call.DeclareBinding "/" bindingInfo)) ∧
      CreateBinding scenarioLib scenarioClient scenarioBindingState =
        ReadBinding scenarioLib scenarioClient
          ((scenarioBindingState.call (Call.DeclareBinding "/" bindingInfo)).SetId
            (sprintfBindingId (percentEncodeSlashes "/") "ex1" "q1" "queue" propertiesKey)) ∧
      Event.setId (sprintfBindingId (percentEncodeSlashes "/") "ex1" "q1" "queue"
          propertiesKey) ∈
        (CreateBinding scenarioLib scenarioClient scenarioBindingState).2.log ∧
      ((CreateBinding scenarioLib scenarioClient scenarioBindingState).2.d.Id =
          sprintfBindingId (percentEncodeSlashes "/") "ex1" "q1" "queue" propertiesKey ∨
        (CreateBinding scenarioLib scenarioClient scenarioBindingState).2.d.Id = "") :=
  ⟨rfl, rfl,
    CreateBinding_sets_identifier scenarioLib scenarioClient scenarioBindingState
      "/" "ex1" "q1" "queue" rfl rfl rfl rfl rfl⟩

/-! ## Malformed binding identifiers -/

theorem length_splitChars (sep : Char) (l : List Char) :
    (splitChars sep l).length = l.count sep + 1 := by
  induction l with
  | nil => rfl
  | cons c cs ih =>
    unfold splitChars
    split
    · next h => subst h; simp [ih]
    · next h =>
      have hne : (c == sep) = false := by simpa using h
      split
      · next hnil => exact absurd hnil (splitChars_ne_nil sep cs)
      · next s0 rest heq =>
        rw [heq] at ih
        simp only [List.length_cons] at ih ⊢
        rw [List.count_cons, hne]
        simpa using ih

theorem length_stringsSplit (s : String) (sep : Char) :
    (stringsSplit s sep).length = s.data.count sep + 1 := by
  simp [stringsSplit, length_splitChars]

theorem bindingIdSegments_short (id : String) (h : (stringsSplit id '/').length < 5) :
    bindingIdSegments id = Except.error (Errorf "Unable to determine binding ID") := by
  unfold bindingIdSegments
  split
  · next heq => rw [heq] at h; simp at h; omega
  · rfl

theorem bindingIdSegments_long (id : String) (h : 5 ≤ (stringsSplit id '/').length) :
    ∃ s0 s1 s2 s3 s4 rest, stringsSplit id '/' = s0 :: s1 :: s2 :: s3 :: s4 :: rest ∧
      bindingIdSegments id = Except.ok (s0, s1, s2, s3, s4) := by
  unfold bindingIdSegments
  match hs : stringsSplit id '/' with
  | s0 :: s1 :: s2 :: s3 :: s4 :: rest => exact ⟨s0, s1, s2, s3, s4, rest, rfl, rfl⟩
  | [] => rw [hs] at h; simp at h
  | [_] => rw [hs] at h; simp at h
  | [_, _] => rw [hs] at h; simp at h
  | [_, _, _] => rw [hs] at h; simp at h
  | [_, _, _, _] => rw [hs] at h; simp at h

theorem State.ne_call (s : State) (c : Call) : s.call c ≠ s := by
  intro h
  have h2 : (s.call c).log.length = s.log.length := by rw [h]
  simp [State.call] at h2

theorem logExtends_ne {s s2 : State} (c : Call) (h : LogExtends (s.call c).log s2.log) :
    s2 ≠ s := by
  intro e
  obtain ⟨es, hes⟩ := h
  have h2 : s2.log.length = s.log.length := by rw [e]
  rw [hes] at h2
  simp [State.call] at h2

/-- Once the identifier is decoded, `ReadBinding` starts with a call on the client. -/
theorem ReadBinding_first_call (lib : Lib) (rmqc : Client) (s : State)
    (seg : String × String × String × String × String)
    (hseg : bindingIdSegments s.d.Id = Except.ok seg) :
    ∃ c, LogExtends (s.call c).log (ReadBinding lib rmqc s).2.log := by
  obtain ⟨seg0, source, destination, destinationType, propertiesKey⟩ := seg
  unfold ReadBinding
  simp only [hseg]
  split
  · next e s1 heq =>
    split at heq <;> [skip; split at heq] <;>
      · simp only [Prod.mk.injEq] at heq
        rw [← heq.2]
        exact ⟨_, logExtends_refl _⟩
  · next bindings s1 heq =>
    have hs1 : ∃ c, s1 = s.call c := by
      split at heq <;> [skip; split at heq] <;>
        · simp only [Prod.mk.injEq] at heq
          exact ⟨_, heq.2.symm⟩
    obtain ⟨c, rfl⟩ := hs1
    refine ⟨c, ?_⟩
    split
    · next e s2 hloop =>
      exact (ReadBindingLoop_log lib _ _ _ _ bindings false _).2 e s2 hloop
    · next bindingFound s2 hloop =>
      have h2 := (ReadBindingLoop_log lib _ _ _ _ bindings false _).1 _ s2 hloop
      split
      · exact logExtends_trans h2 (logExtends_SetId _ _)
      · exact h2

/-- C5: an identifier that splits on `/` into fewer than five segments (fewer than
four `/`) makes `ReadBinding` and `DeleteBinding` return the error "Unable to
determine binding ID" with no call and the bag untouched; with five segments or
more the decoding succeeds, both adapters go on to their remote call, and neither
ends at that check. -/
theorem binding_identifier_check (lib : Lib) (rmqc : Client) (s : State) :
    (stringsSplit s.d.Id '/').length = s.d.Id.data.count '/' + 1 ∧
    ((stringsSplit s.d.Id '/').length < 5 →
      ReadBinding lib rmqc s = (Ret.err (Errorf "Unable to determine binding ID"), s) ∧
      DeleteBinding rmqc s = (Ret.err (Errorf "Unable to determine binding ID"), s)) ∧
    (5 ≤ (stringsSplit s.d.Id '/').length →
      (∃ seg, bindingIdSegments s.d.Id = Except.ok seg) ∧
      (∃ c, LogExtends (s.log ++ [Event.call c]) (ReadBinding lib rmqc s).2.log) ∧
      (∃ c, (DeleteBinding rmqc s).2 = s.call c) ∧
      ReadBinding lib rmqc s ≠ (Ret.err (Errorf "Unable to determine binding ID"), s) ∧
      DeleteBinding rmqc s ≠ (Ret.err (Errorf "Unable to determine binding ID"), s)) := by
  refine ⟨length_stringsSplit _ _, ?_, ?_⟩
  · intro h
    have hseg := bindingIdSegments_short _ h
    simp [ReadBinding, DeleteBinding, hseg]
  · intro h
    obtain ⟨s0, s1, s2, s3, s4, rest, -, hseg⟩ := bindingIdSegments_long _ h
    have hread : ∃ c, LogExtends (s.log ++ [Event.call c]) (ReadBinding lib rmqc s).2.log :=
      ReadBinding_first_call lib rmqc s _ hseg
    have hdel : ∃ c, (DeleteBinding rmqc s).2 = s.call c := by
      unfold DeleteBinding
      simp only [hseg]
      split
      · exact ⟨_, rfl⟩
      · split
        · exact ⟨_, rfl⟩
        · split <;> exact ⟨_, rfl⟩
    refine ⟨⟨_, hseg⟩, hread, hdel, ?_, ?_⟩
    · obtain ⟨c, hc⟩ := hread
      intro e
      rw [e] at hc
      exact logExtends_ne c hc rfl
    · obtain ⟨c, hc⟩ := hdel
      intro e
      rw [e] at hc
      exact State.ne_call s c hc.symm

/-- Witness for C5: the identifier `a/b/c` has three segments, the identifier of the
scenario has five. -/
theorem binding_identifier_check_witness :
    (ReadBinding scenarioLib scenarioClient { d := ResourceData.ofList "a/b/c" [], log := [] }
        = (Ret.err (Errorf "Unable to determine binding ID"),
            { d := ResourceData.ofList "a/b/c" [], log := [] }) ∧
      DeleteBinding scenarioClient { d := ResourceData.ofList "a/b/c" [], log := [] }
        = (Ret.err (Errorf "Unable to determine binding ID"),
            { d := ResourceData.ofList "a/b/c" [], log := [] })) ∧
    DeleteBinding scenarioClient
        { d := ResourceData.ofList "%2F/ex1/q1/queue/routingkey" [], log := [] }
      ≠ (Ret.err (Errorf "Unable to determine binding ID"),
          { d := ResourceData.ofList "%2F/ex1/q1/queue/routingkey" [], log := [] }) :=
  ⟨(binding_identifier_check scenarioLib scenarioClient
      { d := ResourceData.ofList "a/b/c" [], log := [] }).2.1 (by decide),
   ((binding_identifier_check scenarioLib scenarioClient
      { d := ResourceData.ofList "%2F/ex1/q1/queue/routingkey" [], log := [] }).2.2
        (by decide)).2.2.2.2⟩

/-! ## Create sets the identifier -/

theorem checkDeleted_log (s : State) (e : GoError) :
    LogExtends s.log (checkDeleted s e).2.log := by
  unfold checkDeleted
  split
  · exact logExtends_SetId _ _
  · exact logExtends_refl _

theorem ReadExchange_log (rmqc : Client) (s : State) :
    LogExtends s.log (ReadExchange rmqc s).2.log := by
  unfold ReadExchange
  split
  · exact logExtends_refl _
  · simp only []
    split
    · exact logExtends_trans (logExtends_call _ _) (checkDeleted_log _ _)
    · exact logExtends_trans (logExtends_call _ _) (logExtends_trans (logExtends_Set _ _ _)
        (logExtends_trans (logExtends_Set _ _ _) (logExtends_Set _ _ _)))

theorem ReadUser_log (rmqc : Client) (s : State) :
    LogExtends s.log (ReadUser rmqc s).2.log := by
  unfold ReadUser
  simp only []
  split
  · exact logExtends_trans (logExtends_call _ _) (checkDeleted_log _ _)
  · split
    · split
      · exact logExtends_trans (logExtends_call _ _)
          (logExtends_trans (logExtends_Set _ _ _) (logExtends_Set _ _ _))
      · exact logExtends_trans (logExtends_call _ _) (logExtends_Set _ _ _)
    · exact logExtends_trans (logExtends_call _ _) (logExtends_Set _ _ _)

theorem ReadPermissions_log (rmqc : Client) (s : State) :
    LogExtends s.log (ReadPermissions rmqc s).2.log := by
  unfold ReadPermissions
  split
  · exact logExtends_refl _
  · simp only []
    split
    · exact logExtends_trans (logExtends_call _ _) (checkDeleted_log _ _)
    · exact logExtends_trans (logExtends_call _ _) (logExtends_trans (logExtends_Set _ _ _)
        (logExtends_trans (logExtends_Set _ _ _) (logExtends_Set _ _ _)))

theorem ReadFederationUpstream_log (rmqc : Client) (s : State) :
    LogExtends s.log (ReadFederationUpstream rmqc s).2.log := by
  unfold ReadFederationUpstream
  split
  · exact logExtends_refl _
  · simp only []
    split
    · exact logExtends_trans (logExtends_call _ _) (checkDeleted_log _ _)
    · exact logExtends_trans (logExtends_call _ _) (logExtends_trans (logExtends_Set _ _ _)
        (logExtends_trans (logExtends_Set _ _ _) (logExtends_trans (logExtends_Set _ _ _)
          (logExtends_Set _ _ _))))

theorem ReadShovel_log (rmqc : Client) (s : State) :
    LogExtends s.log (ReadShovel rmqc s).2.log := by
  unfold ReadShovel
  split
  · exact logExtends_refl _
  · simp only []
    split
    · exact logExtends_trans (logExtends_call _ _) (checkDeleted_log _ _)
    · exact logExtends_trans (logExtends_call _ _) (logExtends_trans (logExtends_Set _ _ _)
        (logExtends_trans (logExtends_Set _ _ _) (logExtends_Set _ _ _)))

theorem mem_log_of_SetId (s s2 : State) (id : String)
    (h : LogExtends (s.SetId id).log s2.log) : Event.setId id ∈ s2.log :=
  logExtends_mem h (List.mem_append_right _ (List.mem_singleton.2 rfl))

/-- C6: on every successful declare, `CreateExchange`, `CreateFederationUpstream`
and `CreateShovel` set the identifier to exactly `name@vhost`, `CreatePermissions`
sets it to `user@vhost` and `CreateUser` sets it to `name`, from the input
attributes, and then run their Read adapter on the resource with that identifier,
which keeps it or (when the entity is not found) clears it. -/
theorem Create_sets_identifier (rmqc : Client) (s : State) :
    (∀ name vhost settingsMap rest resp,
      s.d.Get "name" = Value.str name → s.d.Get "vhost" = Value.str vhost →
      s.d.Get "settings" = Value.list (Value.map settingsMap :: rest) →
      rmqc.DeclareExchange s.log vhost name (exchangeSettingsFromMap settingsMap)
        = Except.ok resp →
      resp.StatusCode < 400 →
      CreateExchange rmqc s =
        ReadExchange rmqc ((s.call (Call.DeclareExchange vhost name
          (exchangeSettingsFromMap settingsMap))).SetId (sprintfNameAtVhost name vhost)) ∧
      Event.setId (sprintfNameAtVhost name vhost) ∈ (CreateExchange rmqc s).2.log ∧
      ((CreateExchange rmqc s).2.d.Id = sprintfNameAtVhost name vhost ∨ (CreateExchange rmqc s).2.d.Id = "")) ∧
    (∀ name vhost defMap rest resp,
      s.d.Get "name" = Value.str name → s.d.Get "vhost" = Value.str vhost →
      s.d.Get "definition" = Value.list (Value.map defMap :: rest) →
      rmqc.PutFederationUpstream s.log vhost name (federationDefinitionFromMap defMap)
        = Except.ok resp →
      resp.StatusCode < 400 →
      CreateFederationUpstream rmqc s =
        ReadFederationUpstream rmqc ((s.call (Call.PutFederationUpstream vhost name
          (federationDefinitionFromMap defMap))).SetId (sprintfNameAtVhost name vhost)) ∧
      Event.setId (sprintfNameAtVhost name vhost) ∈ (CreateFederationUpstream rmqc s).2.log ∧
      ((CreateFederationUpstream rmqc s).2.d.Id = sprintfNameAtVhost name vhost ∨ (CreateFederationUpstream rmqc s).2.d.Id = "")) ∧
    (∀ name vhost shovelMap rest resp,
      s.d.Get "name" = Value.str name → s.d.Get "vhost" = Value.str vhost →
      s.d.Get "info" = Value.list (Value.map shovelMap :: rest) →
      rmqc.DeclareShovel s.log vhost name (setShovelDefinition shovelMap) = Except.ok resp →
      resp.StatusCode < 400 →
      CreateShovel rmqc s =
        ReadShovel rmqc ((s.call (Call.DeclareShovel vhost name
          (setShovelDefinition shovelMap))).SetId (sprintfNameAtVhost name vhost)) ∧
      Event.setId (sprintfNameAtVhost name vhost) ∈ (CreateShovel rmqc s).2.log ∧
      ((CreateShovel rmqc s).2.d.Id = sprintfNameAtVhost name vhost ∨ (CreateShovel rmqc s).2.d.Id = "")) ∧
    (∀ user vhost first permsMap rest resp,
      s.d.Get "user" = Value.str user → s.d.Get "vhost" = Value.str vhost →
      s.d.Get "permissions" = Value.list (first :: rest) →
      (first = Value.map permsMap ∨ (first = Value.null ∧ permsMap = [])) →
      rmqc.UpdatePermissionsIn s.log vhost user (permissionsFromMap permsMap)
        = Except.ok resp →
      resp.StatusCode < 400 →
      CreatePermissions rmqc s =
        ReadPermissions rmqc ((s.call (Call.UpdatePermissionsIn vhost user
          (permissionsFromMap permsMap))).SetId (sprintfNameAtVhost user vhost)) ∧
      Event.setId (sprintfNameAtVhost user vhost) ∈ (CreatePermissions rmqc s).2.log ∧
      ((CreatePermissions rmqc s).2.d.Id = sprintfNameAtVhost user vhost ∨ (CreatePermissions rmqc s).2.d.Id = "")) ∧
    (∀ name password tags resp,
      s.d.Get "name" = Value.str name → s.d.Get "password" = Value.str password →
      s.d.Get "tags" = Value.list tags →
      rmqc.PutUser s.log name { Password := password, Tags := userTagsToString tags }
        = Except.ok resp →
      resp.StatusCode < 400 →
      CreateUser rmqc s =
        ReadUser rmqc ((s.call (Call.PutUser name
          { Password := password, Tags := userTagsToString tags })).SetId name) ∧
      Event.setId name ∈ (CreateUser rmqc s).2.log ∧
      ((CreateUser rmqc s).2.d.Id = name ∨ (CreateUser rmqc s).2.d.Id = "")) := by
  refine ⟨?_, ?_, ?_, ?_, ?_⟩
  · intro name vhost settingsMap rest resp hn hv hl hd hlt
    have hge : ¬ resp.StatusCode ≥ 400 := by omega
    have h : CreateExchange rmqc s =
        ReadExchange rmqc ((s.call (Call.DeclareExchange vhost name
          (exchangeSettingsFromMap settingsMap))).SetId (sprintfNameAtVhost name vhost)) := by
      simp [CreateExchange, declareExchange, hn, hv, hl, hd, hge, Value.asString?,
        Value.asList?, Value.asMap?]
    exact ⟨h, by rw [h]; exact mem_log_of_SetId _ _ _ (ReadExchange_log _ _),
      by rw [h]; exact ReadExchange_id _ _⟩
  · intro name vhost defMap rest resp hn hv hl hd hlt
    have hge : ¬ resp.StatusCode ≥ 400 := by omega
    have h : CreateFederationUpstream rmqc s =
        ReadFederationUpstream rmqc ((s.call (Call.PutFederationUpstream vhost name
          (federationDefinitionFromMap defMap))).SetId (sprintfNameAtVhost name vhost)) := by
      simp [CreateFederationUpstream, putFederationUpstream, hn, hv, hl, hd, hge,
        Value.asString?, Value.asList?, Value.asMap?]
    exact ⟨h, by rw [h]; exact mem_log_of_SetId _ _ _ (ReadFederationUpstream_log _ _),
      by rw [h]; exact ReadFederationUpstream_id _ _⟩
  · intro name vhost shovelMap rest resp hn hv hl hd _
    have h : CreateShovel rmqc s =
        ReadShovel rmqc ((s.call (Call.DeclareShovel vhost name
          (setShovelDefinition shovelMap))).SetId (sprintfNameAtVhost name vhost)) := by
      simp [CreateShovel, hn, hv, hl, hd, Value.asString?, Value.asList?, Value.asMap?]
    exact ⟨h, by rw [h]; exact mem_log_of_SetId _ _ _ (ReadShovel_log _ _),
      by rw [h]; exact ReadShovel_id _ _⟩
  · intro user vhost first permsMap rest resp hn hv hl hfirst hd hlt
    have hge : ¬ resp.StatusCode ≥ 400 := by omega
    have hasserted : (if first.isNil then some [] else first.asMap?) = some permsMap := by
      rcases hfirst with h | ⟨h, h2⟩
      · subst h; rfl
      · subst h; subst h2; rfl
    have h : CreatePermissions rmqc s =
        ReadPermissions rmqc ((s.call (Call.UpdatePermissionsIn vhost user
          (permissionsFromMap permsMap))).SetId (sprintfNameAtVhost user vhost)) := by
      simp [CreatePermissions, setPermissionsIn, hn, hv, hl, hd, hge, hasserted,
        Value.asString?, Value.asList?]
    exact ⟨h, by rw [h]; exact mem_log_of_SetId _ _ _ (ReadPermissions_log _ _),
      by rw [h]; exact ReadPermissions_id _ _⟩
  · intro name password tags resp hn hp ht hd hlt
    have hge : ¬ resp.StatusCode ≥ 400 := by omega
    have h : CreateUser rmqc s =
        ReadUser rmqc ((s.call (Call.PutUser name
          { Password := password, Tags := userTagsToString tags })).SetId name) := by
      simp [CreateUser, hn, hp, ht, hd, hge, Value.asString?, Value.asList?]
    exact ⟨h, by rw [h]; exact mem_log_of_SetId _ _ _ (ReadUser_log _ _),
      by rw [h]; exact ReadUser_id _ _⟩

/-- Witness for C6: the exchange `test` in the vhost `/` gets the identifier `test@/`;
likewise a federation upstream, a shovel, permissions and a user. -/
theorem Create_sets_identifier_witness :
    (CreateExchange scenarioClient scenarioExchangeState).2.d.Id = "test@/" ∧
    Event.setId "test@/" ∈ (CreateExchange scenarioClient scenarioExchangeState).2.log ∧
    Event.setId "up@/" ∈ (CreateFederationUpstream scenarioClient scenarioFederationState).2.log ∧
    Event.setId "sh@/" ∈ (CreateShovel scenarioClient scenarioShovelState).2.log ∧
    Event.setId "mctest@/" ∈ (CreatePermissions scenarioClient scenarioPermissionsState).2.log ∧
    Event.setId "mctest" ∈ (CreateUser scenarioClient scenarioUserState).2.log :=
  ⟨rfl,
   ((Create_sets_identifier scenarioClient scenarioExchangeState).1
      "test" "/" _ _ _ rfl rfl rfl rfl (by decide)).2.1,
   ((Create_sets_identifier scenarioClient scenarioFederationState).2.1
      "up" "/" _ _ _ rfl rfl rfl rfl (by decide)).2.1,
   ((Create_sets_identifier scenarioClient scenarioShovelState).2.2.1
      "sh" "/" _ _ _ rfl rfl rfl rfl (by decide)).2.1,
   ((Create_sets_identifier scenarioClient scenarioPermissionsState).2.2.2.1
      "mctest" "/" _ _ _ _ rfl rfl rfl (Or.inl rfl) rfl (by decide)).2.1,
   ((Create_sets_identifier scenarioClient scenarioUserState).2.2.2.2
      "mctest" "foobar" _ _ rfl rfl rfl rfl (by decide)).2.1⟩

/-! ## Delete adapters -/

theorem rejectedWith_errorf (s : State) (pre status : String) :
    RejectedWith (Ret.err (Errorf (pre ++ status)), s) status :=
  ⟨_, rfl, pre, "", by simp [Errorf]⟩

theorem DeleteExchange_reply (rmqc : Client) (s : State) (name vhost : String)
    (resp : Response) (hid : parseResourceId s.d = Except.ok (name, vhost))
    (hresp : rmqc.DeleteExchange s.log vhost name = Except.ok resp) :
    DeleteExchange rmqc s =
      (if resp.StatusCode = 404 then Ret.nil
        else if resp.StatusCode ≥ 400 then
          Ret.err (Errorf ("Error deleting RabbitMQ exchange: " ++ resp.Status))
        else Ret.nil, s.call (Call.DeleteExchange vhost name)) := by
  simp only [DeleteExchange, hid, hresp]
  split_ifs <;> rfl

theorem DeleteUser_reply (rmqc : Client) (s : State) (resp : Response)
    (hresp : rmqc.DeleteUser s.log s.d.Id = Except.ok resp) :
    DeleteUser rmqc s =
      (if resp.StatusCode = 404 then Ret.nil
        else if resp.StatusCode ≥ 400 then
          Ret.err (Errorf ("Error deleting RabbitMQ user: " ++ resp.Status))
        else Ret.nil, s.call (Call.DeleteUser s.d.Id)) := by
  simp only [DeleteUser, hresp]
  split_ifs <;> rfl

theorem DeleteBinding_reply (rmqc : Client) (s : State)
    (seg : String × String × String × String × String) (resp : Response)
    (hid : bindingIdSegments s.d.Id = Except.ok seg)
    (hresp : rmqc.DeleteBinding s.log (percentDecodeSlashes seg.1) (deleteBindingInfo seg)
      = Except.ok resp) :
    DeleteBinding rmqc s =
      (if resp.StatusCode = 404 then Ret.nil
        else if resp.StatusCode ≥ 400 then
          Ret.err (Errorf ("Error deleting RabbitMQ binding: " ++ resp.Status))
        else Ret.nil,
        s.call (Call.DeleteBinding (percentDecodeSlashes seg.1) (deleteBindingInfo seg))) := by
  obtain ⟨seg0, source, destination, destinationType, propertiesKey⟩ := seg
  simp only [deleteBindingInfo] at hresp
  simp only [DeleteBinding, hid, hresp, deleteBindingInfo]
  split_ifs <;> rfl

theorem DeletePermissions_reply (rmqc : Client) (s : State) (user vhost : String)
    (resp : Response) (hid : parseResourceId s.d = Except.ok (user, vhost))
    (hresp : rmqc.ClearPermissionsIn s.log vhost user = Except.ok resp) :
    DeletePermissions rmqc s =
      (if resp.StatusCode = 404 then Ret.nil
        else if resp.StatusCode ≥ 400 then
          Ret.err (Errorf ("Error deleting RabbitMQ permission: " ++ resp.Status))
        else Ret.nil, s.call (Call.ClearPermissionsIn vhost user)) := by
  simp only [DeletePermissions, hid, hresp]
  split_ifs <;> rfl

theorem DeleteFederationUpstream_reply (rmqc : Client) (s : State) (name vhost : String)
    (resp : Response) (hid : parseResourceId s.d = Except.ok (name, vhost))
    (hresp : rmqc.DeleteFederationUpstream s.log vhost name = Except.ok resp) :
    DeleteFederationUpstream rmqc s =
      (if resp.StatusCode = 404 then Ret.nil
        else if resp.StatusCode ≥ 400 then
          Ret.err (Errorf ("Error deleting RabbitMQ federation upstream: " ++ resp.Status))
        else Ret.nil, s.call (Call.DeleteFederationUpstream vhost name)) := by
  simp only [DeleteFederationUpstream, hid, hresp]
  split_ifs <;> rfl

theorem DeleteShovel_reply (rmqc : Client) (s : State) (name vhost : String)
    (resp : Response) (hid : parseResourceId s.d = Except.ok (name, vhost))
    (hresp : rmqc.DeleteShovel s.log vhost name = Except.ok resp) :
    DeleteShovel rmqc s =
      (if resp.StatusCode ≥ 400 then
          Ret.err (Errorf ("Error deleting RabbitMQ shovel: " ++ resp.Status))
        else Ret.nil, s.call (Call.DeleteShovel vhost name)) := by
  simp only [DeleteShovel, hid, hresp]
  split_ifs <;> rfl

/-- C7: for exchange, user, binding, permissions and federation upstream, a delete
whose identifier decodes and whose remote call is answered with status 404 returns
nil; hence two deletes in sequence on the same identifier, the first answered with
a status below 400 or 404 and the second with 404, both return nil. -/
theorem Delete_404_is_success (rmqc : Client) (s : State) :
    (∀ name vhost, parseResourceId s.d = Except.ok (name, vhost) →
      (∀ resp, rmqc.DeleteExchange s.log vhost name = Except.ok resp →
        resp.StatusCode = 404 → (DeleteExchange rmqc s).1 = Ret.nil) ∧
      (∀ resp1 resp2, rmqc.DeleteExchange s.log vhost name = Except.ok resp1 →
        (resp1.StatusCode < 400 ∨ resp1.StatusCode = 404) →
        rmqc.DeleteExchange (s.call (Call.DeleteExchange vhost name)).log vhost name
          = Except.ok resp2 →
        resp2.StatusCode = 404 → SucceedsTwice (DeleteExchange rmqc) s)) ∧
    ((∀ resp, rmqc.DeleteUser s.log s.d.Id = Except.ok resp →
        resp.StatusCode = 404 → (DeleteUser rmqc s).1 = Ret.nil) ∧
      (∀ resp1 resp2, rmqc.DeleteUser s.log s.d.Id = Except.ok resp1 →
        (resp1.StatusCode < 400 ∨ resp1.StatusCode = 404) →
        rmqc.DeleteUser (s.call (Call.DeleteUser s.d.Id)).log s.d.Id = Except.ok resp2 →
        resp2.StatusCode = 404 → SucceedsTwice (DeleteUser rmqc) s)) ∧
    (∀ seg, bindingIdSegments s.d.Id = Except.ok seg →
      (∀ resp, rmqc.DeleteBinding s.log (percentDecodeSlashes seg.1) (deleteBindingInfo seg)
          = Except.ok resp →
        resp.StatusCode = 404 → (DeleteBinding rmqc s).1 = Ret.nil) ∧
      (∀ resp1 resp2,
        rmqc.DeleteBinding s.log (percentDecodeSlashes seg.1) (deleteBindingInfo seg)
          = Except.ok resp1 →
        (resp1.StatusCode < 400 ∨ resp1.StatusCode = 404) →
        rmqc.DeleteBinding
            (s.call (Call.DeleteBinding (percentDecodeSlashes seg.1) (deleteBindingInfo seg))).log
            (percentDecodeSlashes seg.1) (deleteBindingInfo seg) = Except.ok resp2 →
        resp2.StatusCode = 404 → SucceedsTwice (DeleteBinding rmqc) s)) ∧
    (∀ user vhost, parseResourceId s.d = Except.ok (user, vhost) →
      (∀ resp, rmqc.ClearPermissionsIn s.log vhost user = Except.ok resp →
        resp.StatusCode = 404 → (DeletePermissions rmqc s).1 = Ret.nil) ∧
      (∀ resp1 resp2, rmqc.ClearPermissionsIn s.log vhost user = Except.ok resp1 →
        (resp1.StatusCode < 400 ∨ resp1.StatusCode = 404) →
        rmqc.ClearPermissionsIn (s.call (Call.ClearPermissionsIn vhost user)).log vhost user
          = Except.ok resp2 →
        resp2.StatusCode = 404 → SucceedsTwice (DeletePermissions rmqc) s)) ∧
    (∀ name vhost, parseResourceId s.d = Except.ok (name, vhost) →
      (∀ resp, rmqc.DeleteFederationUpstream s.log vhost name = Except.ok resp →
        resp.StatusCode = 404 → (DeleteFederationUpstream rmqc s).1 = Ret.nil) ∧
      (∀ resp1 resp2, rmqc.DeleteFederationUpstream s.log vhost name = Except.ok resp1 →
        (resp1.StatusCode < 400 ∨ resp1.StatusCode = 404) →
        rmqc.DeleteFederationUpstream (s.call (Call.DeleteFederationUpstream vhost name)).log
          vhost name = Except.ok resp2 →
        resp2.StatusCode = 404 → SucceedsTwice (DeleteFederationUpstream rmqc) s)) := by
  have key : ∀ (resp : Response) (msg : String),
      (resp.StatusCode < 400 ∨ resp.StatusCode = 404) →
      (if resp.StatusCode = 404 then Ret.nil
        else if resp.StatusCode ≥ 400 then Ret.err (Errorf msg) else Ret.nil) = Ret.nil := by
    intro resp msg h
    split_ifs with h1 h2
    · rfl
    · omega
    · rfl
  refine ⟨?_, ?_, ?_, ?_, ?_⟩
  · intro name vhost hid
    refine ⟨fun resp hresp h404 => ?_, fun resp1 resp2 h1 hc1 h2 hc2 => ?_⟩
    · rw [DeleteExchange_reply rmqc s name vhost resp hid hresp]
      exact key resp _ (Or.inr h404)
    · have e1 := DeleteExchange_reply rmqc s name vhost resp1 hid h1
      have e2 := DeleteExchange_reply rmqc (s.call (Call.DeleteExchange vhost name))
        name vhost resp2 hid h2
      refine ⟨by rw [e1]; exact key resp1 _ hc1, ?_⟩
      rw [e1]
      simp only []
      rw [e2]
      exact key resp2 _ (Or.inr hc2)
  · refine ⟨fun resp hresp h404 => ?_, fun resp1 resp2 h1 hc1 h2 hc2 => ?_⟩
    · rw [DeleteUser_reply rmqc s resp hresp]
      exact key resp _ (Or.inr h404)
    · have e1 := DeleteUser_reply rmqc s resp1 h1
      have e2 := DeleteUser_reply rmqc (s.call (Call.DeleteUser s.d.Id)) resp2 h2
      refine ⟨by rw [e1]; exact key resp1 _ hc1, ?_⟩
      rw [e1]
      simp only []
      rw [e2]
      exact key resp2 _ (Or.inr hc2)
  · intro seg hid
    refine ⟨fun resp hresp h404 => ?_, fun resp1 resp2 h1 hc1 h2 hc2 => ?_⟩
    · rw [DeleteBinding_reply rmqc s seg resp hid hresp]
      exact key resp _ (Or.inr h404)
    · have e1 := DeleteBinding_reply rmqc s seg resp1 hid h1
      have e2 := DeleteBinding_reply rmqc
        (s.call (Call.DeleteBinding (percentDecodeSlashes seg.1) (deleteBindingInfo seg)))
        seg resp2 hid h2
      refine ⟨by rw [e1]; exact key resp1 _ hc1, ?_⟩
      rw [e1]
      simp only []
      rw [e2]
      exact key resp2 _ (Or.inr hc2)
  · intro user vhost hid
    refine ⟨fun resp hresp h404 => ?_, fun resp1 resp2 h1 hc1 h2 hc2 => ?_⟩
    · rw [DeletePermissions_reply rmqc s user vhost resp hid hresp]
      exact key resp _ (Or.inr h404)
    · have e1 := DeletePermissions_reply rmqc s user vhost resp1 hid h1
      have e2 := DeletePermissions_reply rmqc (s.call (Call.ClearPermissionsIn vhost user))
        user vhost resp2 hid h2
      refine ⟨by rw [e1]; exact key resp1 _ hc1, ?_⟩
      rw [e1]
      simp only []
      rw [e2]
      exact key resp2 _ (Or.inr hc2)
  · intro name vhost hid
    refine ⟨fun resp hresp h404 => ?_, fun resp1 resp2 h1 hc1 h2 hc2 => ?_⟩
    · rw [DeleteFederationUpstream_reply rmqc s name vhost resp hid hresp]
      exact key resp _ (Or.inr h404)
    · have e1 := DeleteFederationUpstream_reply rmqc s name vhost resp1 hid h1
      have e2 := DeleteFederationUpstream_reply rmqc
        (s.call (Call.DeleteFederationUpstream vhost name)) name vhost resp2 hid h2
      refine ⟨by rw [e1]; exact key resp1 _ hc1, ?_⟩
      rw [e1]
      simp only []
      rw [e2]
      exact key resp2 _ (Or.inr hc2)

/-- Witness for C7: against a server that deletes once and answers 404 afterwards,
two deletes in sequence succeed, for each of the five kinds. -/
theorem Delete_404_is_success_witness :
    (DeleteExchange goneClient (existingResource "test@/")).1 = Ret.nil ∧
    SucceedsTwice (DeleteExchange deleteOnceClient) (existingResource "test@/") ∧
    SucceedsTwice (DeleteUser deleteOnceClient) (existingResource "mctest") ∧
    SucceedsTwice (DeleteBinding deleteOnceClient)
      (existingResource "%2F/ex1/q1/queue/routingkey") ∧
    SucceedsTwice (DeletePermissions deleteOnceClient) (existingResource "mctest@/") ∧
    SucceedsTwice (DeleteFederationUpstream deleteOnceClient) (existingResource "up@/") :=
  ⟨((Delete_404_is_success goneClient (existingResource "test@/")).1 "test" "/" rfl).1
      notFoundResponse rfl rfl,
   ((Delete_404_is_success deleteOnceClient (existingResource "test@/")).1 "test" "/" rfl).2
      noContent notFoundResponse rfl (Or.inl (by decide)) rfl rfl,
   ((Delete_404_is_success deleteOnceClient (existingResource "mctest")).2.1).2
      noContent notFoundResponse rfl (Or.inl (by decide)) rfl rfl,
   ((Delete_404_is_success deleteOnceClient
      (existingResource "%2F/ex1/q1/queue/routingkey")).2.2.1
        ("%2F", "ex1", "q1", "queue", "routingkey") rfl).2
      noContent notFoundResponse rfl (Or.inl (by decide)) rfl rfl,
   ((Delete_404_is_success deleteOnceClient (existingResource "mctest@/")).2.2.2.1
        "mctest" "/" rfl).2
      noContent notFoundResponse rfl (Or.inl (by decide)) rfl rfl,
   ((Delete_404_is_success deleteOnceClient (existingResource "up@/")).2.2.2.2
        "up" "/" rfl).2
      noContent notFoundResponse rfl (Or.inl (by decide)) rfl rfl⟩

/-- C8 fails on the code: answered with `404 Not Found`, `DeleteShovel` returns the
error "Error deleting RabbitMQ shovel: 404 Not Found" instead of nil. -/
theorem DeleteShovel_404_is_error :
    parseResourceId (existingResource "sh@/").d = Except.ok ("sh", "/") ∧
    goneClient.DeleteShovel (existingResource "sh@/").log "/" "sh"
      = Except.ok notFoundResponse ∧
    notFoundResponse.StatusCode = 404 ∧
    (DeleteShovel goneClient (existingResource "sh@/")).1
      = Ret.err (Errorf "Error deleting RabbitMQ shovel: 404 Not Found") ∧
    (DeleteExchange goneClient (existingResource "sh@/")).1 = Ret.nil :=
  ⟨rfl, rfl, rfl, rfl, rfl⟩

/-- What `DeleteShovel` does with every reply of status 404: it returns an error. -/
theorem DeleteShovel_404_general (rmqc : Client) (s : State) (name vhost : String)
    (resp : Response) (hid : parseResourceId s.d = Except.ok (name, vhost))
    (hresp : rmqc.DeleteShovel s.log vhost name = Except.ok resp)
    (h404 : resp.StatusCode = 404) :
    DeleteShovel rmqc s =
      (Ret.err (Errorf ("Error deleting RabbitMQ shovel: " ++ resp.Status)),
        s.call (Call.DeleteShovel vhost name)) := by
  rw [DeleteShovel_reply rmqc s name vhost resp hid hresp]
  have h : resp.StatusCode ≥ 400 := by omega
  simp [h]

theorem deleteContract_of_reply (s1 : State) (pre : String) (resp : Response) :
    DeleteContract
      (if resp.StatusCode = 404 then Ret.nil
        else if resp.StatusCode ≥ 400 then Ret.err (Errorf (pre ++ resp.Status))
        else Ret.nil, s1) (Except.ok resp) := by
  refine ⟨fun h1 h2 => ?_, fun h => ?_⟩
  · rw [if_neg h2, if_pos h1]
    exact rejectedWith_errorf s1 pre resp.Status
  · have h1 : ¬ resp.StatusCode = 404 := by omega
    have h2 : ¬ resp.StatusCode ≥ 400 := by omega
    rw [if_neg h1, if_neg h2]

/-- C9: each of the six Delete adapters, once its identifier is decoded, returns a
transport error of the remote delete call unchanged; returns an error whose message
contains the status text when the status is 400 or more and not 404; and returns
nil when the status is below 400. -/
theorem Delete_contract (rmqc : Client) (s : State) :
    (∀ name vhost, parseResourceId s.d = Except.ok (name, vhost) →
      DeleteContract (DeleteExchange rmqc s) (rmqc.DeleteExchange s.log vhost name)) ∧
    DeleteContract (DeleteUser rmqc s) (rmqc.DeleteUser s.log s.d.Id) ∧
    (∀ seg, bindingIdSegments s.d.Id = Except.ok seg →
      DeleteContract (DeleteBinding rmqc s)
        (rmqc.DeleteBinding s.log (percentDecodeSlashes seg.1) (deleteBindingInfo seg))) ∧
    (∀ user vhost, parseResourceId s.d = Except.ok (user, vhost) →
      DeleteContract (DeletePermissions rmqc s) (rmqc.ClearPermissionsIn s.log vhost user)) ∧
    (∀ name vhost, parseResourceId s.d = Except.ok (name, vhost) →
      DeleteContract (DeleteFederationUpstream rmqc s)
        (rmqc.DeleteFederationUpstream s.log vhost name)) ∧
    (∀ name vhost, parseResourceId s.d = Except.ok (name, vhost) →
      DeleteContract (DeleteShovel rmqc s) (rmqc.DeleteShovel s.log vhost name)) := by
  refine ⟨?_, ?_, ?_, ?_, ?_, ?_⟩
  · intro name vhost hid
    cases hr : rmqc.DeleteExchange s.log vhost name with
    | error e => simp [DeleteContract, DeleteExchange, hid, hr]
    | ok resp =>
      rw [DeleteExchange_reply rmqc s name vhost resp hid hr]
      exact deleteContract_of_reply _ _ resp
  · cases hr : rmqc.DeleteUser s.log s.d.Id with
    | error e => simp [DeleteContract, DeleteUser, hr]
    | ok resp =>
      rw [DeleteUser_reply rmqc s resp hr]
      exact deleteContract_of_reply _ _ resp
  · intro seg hid
    cases hr : rmqc.DeleteBinding s.log (percentDecodeSlashes seg.1) (deleteBindingInfo seg) with
    | error e =>
      obtain ⟨seg0, source, destination, destinationType, propertiesKey⟩ := seg
      simp only [deleteBindingInfo] at hr
      simp [DeleteContract, DeleteBinding, hid, hr]
    | ok resp =>
      rw [DeleteBinding_reply rmqc s seg resp hid hr]
      exact deleteContract_of_reply _ _ resp
  · intro user vhost hid
    cases hr : rmqc.ClearPermissionsIn s.log vhost user with
    | error e => simp [DeleteContract, DeletePermissions, hid, hr]
    | ok resp =>
      rw [DeletePermissions_reply rmqc s user vhost resp hid hr]
      exact deleteContract_of_reply _ _ resp
  · intro name vhost hid
    cases hr : rmqc.DeleteFederationUpstream s.log vhost name with
    | error e => simp [DeleteContract, DeleteFederationUpstream, hid, hr]
    | ok resp =>
      rw [DeleteFederationUpstream_reply rmqc s name vhost resp hid hr]
      exact deleteContract_of_reply _ _ resp
  · intro name vhost hid
    cases hr : rmqc.DeleteShovel s.log vhost name with
    | error e => simp [DeleteContract, DeleteShovel, hid, hr]
    | ok resp =>
      rw [DeleteShovel_reply rmqc s name vhost resp hid hr]
      refine ⟨fun h1 _ => ?_, fun h => ?_⟩
      · rw [if_pos h1]
        exact rejectedWith_errorf _ _ resp.Status
      · have h2 : ¬ resp.StatusCode ≥ 400 := by omega
        rw [if_neg h2]

/-- Witness for C9: a rejected, an unreachable and an accepted delete. -/
theorem Delete_contract_witness :
    DeleteContract (DeleteShovel rejectingClient (existingResource "sh@/"))
      (Except.ok badRequest) ∧
    DeleteContract (DeleteExchange unreachableClient (existingResource "test@/"))
      (Except.error (Errorf "connection refused")) ∧
    DeleteContract (DeleteBinding scenarioClient
      (existingResource "%2F/ex1/q1/queue/routingkey")) (Except.ok noContent) ∧
    DeleteContract (DeletePermissions rejectingClient (existingResource "mctest@/"))
      (Except.ok badRequest) ∧
    DeleteContract (DeleteFederationUpstream rejectingClient (existingResource "up@/"))
      (Except.ok badRequest) :=
  ⟨(Delete_contract rejectingClient (existingResource "sh@/")).2.2.2.2.2 "sh" "/" rfl,
   (Delete_contract unreachableClient (existingResource "test@/")).1 "test" "/" rfl,
   (Delete_contract scenarioClient (existingResource "%2F/ex1/q1/queue/routingkey")).2.2.1
      ("%2F", "ex1", "q1", "queue", "routingkey") rfl,
   (Delete_contract rejectingClient (existingResource "mctest@/")).2.2.2.1 "mctest" "/" rfl,
   (Delete_contract rejectingClient (existingResource "up@/")).2.2.2.2.1 "up" "/" rfl⟩

/-! ## Rejected declarations -/

/-- C10: when the declare or put call of `CreateExchange`, `CreateUser`,
`CreateBinding`, `CreatePermissions` or `CreateFederationUpstream` is answered
without transport error but with a status of 400 or more, Create returns an error
whose message contains the status text, and the only thing that happened is that
one call: the identifier is not set and the Read adapter is not run. -/
theorem Create_rejected (lib : Lib) (rmqc : Client) (s : State) :
    (∀ name vhost settingsMap rest resp,
      s.d.Get "name" = Value.str name → s.d.Get "vhost" = Value.str vhost →
      s.d.Get "settings" = Value.list (Value.map settingsMap :: rest) →
      rmqc.DeclareExchange s.log vhost name (exchangeSettingsFromMap settingsMap)
        = Except.ok resp →
      resp.StatusCode ≥ 400 →
      RejectedWith (CreateExchange rmqc s) resp.Status ∧
      CreateExchange rmqc s =
        (Ret.err (Errorf ("Error declaring RabbitMQ exchange: " ++ resp.Status)),
          s.call (Call.DeclareExchange vhost name (exchangeSettingsFromMap settingsMap)))) ∧
    (∀ name password tags resp,
      s.d.Get "name" = Value.str name → s.d.Get "password" = Value.str password →
      s.d.Get "tags" = Value.list tags →
      rmqc.PutUser s.log name { Password := password, Tags := userTagsToString tags }
        = Except.ok resp →
      resp.StatusCode ≥ 400 →
      RejectedWith (CreateUser rmqc s) resp.Status ∧
      CreateUser rmqc s =
        (Ret.err (Errorf ("Error creating RabbitMQ user: " ++ resp.Status)),
          s.call (Call.PutUser name
            { Password := password, Tags := userTagsToString tags }))) ∧
    (∀ vhost arguments0 arguments source destination destinationType routingKey resp,
      s.d.Get "vhost" = Value.str vhost → s.d.Get "arguments" = Value.map arguments0 →
      bindingArguments lib s.d arguments0 = Except.ok arguments →
      s.d.Get "source" = Value.str source → s.d.Get "destination" = Value.str destination →
      s.d.Get "destination_type" = Value.str destinationType →
      s.d.Get "routing_key" = Value.str routingKey →
      rmqc.DeclareBinding s.log vhost
        { Source := source, Destination := destination, DestinationType := destinationType,
          RoutingKey := routingKey, Arguments := arguments } = Except.ok resp →
      resp.StatusCode ≥ 400 →
      RejectedWith (CreateBinding lib rmqc s) resp.Status ∧
      CreateBinding lib rmqc s =
        (Ret.err (Errorf ("Error declaring RabbitMQ binding: " ++ resp.Status)),
          s.call (Call.DeclareBinding vhost
            { Source := source, Destination := destination,
              DestinationType := destinationType, RoutingKey := routingKey,
              Arguments := arguments }))) ∧
    (∀ user vhost first permsMap rest resp,
      s.d.Get "user" = Value.str user → s.d.Get "vhost" = Value.str vhost →
      s.d.Get "permissions" = Value.list (first :: rest) →
      (first = Value.map permsMap ∨ (first = Value.null ∧ permsMap = [])) →
      rmqc.UpdatePermissionsIn s.log vhost user (permissionsFromMap permsMap)
        = Except.ok resp →
      resp.StatusCode ≥ 400 →
      RejectedWith (CreatePermissions rmqc s) resp.Status ∧
      CreatePermissions rmqc s =
        (Ret.err (Errorf ("Error setting permissions: " ++ resp.Status)),
          s.call (Call.UpdatePermissionsIn vhost user (permissionsFromMap permsMap)))) ∧
    (∀ name vhost defMap rest resp,
      s.d.Get "name" = Value.str name → s.d.Get "vhost" = Value.str vhost →
      s.d.Get "definition" = Value.list (Value.map defMap :: rest) →
      rmqc.PutFederationUpstream s.log vhost name (federationDefinitionFromMap defMap)
        = Except.ok resp →
      resp.StatusCode ≥ 400 →
      RejectedWith (CreateFederationUpstream rmqc s) resp.Status ∧
      CreateFederationUpstream rmqc s =
        (Ret.err (Errorf ("Error creating RabbitMQ federation upstream: " ++ resp.Status)),
          s.call (Call.PutFederationUpstream vhost name
            (federationDefinitionFromMap defMap)))) := by
  have both : ∀ (out : Ret × State) (pre status : String) (s1 : State),
      out = (Ret.err (Errorf (pre ++ status)), s1) →
      RejectedWith out status ∧ out = (Ret.err (Errorf (pre ++ status)), s1) := by
    intro out pre status s1 h
    exact ⟨by rw [h]; exact rejectedWith_errorf s1 pre status, h⟩
  refine ⟨?_, ?_, ?_, ?_, ?_⟩
  · intro name vhost settingsMap rest resp hn hv hl hd hge
    apply both
    simp [CreateExchange, declareExchange, hn, hv, hl, hd, hge, Value.asString?,
      Value.asList?, Value.asMap?]
  · intro name password tags resp hn hp ht hd hge
    apply both
    simp [CreateUser, hn, hp, ht, hd, hge, Value.asString?, Value.asList?]
  · intro vhost arguments0 arguments source destination destinationType routingKey resp
      hv ha hparsed hs hdst ht hrk hd hge
    apply both
    simp [CreateBinding, declareBinding, hv, ha, hparsed, hs, hdst, ht, hrk, hd, hge,
      Value.asString?, Value.asMap?]
  · intro user vhost first permsMap rest resp hn hv hl hfirst hd hge
    have hasserted : (if first.isNil then some [] else first.asMap?) = some permsMap := by
      rcases hfirst with h | ⟨h, h2⟩
      · subst h; rfl
      · subst h; subst h2; rfl
    apply both
    simp [CreatePermissions, setPermissionsIn, hn, hv, hl, hd, hge, hasserted,
      Value.asString?, Value.asList?]
  · intro name vhost defMap rest resp hn hv hl hd hge
    apply both
    simp [CreateFederationUpstream, putFederationUpstream, hn, hv, hl, hd, hge,
      Value.asString?, Value.asList?, Value.asMap?]

/-- Witness for C10: a server that answers every declaration with
`400 Bad Request`. -/
theorem Create_rejected_witness :
    CreateExchange rejectingClient scenarioExchangeState =
      (Ret.err (Errorf "Error declaring RabbitMQ exchange: 400 Bad Request"),
        scenarioExchangeState.call (Call.DeclareExchange "/" "test"
          { Type_ := "fanout", Durable := true, AutoDelete := false, Arguments := [] })) ∧
    RejectedWith (CreateUser rejectingClient scenarioUserState) "400 Bad Request" ∧
    RejectedWith (CreateBinding scenarioLib rejectingClient scenarioBindingState)
      "400 Bad Request" ∧
    RejectedWith (CreatePermissions rejectingClient scenarioPermissionsState)
      "400 Bad Request" ∧
    RejectedWith (CreateFederationUpstream rejectingClient scenarioFederationState)
      "400 Bad Request" :=
  ⟨((Create_rejected scenarioLib rejectingClient scenarioExchangeState).1
      "test" "/" _ _ badRequest rfl rfl rfl rfl (by decide)).2,
   ((Create_rejected scenarioLib rejectingClient scenarioUserState).2.1
      "mctest" "foobar" _ badRequest rfl rfl rfl rfl (by decide)).1,
   ((Create_rejected scenarioLib rejectingClient scenarioBindingState).2.2.1
      "/" [] [] "ex1" "q1" "queue" "routingkey" badRequest
      rfl rfl rfl rfl rfl rfl rfl rfl (by decide)).1,
   ((Create_rejected scenarioLib rejectingClient scenarioPermissionsState).2.2.2.1
      "mctest" "/" _ _ _ badRequest rfl rfl rfl (Or.inl rfl) rfl (by decide)).1,
   ((Create_rejected scenarioLib rejectingClient scenarioFederationState).2.2.2.2
      "up" "/" _ _ badRequest rfl rfl rfl rfl (by decide)).1⟩

/-! ## Shovel creation against a rejecting server -/

/-- What `CreateShovel` does with every reply: whatever the status, it sets the
identifier and runs `ReadShovel`. -/
theorem CreateShovel_any_status (rmqc : Client) (s : State) (name vhost : String)
    (shovelMap : GoMap) (rest : List Value) (resp : Response)
    (hn : s.d.Get "name" = Value.str name) (hv : s.d.Get "vhost" = Value.str vhost)
    (hl : s.d.Get "info" = Value.list (Value.map shovelMap :: rest))
    (hd : rmqc.DeclareShovel s.log vhost name (setShovelDefinition shovelMap)
      = Except.ok resp) :
    CreateShovel rmqc s =
      ReadShovel rmqc ((s.call (Call.DeclareShovel vhost name
        (setShovelDefinition shovelMap))).SetId (sprintfNameAtVhost name vhost)) := by
  simp [CreateShovel, hn, hv, hl, hd, Value.asString?, Value.asList?, Value.asMap?]

/-- C11 fails as stated: a `DeclareShovel` call that returns no error but the
response `400 Bad Request` does not make `CreateShovel` fail; it sets the identifier
`sh@/`, runs `ReadShovel` and returns nil. -/
theorem CreateShovel_ignores_status :
    rejectingClient.DeclareShovel scenarioShovelState.log "/" "sh"
      (setShovelDefinition
        [("source_uri", Value.str "amqp:///src"), ("source_queue", Value.str "q1"),
         ("destination_uri", Value.str "amqp:///dst"),
         ("destination_queue", Value.str "q2")]) = Except.ok badRequest ∧
    badRequest.StatusCode ≥ 400 ∧
    (CreateShovel rejectingClient scenarioShovelState).1 = Ret.nil ∧
    (CreateShovel rejectingClient scenarioShovelState).2.d.Id = "sh@/" ∧
    Event.setId "sh@/" ∈ (CreateShovel rejectingClient scenarioShovelState).2.log :=
  ⟨rfl, by decide, rfl, rfl,
   by
    rw [CreateShovel_any_status rejectingClient scenarioShovelState "sh" "/" _ _ badRequest
      rfl rfl rfl rfl]
    exact mem_log_of_SetId _ _ _ (ReadShovel_log _ _)⟩

/-- C11 as amended: `CreateShovel` looks at the error of the `DeclareShovel` call
only.  When the call returns an error, `CreateShovel` returns that error, the call is
all that happened and the identifier is not set.  When the call returns no error,
whatever the status of the response, `CreateShovel` sets the identifier `name@vhost`
and goes on with `ReadShovel`. -/
theorem CreateShovel_error_only (rmqc : Client) (s : State) (name vhost : String)
    (shovelMap : GoMap) (rest : List Value)
    (hn : s.d.Get "name" = Value.str name) (hv : s.d.Get "vhost" = Value.str vhost)
    (hl : s.d.Get "info" = Value.list (Value.map shovelMap :: rest)) :
    (∀ e, rmqc.DeclareShovel s.log vhost name (setShovelDefinition shovelMap)
        = Except.error e →
      CreateShovel rmqc s =
        (Ret.err e, s.call (Call.DeclareShovel vhost name (setShovelDefinition shovelMap))) ∧
      (CreateShovel rmqc s).2.d.Id = s.d.Id ∧
      (CreateShovel rmqc s).2.log =
        s.log ++ [Event.call (Call.DeclareShovel vhost name
          (setShovelDefinition shovelMap))]) ∧
    (∀ resp, rmqc.DeclareShovel s.log vhost name (setShovelDefinition shovelMap)
        = Except.ok resp →
      CreateShovel rmqc s =
        ReadShovel rmqc ((s.call (Call.DeclareShovel vhost name
          (setShovelDefinition shovelMap))).SetId (sprintfNameAtVhost name vhost)) ∧
      Event.setId (sprintfNameAtVhost name vhost) ∈ (CreateShovel rmqc s).2.log) := by
  constructor
  · intro e he
    have h : CreateShovel rmqc s =
        (Ret.err e,
          s.call (Call.DeclareShovel vhost name (setShovelDefinition shovelMap))) := by
      simp [CreateShovel, hn, hv, hl, he, Value.asString?, Value.asList?, Value.asMap?]
    rw [h]
    exact ⟨rfl, rfl, rfl⟩
  · intro resp hresp
    have h := CreateShovel_any_status rmqc s name vhost shovelMap rest resp hn hv hl hresp
    refine ⟨h, ?_⟩
    rw [h]
    exact mem_log_of_SetId _ _ _ (ReadShovel_log _ _)

/-- Witness for C11 as amended: the refusal that reaches the adapter as an error is
returned and no identifier is set; the declaration answered without an error ends
with the identifier `sh@/`. -/
theorem CreateShovel_error_only_witness :
    (CreateShovel refusingClient scenarioShovelState).1 = Ret.err badRequestError ∧
    (CreateShovel refusingClient scenarioShovelState).2.d.Id = "" ∧
    Event.setId "sh@/" ∈ (CreateShovel scenarioClient scenarioShovelState).2.log := by
  have h1 := (CreateShovel_error_only refusingClient scenarioShovelState "sh" "/" _ []
    rfl rfl rfl).1 badRequestError rfl
  have h2 := (CreateShovel_error_only scenarioClient scenarioShovelState "sh" "/" _ []
    rfl rfl rfl).2 (createdAt "") rfl
  refine ⟨?_, h1.2.1, h2.2⟩
  rw [h1.1]

/-! ## Reading a binding -/

/-- The adapter `ReadBinding` once the identifier is decoded, in terms of the named
listing. -/
theorem ReadBinding_decoded (lib : Lib) (rmqc : Client) (s : State)
    (seg0 source destination destinationType propertiesKey : String)
    (hseg : bindingIdSegments s.d.Id =
      Except.ok (seg0, source, destination, destinationType, propertiesKey)) :
    ReadBinding lib rmqc s =
      match bindingListing rmqc s.log (percentDecodeSlashes seg0) source destination
          destinationType with
      | .error e =>
        (Ret.err e, s.call (bindingListingCall (percentDecodeSlashes seg0) source destination
          destinationType))
      | .ok bindings =>
        match ReadBindingLoop lib source destination destinationType propertiesKey bindings
            false (s.call (bindingListingCall (percentDecodeSlashes seg0) source destination
              destinationType)) with
        | .error (e, s2) => (Ret.err e, s2)
        | .ok (bindingFound, s2) =>
          if !bindingFound then (Ret.nil, s2.SetId "") else (Ret.nil, s2) := by
  unfold ReadBinding bindingListing bindingListingCall
  simp only [hseg]
  split_ifs
  · cases rmqc.ListQueueBindingsBetween s.log (percentDecodeSlashes seg0) source destination <;>
      rfl
  · cases rmqc.ListExchangeBindingsBetween s.log (percentDecodeSlashes seg0) source
      destination <;> rfl
  · cases rmqc.ListBindingsIn s.log (percentDecodeSlashes seg0) <;> rfl

/-- One turn of the loop of `ReadBinding` on a binding that is not the one named. -/
theorem ReadBindingLoop_skip (lib : Lib)
    (source destination destinationType propertiesKey : String) (binding : BindingInfo)
    (rest : List BindingInfo) (bindingFound : Bool) (s : State)
    (h : ¬ bindingMatches source destination destinationType propertiesKey binding) :
    ReadBindingLoop lib source destination destinationType propertiesKey (binding :: rest)
        bindingFound s =
      ReadBindingLoop lib source destination destinationType propertiesKey rest
        bindingFound s := by
  unfold bindingMatches at h
  rw [ReadBindingLoop, if_neg h]

/-- One turn of the loop of `ReadBinding` on the binding that is named. -/
theorem ReadBindingLoop_match (lib : Lib)
    (source destination destinationType propertiesKey : String) (binding : BindingInfo)
    (rest : List BindingInfo) (bindingFound : Bool) (s : State)
    (h : bindingMatches source destination destinationType propertiesKey binding) :
    ReadBindingLoop lib source destination destinationType propertiesKey (binding :: rest)
        bindingFound s =
      if (match ((writeBindingAttributes s binding).d.Get "arguments_json").asString? with
          | some v => decide (v ≠ "")
          | none => false) = true then
        match lib.jsonMarshal binding.Arguments with
        | .error e =>
          .error (ErrorfWrap "could not encode arguments as JSON: " e,
            writeBindingAttributes s binding)
        | .ok bytes =>
          ReadBindingLoop lib source destination destinationType propertiesKey rest true
            ((writeBindingAttributes s binding).Set "arguments_json" (Value.str bytes))
      else
        ReadBindingLoop lib source destination destinationType propertiesKey rest true
          ((writeBindingAttributes s binding).Set "arguments" (Value.map binding.Arguments)) := by
  unfold bindingMatches at h
  rw [ReadBindingLoop, if_pos h]
  rfl

/-- What the loop of `ReadBinding` reports: it ends with `bindingFound` set exactly
when it was set before or some listed binding is the one named, and it ends early
only on a named binding whose arguments cannot be encoded. -/
theorem ReadBindingLoop_found (lib : Lib)
    (source destination destinationType propertiesKey : String)
    (bindings : List BindingInfo) :
    ∀ (bindingFound : Bool) (s : State),
      (∀ b s2, ReadBindingLoop lib source destination destinationType propertiesKey
          bindings bindingFound s = Except.ok (b, s2) →
        (b = true ↔ (bindingFound = true ∨
          ∃ x ∈ bindings, bindingMatches source destination destinationType propertiesKey x))) ∧
      (∀ e s2, ReadBindingLoop lib source destination destinationType propertiesKey
          bindings bindingFound s = Except.error (e, s2) →
        ∃ x ∈ bindings, bindingMatches source destination destinationType propertiesKey x ∧
          ∃ e0, lib.jsonMarshal x.Arguments = Except.error e0) := by
  induction bindings with
  | nil =>
    intro bindingFound s
    constructor
    · intro b s2 h
      simp only [ReadBindingLoop, Except.ok.injEq, Prod.mk.injEq] at h
      simp [h.1]
    · intro e s2 h
      simp [ReadBindingLoop] at h
  | cons binding rest ih =>
    intro bindingFound s
    by_cases hm : bindingMatches source destination destinationType propertiesKey binding
    · rw [ReadBindingLoop_match lib _ _ _ _ binding rest bindingFound s hm]
      have hok : ∀ (s1 : State) b s2,
          ReadBindingLoop lib source destination destinationType propertiesKey rest true s1
            = Except.ok (b, s2) →
          (b = true ↔ (bindingFound = true ∨ ∃ x ∈ binding :: rest,
            bindingMatches source destination destinationType propertiesKey x)) := by
        intro s1 b s2 h
        have hb : b = true := ((ih true s1).1 b s2 h).2 (Or.inl rfl)
        exact ⟨fun _ => Or.inr ⟨binding, List.mem_cons_self _ _, hm⟩, fun _ => hb⟩
      have herr : ∀ (s1 : State) e s2,
          ReadBindingLoop lib source destination destinationType propertiesKey rest true s1
            = Except.error (e, s2) →
          ∃ x ∈ binding :: rest,
            bindingMatches source destination destinationType propertiesKey x ∧
              ∃ e0, lib.jsonMarshal x.Arguments = Except.error e0 := by
        intro s1 e s2 h
        obtain ⟨x, hx, hxm, hxe⟩ := (ih true s1).2 e s2 h
        exact ⟨x, List.mem_cons_of_mem _ hx, hxm, hxe⟩
      split
      · cases hj : lib.jsonMarshal binding.Arguments with
        | error e0 =>
          constructor
          · intro b s2 h
            cases h
          · intro e s2 _
            exact ⟨binding, List.mem_cons_self _ _, hm, e0, hj⟩
        | ok bytes => exact ⟨hok _, herr _⟩
      · exact ⟨hok _, herr _⟩
    · rw [ReadBindingLoop_skip lib _ _ _ _ binding rest bindingFound s hm]
      constructor
      · intro b s2 h
        rw [(ih bindingFound s).1 b s2 h]
        constructor
        · rintro (h1 | ⟨x, hx, hxm⟩)
          · exact Or.inl h1
          · exact Or.inr ⟨x, List.mem_cons_of_mem _ hx, hxm⟩
        · rintro (h1 | ⟨x, hx, hxm⟩)
          · exact Or.inl h1
          · rcases List.mem_cons.1 hx with rfl | hx
            · exact absurd hxm hm
            · exact Or.inr ⟨x, hx, hxm⟩
      · intro e s2 h
        obtain ⟨x, hx, hxm, hxe⟩ := (ih bindingFound s).2 e s2 h
        exact ⟨x, List.mem_cons_of_mem _ hx, hxm, hxe⟩

/-- The loop of `ReadBinding` runs to its end when the arguments of every listed
binding can be encoded. -/
theorem ReadBindingLoop_total (lib : Lib)
    (source destination destinationType propertiesKey : String)
    (bindings : List BindingInfo)
    (hmarshal : ∀ x ∈ bindings, ∃ bytes, lib.jsonMarshal x.Arguments = Except.ok bytes) :
    ∀ (bindingFound : Bool) (s : State),
      ∃ b s2, ReadBindingLoop lib source destination destinationType propertiesKey
        bindings bindingFound s = Except.ok (b, s2) := by
  intro bindingFound s
  cases h : ReadBindingLoop lib source destination destinationType propertiesKey
      bindings bindingFound s with
  | ok r => exact ⟨r.1, r.2, rfl⟩
  | error r =>
    obtain ⟨x, hx, -, e0, he0⟩ :=
      (ReadBindingLoop_found lib source destination destinationType propertiesKey bindings
        bindingFound s).2 r.1 r.2 h
    obtain ⟨bytes, hb⟩ := hmarshal x hx
    rw [hb] at he0
    cases he0

theorem bindingIdSegments_id_ne_empty (id : String)
    (seg : String × String × String × String × String)
    (hseg : bindingIdSegments id = Except.ok seg) : id ≠ "" := by
  intro h
  subst h
  have hshort : bindingIdSegments "" = Except.error (Errorf "Unable to determine binding ID") :=
    rfl
  rw [hshort] at hseg
  cases hseg

/-- C12: for an identifier with at least five segments and a listing that returns
without error, `ReadBinding` returns nil (given that the arguments of the listed
bindings can be encoded as JSON, as `json.Marshal` does for every map of JSON
values), it leaves the identifier unchanged exactly when some listed binding has
the source, destination, destination type and properties key of segments 1 to 4,
and otherwise it sets the identifier to the empty string. -/
theorem ReadBinding_reconciles (lib : Lib) (rmqc : Client) (s : State)
    (h5 : 5 ≤ (stringsSplit s.d.Id '/').length) :
    ∃ seg0 source destination destinationType propertiesKey rest,
      stringsSplit s.d.Id '/' =
        seg0 :: source :: destination :: destinationType :: propertiesKey :: rest ∧
      ∀ bindings,
        bindingListing rmqc s.log (percentDecodeSlashes seg0) source destination
          destinationType = Except.ok bindings →
        ((∀ x ∈ bindings, ∃ bytes, lib.jsonMarshal x.Arguments = Except.ok bytes) →
          (ReadBinding lib rmqc s).1 = Ret.nil) ∧
        ((ReadBinding lib rmqc s).2.d.Id = s.d.Id ↔
          ∃ x ∈ bindings, bindingMatches source destination destinationType propertiesKey x) ∧
        ((¬ ∃ x ∈ bindings,
            bindingMatches source destination destinationType propertiesKey x) →
          (ReadBinding lib rmqc s).2.d.Id = "") := by
  obtain ⟨seg0, source, destination, destinationType, propertiesKey, rest, hsplit, hseg⟩ :=
    bindingIdSegments_long _ h5
  refine ⟨seg0, source, destination, destinationType, propertiesKey, rest, hsplit, ?_⟩
  intro bindings hlist
  have hne : s.d.Id ≠ "" := bindingIdSegments_id_ne_empty _ _ hseg
  rw [ReadBinding_decoded lib rmqc s _ _ _ _ _ hseg, hlist]
  simp only []
  cases hloop : ReadBindingLoop lib source destination destinationType propertiesKey bindings
      false (s.call (bindingListingCall (percentDecodeSlashes seg0) source destination
        destinationType)) with
  | error r =>
    obtain ⟨e, s2⟩ := r
    have hid := (ReadBindingLoop_id lib _ _ _ _ bindings false _).2 e s2 hloop
    obtain ⟨x, hx, hxm, e0, he0⟩ :=
      (ReadBindingLoop_found lib _ _ _ _ bindings false _).2 e s2 hloop
    refine ⟨fun hmarshal => ?_, ?_, ?_⟩
    · obtain ⟨bytes, hb⟩ := hmarshal x hx
      rw [hb] at he0
      cases he0
    · exact ⟨fun _ => ⟨x, hx, hxm⟩, fun _ => hid⟩
    · intro hno
      exact absurd ⟨x, hx, hxm⟩ hno
  | ok r =>
    obtain ⟨b, s2⟩ := r
    have hid := (ReadBindingLoop_id lib _ _ _ _ bindings false _).1 b s2 hloop
    have hfound := (ReadBindingLoop_found lib _ _ _ _ bindings false _).1 b s2 hloop
    simp only [Bool.false_eq_true, false_or] at hfound
    cases b with
    | true =>
      have hex := hfound.1 rfl
      refine ⟨fun _ => rfl, ⟨fun _ => hex, fun _ => hid⟩, fun hno => absurd hex hno⟩
    | false =>
      have hno : ¬ ∃ x ∈ bindings,
          bindingMatches source destination destinationType propertiesKey x :=
        fun hex => Bool.noConfusion (hfound.2 hex)
      refine ⟨fun _ => rfl, ⟨fun h => ?_, fun hex => absurd hex hno⟩, fun _ => rfl⟩
      exact absurd h.symm hne

/-- Witness for C12: the binding of the scenario is listed, so its identifier stays;
no binding to the exchange `ex2` is listed, so that identifier is cleared. -/
theorem ReadBinding_reconciles_witness :
    5 ≤ (stringsSplit (existingResource "%2F/ex1/q1/queue/routingkey").d.Id '/').length ∧
    (ReadBinding scenarioLib scenarioClient
      (existingResource "%2F/ex1/q1/queue/routingkey")).1 = Ret.nil ∧
    (ReadBinding scenarioLib scenarioClient
      (existingResource "%2F/ex1/q1/queue/routingkey")).2.d.Id
        = "%2F/ex1/q1/queue/routingkey" ∧
    (ReadBinding scenarioLib scenarioClient
      (existingResource "%2F/ex1/ex2/exchange/routingkey")).2.d.Id = "" := by
  refine ⟨by decide, ?_, ?_, ?_⟩
  · obtain ⟨seg0, source, destination, destinationType, propertiesKey, rest, hsplit, h⟩ :=
      ReadBinding_reconciles scenarioLib scenarioClient
        (existingResource "%2F/ex1/q1/queue/routingkey") (by decide)
    have hs : stringsSplit (existingResource "%2F/ex1/q1/queue/routingkey").d.Id '/' =
        ["%2F", "ex1", "q1", "queue", "routingkey"] := by decide
    rw [hs] at hsplit
    simp only [List.cons.injEq] at hsplit
    obtain ⟨rfl, rfl, rfl, rfl, rfl, -⟩ := hsplit
    exact (h [scenarioBinding] rfl).1 (fun x _ => ⟨_, rfl⟩)
  · obtain ⟨seg0, source, destination, destinationType, propertiesKey, rest, hsplit, h⟩ :=
      ReadBinding_reconciles scenarioLib scenarioClient
        (existingResource "%2F/ex1/q1/queue/routingkey") (by decide)
    have hs : stringsSplit (existingResource "%2F/ex1/q1/queue/routingkey").d.Id '/' =
        ["%2F", "ex1", "q1", "queue", "routingkey"] := by decide
    rw [hs] at hsplit
    simp only [List.cons.injEq] at hsplit
    obtain ⟨rfl, rfl, rfl, rfl, rfl, -⟩ := hsplit
    exact (h [scenarioBinding] rfl).2.1.2
      ⟨scenarioBinding, List.mem_singleton.2 rfl, rfl, rfl, rfl, rfl⟩
  · obtain ⟨seg0, source, destination, destinationType, propertiesKey, rest, hsplit, h⟩ :=
      ReadBinding_reconciles scenarioLib scenarioClient
        (existingResource "%2F/ex1/ex2/exchange/routingkey") (by decide)
    have hs : stringsSplit (existingResource "%2F/ex1/ex2/exchange/routingkey").d.Id '/' =
        ["%2F", "ex1", "ex2", "exchange", "routingkey"] := by decide
    rw [hs] at hsplit
    simp only [List.cons.injEq] at hsplit
    obtain ⟨rfl, rfl, rfl, rfl, rfl, -⟩ := hsplit
    exact (h [] rfl).2.2 (by simp)

/-- The adapter `ReadBinding` on a failed listing: the error is returned as it is,
whether or not it is the "not found" error, and the identifier stays. -/
theorem ReadBinding_listing_error (lib : Lib) (rmqc : Client) (s : State)
    (seg0 source destination destinationType propertiesKey : String) (e : GoError)
    (hseg : bindingIdSegments s.d.Id =
      Except.ok (seg0, source, destination, destinationType, propertiesKey))
    (hlist : bindingListing rmqc s.log (percentDecodeSlashes seg0) source destination
      destinationType = Except.error e) :
    ReadBinding lib rmqc s =
      (Ret.err e, s.call (bindingListingCall (percentDecodeSlashes seg0) source destination
        destinationType)) := by
  rw [ReadBinding_decoded lib rmqc s _ _ _ _ _ hseg, hlist]

/-- C13 fails on the code: when the listing reports the client's "not found" error,
`ReadBinding` returns that error and keeps the identifier, whereas `ReadExchange`
on the same server clears the identifier and returns nil. -/
theorem ReadBinding_not_found_is_error :
    missingClient.ListQueueBindingsBetween
      (existingResource "%2F/ex1/q1/queue/routingkey").log "/" "ex1" "q1"
        = Except.error notFoundError ∧
    notFoundError.notFound = true ∧
    (ReadBinding scenarioLib missingClient
      (existingResource "%2F/ex1/q1/queue/routingkey")).1 = Ret.err notFoundError ∧
    (ReadBinding scenarioLib missingClient
      (existingResource "%2F/ex1/q1/queue/routingkey")).2.d.Id
        = "%2F/ex1/q1/queue/routingkey" ∧
    (ReadExchange missingClient (existingResource "test@/")).1 = Ret.nil ∧
    (ReadExchange missingClient (existingResource "test@/")).2.d.Id = "" :=
  ⟨rfl, rfl, rfl, rfl, rfl, rfl⟩

theorem writeBindingAttributes_arguments_json (s : State) (binding : BindingInfo) :
    (writeBindingAttributes s binding).d.Get "arguments_json" = s.d.Get "arguments_json" := by
  simp [writeBindingAttributes, State.Set, ResourceData.Set, ResourceData.Get]

/-! ## Reading an entity that is gone -/

theorem checkDeleted_notFound (s : State) (e : GoError) (h : e.notFound = true) :
    checkDeleted s e = (Ret.nil, s.SetId "") := by
  simp [checkDeleted, h]

theorem checkDeleted_other (s : State) (e : GoError) (h : e.notFound = false) :
    checkDeleted s e = (Ret.err e, s) := by
  simp [checkDeleted, h]

/-- C14: when the fetch of `ReadExchange`, `ReadUser`, `ReadPermissions`,
`ReadFederationUpstream` or `ReadShovel` fails with the client's "not found" error,
the adapter sets the identifier to the empty string and returns nil, and nothing
else happened but the fetch (no attribute is written); when the fetch fails with
any other error, that error is returned and the bag, identifier included, is as
before. -/
theorem Read_fetch_error (rmqc : Client) (s : State) :
    (∀ name vhost e, parseResourceId s.d = Except.ok (name, vhost) →
      rmqc.GetExchange s.log vhost name = Except.error e →
      (e.notFound = true →
        ReadExchange rmqc s = (Ret.nil, (s.call (Call.GetExchange vhost name)).SetId "")) ∧
      (e.notFound = false →
        ReadExchange rmqc s = (Ret.err e, s.call (Call.GetExchange vhost name)))) ∧
    (∀ e, rmqc.GetUser s.log s.d.Id = Except.error e →
      (e.notFound = true →
        ReadUser rmqc s = (Ret.nil, (s.call (Call.GetUser s.d.Id)).SetId "")) ∧
      (e.notFound = false →
        ReadUser rmqc s = (Ret.err e, s.call (Call.GetUser s.d.Id)))) ∧
    (∀ user vhost e, parseResourceId s.d = Except.ok (user, vhost) →
      rmqc.GetPermissionsIn s.log vhost user = Except.error e →
      (e.notFound = true →
        ReadPermissions rmqc s =
          (Ret.nil, (s.call (Call.GetPermissionsIn vhost user)).SetId "")) ∧
      (e.notFound = false →
        ReadPermissions rmqc s = (Ret.err e, s.call (Call.GetPermissionsIn vhost user)))) ∧
    (∀ name vhost e, parseResourceId s.d = Except.ok (name, vhost) →
      rmqc.GetFederationUpstream s.log vhost name = Except.error e →
      (e.notFound = true →
        ReadFederationUpstream rmqc s =
          (Ret.nil, (s.call (Call.GetFederationUpstream vhost name)).SetId "")) ∧
      (e.notFound = false →
        ReadFederationUpstream rmqc s =
          (Ret.err e, s.call (Call.GetFederationUpstream vhost name)))) ∧
    (∀ name vhost e, parseResourceId s.d = Except.ok (name, vhost) →
      rmqc.GetShovel s.log vhost name = Except.error e →
      (e.notFound = true →
        ReadShovel rmqc s = (Ret.nil, (s.call (Call.GetShovel vhost name)).SetId "")) ∧
      (e.notFound = false →
        ReadShovel rmqc s = (Ret.err e, s.call (Call.GetShovel vhost name)))) := by
  refine ⟨?_, ?_, ?_, ?_, ?_⟩
  · intro name vhost e hid hget
    exact ⟨fun h => by simp only [ReadExchange, hid, hget, checkDeleted_notFound _ _ h],
      fun h => by simp only [ReadExchange, hid, hget, checkDeleted_other _ _ h]⟩
  · intro e hget
    exact ⟨fun h => by simp only [ReadUser, hget, checkDeleted_notFound _ _ h],
      fun h => by simp only [ReadUser, hget, checkDeleted_other _ _ h]⟩
  · intro user vhost e hid hget
    exact ⟨fun h => by simp only [ReadPermissions, hid, hget, checkDeleted_notFound _ _ h],
      fun h => by simp only [ReadPermissions, hid, hget, checkDeleted_other _ _ h]⟩
  · intro name vhost e hid hget
    exact ⟨fun h => by
        simp only [ReadFederationUpstream, hid, hget, checkDeleted_notFound _ _ h],
      fun h => by simp only [ReadFederationUpstream, hid, hget, checkDeleted_other _ _ h]⟩
  · intro name vhost e hid hget
    exact ⟨fun h => by simp only [ReadShovel, hid, hget, checkDeleted_notFound _ _ h],
      fun h => by simp only [ReadShovel, hid, hget, checkDeleted_other _ _ h]⟩

/-- Witness for C14: on a server where nothing exists every Read clears the
identifier; on a server that cannot be reached `ReadExchange` returns the transport
error. -/
theorem Read_fetch_error_witness :
    ReadExchange missingClient (existingResource "test@/") =
      (Ret.nil, ((existingResource "test@/").call (Call.GetExchange "/" "test")).SetId "") ∧
    ReadUser missingClient (existingResource "mctest") =
      (Ret.nil, ((existingResource "mctest").call (Call.GetUser "mctest")).SetId "") ∧
    ReadPermissions missingClient (existingResource "mctest@/") =
      (Ret.nil,
        ((existingResource "mctest@/").call (Call.GetPermissionsIn "/" "mctest")).SetId "") ∧
    ReadFederationUpstream missingClient (existingResource "up@/") =
      (Ret.nil,
        ((existingResource "up@/").call (Call.GetFederationUpstream "/" "up")).SetId "") ∧
    ReadShovel missingClient (existingResource "sh@/") =
      (Ret.nil, ((existingResource "sh@/").call (Call.GetShovel "/" "sh")).SetId "") ∧
    ReadExchange unreadableClient (existingResource "test@/") =
      (Ret.err (Errorf "connection refused"),
        (existingResource "test@/").call (Call.GetExchange "/" "test")) :=
  ⟨((Read_fetch_error missingClient (existingResource "test@/")).1
      "test" "/" notFoundError rfl rfl).1 rfl,
   ((Read_fetch_error missingClient (existingResource "mctest")).2.1 notFoundError rfl).1 rfl,
   ((Read_fetch_error missingClient (existingResource "mctest@/")).2.2.1
      "mctest" "/" notFoundError rfl rfl).1 rfl,
   ((Read_fetch_error missingClient (existingResource "up@/")).2.2.2.1
      "up" "/" notFoundError rfl rfl).1 rfl,
   ((Read_fetch_error missingClient (existingResource "sh@/")).2.2.2.2
      "sh" "/" notFoundError rfl rfl).1 rfl,
   ((Read_fetch_error unreadableClient (existingResource "test@/")).1
      "test" "/" (Errorf "connection refused") rfl rfl).2 rfl⟩

/-! ## The arguments of a new binding -/

/-- The adapter `CreateBinding` once its attributes are read and the arguments are
chosen: it declares the binding with them, and on a key sets the identifier and
reads. -/
theorem CreateBinding_declares (lib : Lib) (rmqc : Client) (s : State)
    (vhost source destination destinationType routingKey : String)
    (arguments0 arguments : GoMap)
    (hv : s.d.Get "vhost" = Value.str vhost) (ha : s.d.Get "arguments" = Value.map arguments0)
    (hs : s.d.Get "source" = Value.str source)
    (hd : s.d.Get "destination" = Value.str destination)
    (ht : s.d.Get "destination_type" = Value.str destinationType)
    (hrk : s.d.Get "routing_key" = Value.str routingKey)
    (hargs : bindingArguments lib s.d arguments0 = Except.ok arguments) :
    CreateBinding lib rmqc s =
      match declareBinding lib rmqc s vhost
          { Source := source, Destination := destination, DestinationType := destinationType,
            RoutingKey := routingKey, Arguments := arguments } with
      | (.error r, s1) => (r, s1)
      | (.ok propertiesKey, s1) =>
        ReadBinding lib rmqc (s1.SetId (sprintfBindingId (percentEncodeSlashes vhost) source
          destination destinationType propertiesKey)) := by
  simp only [CreateBinding, hv, ha, hs, hd, ht, hrk, hargs, Value.asString?, Value.asMap?]

/-- The first thing `CreateBinding` does with chosen arguments is the declare call
that carries them. -/
theorem CreateBinding_first_call (lib : Lib) (rmqc : Client) (s : State)
    (vhost source destination destinationType routingKey : String)
    (arguments0 arguments : GoMap)
    (hv : s.d.Get "vhost" = Value.str vhost) (ha : s.d.Get "arguments" = Value.map arguments0)
    (hs : s.d.Get "source" = Value.str source)
    (hd : s.d.Get "destination" = Value.str destination)
    (ht : s.d.Get "destination_type" = Value.str destinationType)
    (hrk : s.d.Get "routing_key" = Value.str routingKey)
    (hargs : bindingArguments lib s.d arguments0 = Except.ok arguments) :
    LogExtends
      (s.call (Call.DeclareBinding vhost
        { Source := source, Destination := destination, DestinationType := destinationType,
          RoutingKey := routingKey, Arguments := arguments })).log
      (CreateBinding lib rmqc s).2.log := by
  rw [CreateBinding_declares lib rmqc s vhost source destination destinationType routingKey
    arguments0 arguments hv ha hs hd ht hrk hargs]
  have hst := declareBinding_state lib rmqc s vhost
    { Source := source, Destination := destination, DestinationType := destinationType,
      RoutingKey := routingKey, Arguments := arguments }
  split
  · next r s1 hdecl =>
    rw [hdecl] at hst
    simp only at hst
    subst hst
    exact logExtends_refl _
  · next propertiesKey s1 hdecl =>
    rw [hdecl] at hst
    simp only at hst
    subst hst
    exact logExtends_trans (logExtends_SetId _ _) (ReadBinding_log lib rmqc _)

/-- C15: in `CreateBinding`, when `arguments_json` is a non-empty string that parses
into a map, the declare call carries the parsed map as `Arguments`, whatever the
structured `arguments` are; when `arguments_json` is empty, it carries the
structured `arguments`. -/
theorem CreateBinding_arguments_json_precedence (lib : Lib) (rmqc : Client) (s : State)
    (vhost source destination destinationType routingKey : String) (arguments0 : GoMap)
    (hv : s.d.Get "vhost" = Value.str vhost) (ha : s.d.Get "arguments" = Value.map arguments0)
    (hs : s.d.Get "source" = Value.str source)
    (hd : s.d.Get "destination" = Value.str destination)
    (ht : s.d.Get "destination_type" = Value.str destinationType)
    (hrk : s.d.Get "routing_key" = Value.str routingKey) :
    (∀ v parsed, s.d.Get "arguments_json" = Value.str v → v ≠ "" →
      lib.jsonUnmarshal v = Except.ok parsed →
      LogExtends
        (s.call (Call.DeclareBinding vhost
          { Source := source, Destination := destination,
            DestinationType := destinationType, RoutingKey := routingKey,
            Arguments := parsed })).log
        (CreateBinding lib rmqc s).2.log) ∧
    (s.d.Get "arguments_json" = Value.str "" →
      LogExtends
        (s.call (Call.DeclareBinding vhost
          { Source := source, Destination := destination,
            DestinationType := destinationType, RoutingKey := routingKey,
            Arguments := arguments0 })).log
        (CreateBinding lib rmqc s).2.log) := by
  constructor
  · intro v parsed hj hne hparse
    apply CreateBinding_first_call lib rmqc s vhost source destination destinationType
      routingKey arguments0 parsed hv ha hs hd ht hrk
    simp [bindingArguments, hj, Value.asString?, hne, hparse]
  · intro hj
    apply CreateBinding_first_call lib rmqc s vhost source destination destinationType
      routingKey arguments0 arguments0 hv ha hs hd ht hrk
    simp [bindingArguments, hj, Value.asString?]

/-- Witness for C15: with `arguments` holding `x` and `arguments_json` holding the
object with `y`, the declare call carries the object with `y`; without
`arguments_json`, the structured arguments. -/
theorem CreateBinding_arguments_json_precedence_witness :
    LogExtends
      (scenarioBindingJsonState.call (Call.DeclareBinding "/"
        { Source := "ex1", Destination := "q1", DestinationType := "queue",
          RoutingKey := "routingkey", Arguments := [("y", Value.int 2)] })).log
      (CreateBinding jsonLib scenarioClient scenarioBindingJsonState).2.log ∧
    LogExtends
      (scenarioBindingState.call (Call.DeclareBinding "/"
        { Source := "ex1", Destination := "q1", DestinationType := "queue",
          RoutingKey := "routingkey", Arguments := [] })).log
      (CreateBinding jsonLib scenarioClient scenarioBindingState).2.log :=
  ⟨(CreateBinding_arguments_json_precedence jsonLib scenarioClient scenarioBindingJsonState
      "/" "ex1" "q1" "queue" "routingkey" [("x", Value.str "1")] rfl rfl rfl rfl rfl rfl).1
      "\x7b\"y\":2\x7d" [("y", Value.int 2)] rfl (by decide) rfl,
   (CreateBinding_arguments_json_precedence jsonLib scenarioClient scenarioBindingState
      "/" "ex1" "q1" "queue" "routingkey" [] rfl rfl rfl rfl rfl rfl).2 rfl⟩

/-- C16 fails as stated: the array `[1,2]` is valid JSON, yet `CreateBinding` returns
the error of unmarshalling it into a map, with no declare call and no identifier. -/
theorem CreateBinding_json_array_is_rejected :
    scenarioBindingArrayState.d.Get "arguments_json" = Value.str "[1,2]" ∧
    scenarioDecode "[1,2]" = Except.ok (Value.list [Value.int 1, Value.int 2]) ∧
    CreateBinding jsonLib scenarioClient scenarioBindingArrayState =
      (Ret.err (Errorf
        "json: cannot unmarshal array into Go value of type map[string]interface \x7b\x7d"),
        scenarioBindingArrayState) :=
  ⟨rfl, rfl, rfl⟩

/-- C16 as amended: in `CreateBinding`, with `json.Unmarshal` into the declared
`map[string]interface{}`, a non-empty `arguments_json` that is a JSON object is
transmitted as the arguments of the declare call (JSON `null` leaves them empty);
`CreateBinding` returns the unmarshalling error, with no declare call and no
identifier set, exactly when `arguments_json` is not valid JSON or is valid JSON
of another kind (array, string, number, boolean). -/
theorem CreateBinding_arguments_json_parse (decode : String → Except GoError Value)
    (lib : Lib) (rmqc : Client) (s : State)
    (vhost source destination destinationType routingKey v : String) (arguments0 : GoMap)
    (hlib : lib.jsonUnmarshal = jsonUnmarshalIntoMap decode)
    (hv : s.d.Get "vhost" = Value.str vhost) (ha : s.d.Get "arguments" = Value.map arguments0)
    (hs : s.d.Get "source" = Value.str source)
    (hd : s.d.Get "destination" = Value.str destination)
    (ht : s.d.Get "destination_type" = Value.str destinationType)
    (hrk : s.d.Get "routing_key" = Value.str routingKey)
    (hj : s.d.Get "arguments_json" = Value.str v) (hne : v ≠ "") :
    (∀ kvs, decode v = Except.ok (Value.map kvs) →
      LogExtends
        (s.call (Call.DeclareBinding vhost
          { Source := source, Destination := destination,
            DestinationType := destinationType, RoutingKey := routingKey,
            Arguments := kvs })).log
        (CreateBinding lib rmqc s).2.log) ∧
    (decode v = Except.ok Value.null →
      LogExtends
        (s.call (Call.DeclareBinding vhost
          { Source := source, Destination := destination,
            DestinationType := destinationType, RoutingKey := routingKey,
            Arguments := [] })).log
        (CreateBinding lib rmqc s).2.log) ∧
    (∀ e, lib.jsonUnmarshal v = Except.error e → CreateBinding lib rmqc s = (Ret.err e, s)) ∧
    ((∃ e, CreateBinding lib rmqc s = (Ret.err e, s)) ↔
      ((∃ e, decode v = Except.error e) ∨
        ∃ x, decode v = Except.ok x ∧ x.asMap? = none ∧ x.isNil = false)) := by
  have hargs : bindingArguments lib s.d arguments0 = jsonUnmarshalIntoMap decode v := by
    simp [bindingArguments, hj, Value.asString?, hne, hlib]
  have hfirst : ∀ kvs, jsonUnmarshalIntoMap decode v = Except.ok kvs →
      LogExtends
        (s.call (Call.DeclareBinding vhost
          { Source := source, Destination := destination,
            DestinationType := destinationType, RoutingKey := routingKey,
            Arguments := kvs })).log
        (CreateBinding lib rmqc s).2.log := by
    intro kvs hk
    exact CreateBinding_first_call lib rmqc s vhost source destination destinationType
      routingKey arguments0 kvs hv ha hs hd ht hrk (hargs.trans hk)
  have herr : ∀ e, jsonUnmarshalIntoMap decode v = Except.error e →
      CreateBinding lib rmqc s = (Ret.err e, s) := by
    intro e he
    simp only [CreateBinding, hv, ha, hargs, he, Value.asString?, Value.asMap?]
  refine ⟨fun kvs hk => hfirst kvs (by simp [jsonUnmarshalIntoMap, hk]),
    fun hk => hfirst [] (by simp [jsonUnmarshalIntoMap, hk]),
    fun e he => herr e (by rw [← hlib]; exact he), ?_⟩
  constructor
  · rintro ⟨e, he⟩
    cases hdec : decode v with
    | error e0 => exact Or.inl ⟨e0, rfl⟩
    | ok x =>
      right
      refine ⟨x, rfl, ?_⟩
      have hno : ∀ kvs, jsonUnmarshalIntoMap decode v ≠ Except.ok kvs := by
        intro kvs hk
        have hext := hfirst kvs hk
        rw [he] at hext
        exact logExtends_ne _ hext rfl
      cases x with
      | map kvs => exact absurd (by simp [jsonUnmarshalIntoMap, hdec]) (hno kvs)
      | null => exact absurd (by simp [jsonUnmarshalIntoMap, hdec]) (hno [])
      | str _ => exact ⟨rfl, rfl⟩
      | bool _ => exact ⟨rfl, rfl⟩
      | int _ => exact ⟨rfl, rfl⟩
      | list _ => exact ⟨rfl, rfl⟩
  · rintro (⟨e, he⟩ | ⟨x, hx, hmap, hnil⟩)
    · exact ⟨e, herr e (by simp [jsonUnmarshalIntoMap, he])⟩
    · cases x with
      | map kvs => simp [Value.asMap?] at hmap
      | null => simp [Value.isNil] at hnil
      | str _ => exact ⟨_, herr _ (by simp only [jsonUnmarshalIntoMap, hx]; rfl)⟩
      | bool _ => exact ⟨_, herr _ (by simp only [jsonUnmarshalIntoMap, hx]; rfl)⟩
      | int _ => exact ⟨_, herr _ (by simp only [jsonUnmarshalIntoMap, hx]; rfl)⟩
      | list _ => exact ⟨_, herr _ (by simp only [jsonUnmarshalIntoMap, hx]; rfl)⟩

/-- Witness for C16 as amended: the object with `y` is transmitted, the array is
rejected, and so is text that is not JSON. -/
theorem CreateBinding_arguments_json_parse_witness :
    LogExtends
      (scenarioBindingJsonState.call (Call.DeclareBinding "/"
        { Source := "ex1", Destination := "q1", DestinationType := "queue",
          RoutingKey := "routingkey", Arguments := [("y", Value.int 2)] })).log
      (CreateBinding jsonLib scenarioClient scenarioBindingJsonState).2.log ∧
    ∃ e, CreateBinding jsonLib scenarioClient scenarioBindingArrayState
      = (Ret.err e, scenarioBindingArrayState) :=
  ⟨(CreateBinding_arguments_json_parse scenarioDecode jsonLib scenarioClient
      scenarioBindingJsonState "/" "ex1" "q1" "queue" "routingkey" "\x7b\"y\":2\x7d"
      [("x", Value.str "1")] rfl rfl rfl rfl rfl rfl rfl rfl (by decide)).1
      [("y", Value.int 2)] rfl,
   (CreateBinding_arguments_json_parse scenarioDecode jsonLib scenarioClient
      scenarioBindingArrayState "/" "ex1" "q1" "queue" "routingkey" "[1,2]"
      [] rfl rfl rfl rfl rfl rfl rfl rfl (by decide)).2.2.2.2
      (Or.inr ⟨Value.list [Value.int 1, Value.int 2], rfl, rfl, rfl⟩)⟩

/-! ## User tags -/

/-- C18 fails as stated: an empty string in the tags list is kept by
`userTagsToString` (only the element that is not a string is dropped), and
`CreateUser` transmits it in `PutUser`. -/
theorem userTagsToString_keeps_empty_string :
    userTagsToString [Value.str "", Value.null, Value.str "administrator"]
      = ["", "administrator"] ∧
    "" ∈ userTagsToString [Value.str "", Value.null, Value.str "administrator"] ∧
    (CreateUser scenarioClient emptyTagUserState).2.log.head? =
      some (Event.call (Call.PutUser "mctest"
        { Password := "foobar", Tags := ["", "administrator"] })) :=
  ⟨rfl, by decide, rfl⟩

theorem userTagsToString_map (tags : List Value) :
    (userTagsToString tags).map Value.str = tags.filter (fun v => (v.asString?).isSome) := by
  induction tags with
  | nil => rfl
  | cons v rest ih =>
    cases v <;> simp_all [userTagsToString, Value.asString?, List.filterMap_cons]

theorem mem_userTagsToString (tags : List Value) (t : String) :
    t ∈ userTagsToString tags ↔ Value.str t ∈ tags := by
  simp only [userTagsToString, List.mem_filterMap]
  constructor
  · rintro ⟨v, hv, hs⟩
    cases v <;> simp_all [Value.asString?]
  · intro h
    exact ⟨Value.str t, h, rfl⟩

/-- C18 as amended: the tag list that `userTagsToString` builds, and that
`CreateUser` and `UpdateUser` transmit in `PutUser`, is the list of the string
elements of the input in the same order; elements that are not strings are
dropped and empty strings are kept, so the result holds an empty string exactly
when the input does. -/
theorem userTagsToString_string_elements (rmqc : Client) (s : State) (tags : List Value) :
    (userTagsToString tags).map Value.str = tags.filter (fun v => (v.asString?).isSome) ∧
    ("" ∈ userTagsToString tags ↔ Value.str "" ∈ tags) ∧
    (∀ name password, s.d.Get "name" = Value.str name →
      s.d.Get "password" = Value.str password → s.d.Get "tags" = Value.list tags →
      LogExtends
        (s.call (Call.PutUser name { Password := password, Tags := userTagsToString tags })).log
        (CreateUser rmqc s).2.log) ∧
    (∀ password, s.d.Get "password" = Value.str password →
      s.d.Get "tags" = Value.list tags →
      LogExtends
        (s.call (Call.PutUser s.d.Id
          { Password := password, Tags := userTagsToString tags })).log
        (UpdateUser rmqc s).2.log) := by
  refine ⟨userTagsToString_map tags, mem_userTagsToString tags "", ?_, ?_⟩
  · intro name password hn hp ht
    simp only [CreateUser, hn, hp, ht, Value.asString?, Value.asList?]
    split
    · exact logExtends_refl _
    · split
      · exact logExtends_refl _
      · exact logExtends_trans (logExtends_SetId _ _) (ReadUser_log _ _)
  · intro password hp ht
    simp only [UpdateUser, hp, ht, Value.asString?, Value.asList?]
    split
    · exact logExtends_refl _
    · split
      · exact logExtends_refl _
      · exact ReadUser_log _ _

/-- Witness for C18 as amended: the tags of the scenario are transmitted as they
are, and so is an empty string. -/
theorem userTagsToString_string_elements_witness :
    LogExtends
      (scenarioUserState.call (Call.PutUser "mctest"
        { Password := "foobar", Tags := ["administrator", "management"] })).log
      (CreateUser scenarioClient scenarioUserState).2.log ∧
    LogExtends
      (emptyTagUserState.call (Call.PutUser "mctest"
        { Password := "foobar", Tags := ["", "administrator"] })).log
      (UpdateUser scenarioClient emptyTagUserState).2.log :=
  ⟨(userTagsToString_string_elements scenarioClient scenarioUserState
      [Value.str "administrator", Value.str "management"]).2.2.1 "mctest" "foobar" rfl rfl rfl,
   (userTagsToString_string_elements scenarioClient emptyTagUserState
      [Value.str "", Value.null, Value.str "administrator"]).2.2.2 "foobar" rfl rfl⟩

theorem length_filter_pos_of_mem (tags : List String) (h : ∃ t ∈ tags, t ≠ "") :
    0 < tags.length ∧ 0 < (tags.filter (fun v => v ≠ "")).length := by
  obtain ⟨t, ht, hne⟩ := h
  constructor
  · exact List.length_pos_of_mem ht
  · exact List.length_pos_of_mem (List.mem_filter.2 ⟨ht, by simpa using hne⟩)

/-- C19: for a remote user with at least one non-empty tag, `ReadUser` and
`dataSourcesReadUser` both set `tags` to exactly the remote tag list without its
empty strings, in the original order (after setting `name`; the data source then
sets the identifier). -/
theorem ReadUser_tags (rmqc : Client) (s : State) (user : UserInfo)
    (htag : ∃ t ∈ user.Tags, t ≠ "") :
    (rmqc.GetUser s.log s.d.Id = Except.ok user →
      ReadUser rmqc s =
        (Ret.nil, ((s.call (Call.GetUser s.d.Id)).Set "name" (Value.str user.Name)).Set "tags"
          (Value.list ((user.Tags.filter (fun v => v ≠ "")).map Value.str)))) ∧
    (∀ name, s.d.Get "name" = Value.str name →
      rmqc.GetUser s.log name = Except.ok user →
      dataSourcesReadUser rmqc s =
        (Ret.nil, (((s.call (Call.GetUser name)).Set "name" (Value.str user.Name)).Set "tags"
          (Value.list ((user.Tags.filter (fun v => v ≠ "")).map Value.str))).SetId name)) ∧
    (user.Tags.filter (fun v => v ≠ "")).Sublist user.Tags ∧
    (∀ t, t ∈ user.Tags.filter (fun v => v ≠ "") ↔ (t ∈ user.Tags ∧ t ≠ "")) := by
  obtain ⟨h1, h2⟩ := length_filter_pos_of_mem user.Tags htag
  refine ⟨?_, ?_, List.filter_sublist _, ?_⟩
  · intro hget
    simp only [ReadUser, hget]
    rw [if_pos h1, if_pos h2]
  · intro name hn hget
    simp only [dataSourcesReadUser, hn, hget, Value.asString?]
    rw [if_pos h1, if_pos h2]
  · intro t
    simp [List.mem_filter]

/-- Witness for C19: the remote tags `administrator`, `management` of the test give
a `tags` list of these two in this order; an empty tag between them is left out. -/
theorem ReadUser_tags_witness :
    dataSourcesReadUser scenarioClient scenarioUserDataState =
      (Ret.nil, (((scenarioUserDataState.call (Call.GetUser "test")).Set "name"
        (Value.str "test")).Set "tags"
          (Value.list [Value.str "administrator", Value.str "management"])).SetId "test") ∧
    ReadUser taggedClient (existingResource "mctest") =
      (Ret.nil, (((existingResource "mctest").call (Call.GetUser "mctest")).Set "name"
        (Value.str "mctest")).Set "tags"
          (Value.list [Value.str "administrator", Value.str "management"])) :=
  ⟨(ReadUser_tags scenarioClient scenarioUserDataState
      { Name := "test", Tags := ["administrator", "management"] }
      ⟨"administrator", by decide, by decide⟩).2.1 "test" rfl rfl,
   (ReadUser_tags taggedClient (existingResource "mctest")
      { Name := "mctest", Tags := ["administrator", "", "management"] }
      ⟨"administrator", by decide, by decide⟩).1 rfl⟩

/-! ## Updates -/

theorem mutatingCalls_append (a b : List Event) :
    mutatingCalls (a ++ b) = mutatingCalls a ++ mutatingCalls b := by
  induction a with
  | nil => rfl
  | cons e rest ih =>
    cases e with
    | call c =>
      by_cases hc : c.isMutating = true
      · simp [mutatingCalls, hc, ih]
      · simp [mutatingCalls, hc, ih]
    | setId id => simpa [mutatingCalls] using ih
    | set key v => simpa [mutatingCalls] using ih

theorem mutatingCalls_checkDeleted (s : State) (e : GoError) :
    mutatingCalls (checkDeleted s e).2.log = mutatingCalls s.log := by
  unfold checkDeleted
  split
  · simp [State.SetId, mutatingCalls_append, mutatingCalls]
  · rfl

/-- The adapter `ReadPermissions` makes no mutating call. -/
theorem mutatingCalls_ReadPermissions (rmqc : Client) (s : State) :
    mutatingCalls (ReadPermissions rmqc s).2.log = mutatingCalls s.log := by
  unfold ReadPermissions
  split
  · rfl
  · simp only []
    split
    · rw [mutatingCalls_checkDeleted]
      simp [State.call, mutatingCalls_append, mutatingCalls, Call.isMutating]
    · simp [State.call, State.Set, mutatingCalls_append, mutatingCalls, Call.isMutating]

/-- The adapter `ReadFederationUpstream` makes no mutating call. -/
theorem mutatingCalls_ReadFederationUpstream (rmqc : Client) (s : State) :
    mutatingCalls (ReadFederationUpstream rmqc s).2.log = mutatingCalls s.log := by
  unfold ReadFederationUpstream
  split
  · rfl
  · simp only []
    split
    · rw [mutatingCalls_checkDeleted]
      simp [State.call, mutatingCalls_append, mutatingCalls, Call.isMutating]
    · simp [State.call, State.Set, mutatingCalls_append, mutatingCalls, Call.isMutating]

theorem mutatingCalls_call (s : State) (c : Call) (h : c.isMutating = true) :
    mutatingCalls (s.call c).log = mutatingCalls s.log ++ [c] := by
  simp [State.call, mutatingCalls_append, mutatingCalls, h]

/-- C20: `UpdatePermissions` and `UpdateFederationUpstream`, once the identifier is
decoded: when the `permissions` (`definition`) attribute has no change they make
no mutating call and are exactly `ReadPermissions` (`ReadFederationUpstream`); when
it has changed and the first element of its new value is a record they make
exactly one mutating call, built from that record, and when it is answered with a
status below 400 they go on with the Read adapter. -/
theorem Update_skips_when_unchanged (rmqc : Client) (s : State) :
    (∀ user vhost, parseResourceId s.d = Except.ok (user, vhost) →
      (s.d.HasChange "permissions" = false →
        UpdatePermissions rmqc s = ReadPermissions rmqc s ∧
        mutatingCalls (UpdatePermissions rmqc s).2.log = mutatingCalls s.log) ∧
      (∀ permsMap rest, s.d.HasChange "permissions" = true →
        (s.d.GetChange "permissions").2 = Value.list (Value.map permsMap :: rest) →
        mutatingCalls (UpdatePermissions rmqc s).2.log =
          mutatingCalls s.log ++
            [Call.UpdatePermissionsIn vhost user (permissionsFromMap permsMap)] ∧
        (∀ resp, rmqc.UpdatePermissionsIn s.log vhost user (permissionsFromMap permsMap)
            = Except.ok resp →
          resp.StatusCode < 400 →
          UpdatePermissions rmqc s =
            ReadPermissions rmqc
              (s.call (Call.UpdatePermissionsIn vhost user (permissionsFromMap permsMap)))))) ∧
    (∀ name vhost, parseResourceId s.d = Except.ok (name, vhost) →
      (s.d.HasChange "definition" = false →
        UpdateFederationUpstream rmqc s = ReadFederationUpstream rmqc s ∧
        mutatingCalls (UpdateFederationUpstream rmqc s).2.log = mutatingCalls s.log) ∧
      (∀ defMap rest, s.d.HasChange "definition" = true →
        (s.d.GetChange "definition").2 = Value.list (Value.map defMap :: rest) →
        mutatingCalls (UpdateFederationUpstream rmqc s).2.log =
          mutatingCalls s.log ++
            [Call.PutFederationUpstream vhost name (federationDefinitionFromMap defMap)] ∧
        (∀ resp, rmqc.PutFederationUpstream s.log vhost name
            (federationDefinitionFromMap defMap) = Except.ok resp →
          resp.StatusCode < 400 →
          UpdateFederationUpstream rmqc s =
            ReadFederationUpstream rmqc
              (s.call (Call.PutFederationUpstream vhost name
                (federationDefinitionFromMap defMap)))))) := by
  constructor
  · intro user vhost hid
    constructor
    · intro hno
      have h : UpdatePermissions rmqc s = ReadPermissions rmqc s := by
        simp [UpdatePermissions, hid, hno]
      exact ⟨h, by rw [h]; exact mutatingCalls_ReadPermissions rmqc s⟩
    · intro permsMap rest hch hnew
      have hupd : UpdatePermissions rmqc s =
          match setPermissionsIn rmqc s vhost user permsMap with
          | (Ret.nil, s1) => ReadPermissions rmqc s1
          | (r, s1) => (r, s1) := by
        simp [UpdatePermissions, hid, hch, hnew, Value.asList?, Value.asMap?]
      constructor
      · rw [hupd]
        have hc := mutatingCalls_call s
          (Call.UpdatePermissionsIn vhost user (permissionsFromMap permsMap)) rfl
        cases hr : rmqc.UpdatePermissionsIn s.log vhost user (permissionsFromMap permsMap) with
        | error e => simpa [setPermissionsIn, hr] using hc
        | ok resp =>
          by_cases hge : resp.StatusCode ≥ 400
          · simpa [setPermissionsIn, hr, hge] using hc
          · simp only [setPermissionsIn, hr, hge, if_false]
            rw [mutatingCalls_ReadPermissions]
            exact hc
      · intro resp hresp hlt
        have hge : ¬ resp.StatusCode ≥ 400 := by omega
        rw [hupd]
        simp [setPermissionsIn, hresp, hge]
  · intro name vhost hid
    constructor
    · intro hno
      have h : UpdateFederationUpstream rmqc s = ReadFederationUpstream rmqc s := by
        simp [UpdateFederationUpstream, hid, hno]
      exact ⟨h, by rw [h]; exact mutatingCalls_ReadFederationUpstream rmqc s⟩
    · intro defMap rest hch hnew
      have hupd : UpdateFederationUpstream rmqc s =
          match putFederationUpstream rmqc s vhost name defMap with
          | (Ret.nil, s1) => ReadFederationUpstream rmqc s1
          | (r, s1) => (r, s1) := by
        simp [UpdateFederationUpstream, hid, hch, hnew, Value.asList?, Value.asMap?]
      constructor
      · rw [hupd]
        have hc := mutatingCalls_call s
          (Call.PutFederationUpstream vhost name (federationDefinitionFromMap defMap)) rfl
        cases hr : rmqc.PutFederationUpstream s.log vhost name
            (federationDefinitionFromMap defMap) with
        | error e => simpa [putFederationUpstream, hr] using hc
        | ok resp =>
          by_cases hge : resp.StatusCode ≥ 400
          · simpa [putFederationUpstream, hr, hge] using hc
          · simp only [putFederationUpstream, hr, hge, if_false]
            rw [mutatingCalls_ReadFederationUpstream]
            exact hc
      · intro resp hresp hlt
        have hge : ¬ resp.StatusCode ≥ 400 := by omega
        rw [hupd]
        simp [putFederationUpstream, hresp, hge]

/-- Witness for C20: an update without change is the read; an update of the `read`
pattern makes the one call that carries the new permissions; likewise for a
federation upstream whose acknowledgement mode changes. -/
theorem Update_skips_when_unchanged_witness :
    (UpdatePermissions scenarioClient unchangedPermissionsState =
        ReadPermissions scenarioClient unchangedPermissionsState ∧
      mutatingCalls (UpdatePermissions scenarioClient unchangedPermissionsState).2.log =
        mutatingCalls unchangedPermissionsState.log) ∧
    mutatingCalls (UpdatePermissions scenarioClient changedPermissionsState).2.log =
      mutatingCalls changedPermissionsState.log ++
        [Call.UpdatePermissionsIn "/" "mctest"
          (permissionsFromMap
            [("configure", Value.str ".*"), ("write", Value.str ".*"),
             ("read", Value.str "^$")])] ∧
    UpdateFederationUpstream scenarioClient changedFederationState =
      ReadFederationUpstream scenarioClient
        (changedFederationState.call (Call.PutFederationUpstream "/" "up"
          (federationDefinitionFromMap
            [("uri", Value.str "amqp://server-name"),
             ("ack_mode", Value.str "on-publish")]))) :=
  ⟨((Update_skips_when_unchanged scenarioClient unchangedPermissionsState).1
      "mctest" "/" rfl).1 rfl,
   (((Update_skips_when_unchanged scenarioClient changedPermissionsState).1
      "mctest" "/" rfl).2 _ [] rfl rfl).1,
   (((Update_skips_when_unchanged scenarioClient changedFederationState).2
      "up" "/" rfl).2 _ [] rfl rfl).2 (createdAt "") rfl (by decide)⟩

/-! ## Data sources -/

theorem writesOf_append (a b : List Event) :
    writesOf (a ++ b) = writesOf a ++ writesOf b := by
  induction a with
  | nil => rfl
  | cons e rest ih =>
    cases e <;> simp [writesOf, ih]

theorem callsOf_append (a b : List Event) :
    callsOf (a ++ b) = callsOf a ++ callsOf b := by
  induction a with
  | nil => rfl
  | cons e rest ih =>
    cases e <;> simp [callsOf, ih]

/-- C21 fails as stated: for a remote exchange whose argument `n` is the number 5
both reads return nil, yet the `settings` write is refused on both sides; the fresh
bag of the data source holds no `settings` and the bag of the resource keeps the
record it held, so the two do not agree on `settings`. -/
theorem exchange_data_source_settings_differ :
    (dataSourcesReadExchange numericArgumentsClient scenarioExchangeDataState).1 = Ret.nil ∧
    (ReadExchange numericArgumentsClient createdExchangeState).1 = Ret.nil ∧
    ((dataSourcesReadExchange numericArgumentsClient scenarioExchangeDataState).2.d.Get
      "settings").asList? = none ∧
    (((ReadExchange numericArgumentsClient createdExchangeState).2.d.Get
      "settings").asList?.map List.length) = some 1 ∧
    (dataSourcesReadExchange numericArgumentsClient scenarioExchangeDataState).2.d.Get
        "settings" ≠
      (ReadExchange numericArgumentsClient createdExchangeState).2.d.Get "settings" :=
  ⟨rfl, rfl, rfl, rfl, fun h => by
    have h2 := congrArg Value.asList? h
    have h3 : ((dataSourcesReadExchange numericArgumentsClient
        scenarioExchangeDataState).2.d.Get "settings").asList? = none := rfl
    have h4 : (((ReadExchange numericArgumentsClient createdExchangeState).2.d.Get
        "settings").asList?.map List.length) = some 1 := rfl
    rw [← h2, h3] at h4
    cases h4⟩

/-- C21 as amended: for the same remote exchange returned by `GetExchange`, the
exchange data source and `ReadExchange` both return nil and make the same three
writes with the same values, in the same order: `name`, `vhost` and the one-element
`settings` list holding type, durable, auto_delete and arguments of the remote
exchange.  Afterwards both bags hold the remote name and vhost, and, when every
argument of the remote exchange is a string, both hold that `settings` list. -/
theorem exchange_data_source_agrees (rmqc : Client) (sData sRes : State)
    (name vhost nameRes vhostRes : String) (exchangeSettings : DetailedExchangeInfo)
    (hn : sData.d.Get "name" = Value.str name) (hv : sData.d.Get "vhost" = Value.str vhost)
    (hgetData : rmqc.GetExchange sData.log vhost name = Except.ok exchangeSettings)
    (hid : parseResourceId sRes.d = Except.ok (nameRes, vhostRes))
    (hgetRes : rmqc.GetExchange sRes.log vhostRes nameRes = Except.ok exchangeSettings) :
    (dataSourcesReadExchange rmqc sData).1 = Ret.nil ∧
    (ReadExchange rmqc sRes).1 = Ret.nil ∧
    writesOf (dataSourcesReadExchange rmqc sData).2.log =
      writesOf sData.log ++
        [("name", Value.str exchangeSettings.Name),
         ("vhost", Value.str exchangeSettings.Vhost),
         ("settings", Value.list [Value.map
            [("type", Value.str exchangeSettings.Type_),
             ("durable", Value.bool exchangeSettings.Durable),
             ("auto_delete", Value.bool exchangeSettings.AutoDelete),
             ("arguments", Value.map exchangeSettings.Arguments)]])] ∧
    writesOf (ReadExchange rmqc sRes).2.log =
      writesOf sRes.log ++
        [("name", Value.str exchangeSettings.Name),
         ("vhost", Value.str exchangeSettings.Vhost),
         ("settings", Value.list [Value.map
            [("type", Value.str exchangeSettings.Type_),
             ("durable", Value.bool exchangeSettings.Durable),
             ("auto_delete", Value.bool exchangeSettings.AutoDelete),
             ("arguments", Value.map exchangeSettings.Arguments)]])] ∧
    (dataSourcesReadExchange rmqc sData).2.d.Get "name" = Value.str exchangeSettings.Name ∧
    (ReadExchange rmqc sRes).2.d.Get "name" = Value.str exchangeSettings.Name ∧
    (dataSourcesReadExchange rmqc sData).2.d.Get "vhost" = Value.str exchangeSettings.Vhost ∧
    (ReadExchange rmqc sRes).2.d.Get "vhost" = Value.str exchangeSettings.Vhost ∧
    (GoMap.allStrings exchangeSettings.Arguments = true →
      (dataSourcesReadExchange rmqc sData).2.d.Get "settings" =
        Value.list [Value.map
          [("type", Value.str exchangeSettings.Type_),
           ("durable", Value.bool exchangeSettings.Durable),
           ("auto_delete", Value.bool exchangeSettings.AutoDelete),
           ("arguments", Value.map exchangeSettings.Arguments)]] ∧
      (ReadExchange rmqc sRes).2.d.Get "settings" =
        Value.list [Value.map
          [("type", Value.str exchangeSettings.Type_),
           ("durable", Value.bool exchangeSettings.Durable),
           ("auto_delete", Value.bool exchangeSettings.AutoDelete),
           ("arguments", Value.map exchangeSettings.Arguments)]]) := by
  have e1 : (sData.d.Get "name").asString? = some name := by rw [hn]; rfl
  have e2 : (sData.d.Get "vhost").asString? = some vhost := by rw [hv]; rfl
  have hD : dataSourcesReadExchange rmqc sData =
      (Ret.nil, ((((sData.call (Call.GetExchange vhost name)).Set "name"
        (Value.str exchangeSettings.Name)).Set "vhost" (Value.str exchangeSettings.Vhost)).Set
        "settings" (Value.list [Value.map
          [("type", Value.str exchangeSettings.Type_),
           ("durable", Value.bool exchangeSettings.Durable),
           ("auto_delete", Value.bool exchangeSettings.AutoDelete),
           ("arguments", Value.map exchangeSettings.Arguments)]])).SetId
        (sprintfNameAtVhost name vhost)) := by
    simp only [dataSourcesReadExchange, e1, e2, hgetData]
  have hR : ReadExchange rmqc sRes =
      (Ret.nil, (((sRes.call (Call.GetExchange vhostRes nameRes)).Set "name"
        (Value.str exchangeSettings.Name)).Set "vhost" (Value.str exchangeSettings.Vhost)).Set
        "settings" (Value.list [Value.map
          [("type", Value.str exchangeSettings.Type_),
           ("durable", Value.bool exchangeSettings.Durable),
           ("auto_delete", Value.bool exchangeSettings.AutoDelete),
           ("arguments", Value.map exchangeSettings.Arguments)]])) := by
    simp only [ReadExchange, hid, hgetRes]
  rw [hD, hR]
  refine ⟨rfl, rfl, ?_, ?_, ?_, ?_, ?_, ?_, ?_⟩
  · simp [State.SetId, State.Set, State.call, writesOf_append, writesOf]
  · simp [State.Set, State.call, writesOf_append, writesOf]
  · simp [State.SetId, State.Set, State.call, ResourceData.Set, ResourceData.SetId,
      ResourceData.Get, Value.fitsSchema]
  · simp [State.Set, State.call, ResourceData.Set, ResourceData.Get, Value.fitsSchema]
  · simp [State.SetId, State.Set, State.call, ResourceData.Set, ResourceData.SetId,
      ResourceData.Get, Value.fitsSchema]
  · simp [State.Set, State.call, ResourceData.Set, ResourceData.Get, Value.fitsSchema]
  · intro hs
    constructor
    · simp [State.SetId, State.Set, State.call, ResourceData.Set, ResourceData.SetId,
        ResourceData.Get, Value.fitsSchema, hs]
    · simp [State.Set, State.call, ResourceData.Set, ResourceData.Get, Value.fitsSchema, hs]

/-- Witness for C21 as amended: the fanout, durable exchange `test` in `testvhost`
of the test is written by the data source as `ReadExchange` writes it, and both
bags then hold `settings.0.type = "fanout"`, `durable = true`,
`auto_delete = false`. -/
theorem exchange_data_source_agrees_witness :
    writesOf (dataSourcesReadExchange scenarioClient scenarioExchangeDataState).2.log =
      [("name", Value.str "test"), ("vhost", Value.str "testvhost"),
       ("settings", Value.list [Value.map
          [("type", Value.str "fanout"), ("durable", Value.bool true),
           ("auto_delete", Value.bool false), ("arguments", Value.map [])]])] ∧
    writesOf (ReadExchange scenarioClient (existingResource "test@testvhost")).2.log =
      [("name", Value.str "test"), ("vhost", Value.str "testvhost"),
       ("settings", Value.list [Value.map
          [("type", Value.str "fanout"), ("durable", Value.bool true),
           ("auto_delete", Value.bool false), ("arguments", Value.map [])]])] ∧
    (dataSourcesReadExchange scenarioClient scenarioExchangeDataState).2.d.Get "settings" =
      Value.list [Value.map
        [("type", Value.str "fanout"), ("durable", Value.bool true),
         ("auto_delete", Value.bool false), ("arguments", Value.map [])]] ∧
    (ReadExchange scenarioClient (existingResource "test@testvhost")).2.d.Get "settings" =
      Value.list [Value.map
        [("type", Value.str "fanout"), ("durable", Value.bool true),
         ("auto_delete", Value.bool false), ("arguments", Value.map [])]] :=
  ⟨(exchange_data_source_agrees scenarioClient scenarioExchangeDataState
      (existingResource "test@testvhost") "test" "testvhost" "test" "testvhost"
      { Name := "test", Vhost := "testvhost", Type_ := "fanout", Durable := true,
        AutoDelete := false, Arguments := [] } rfl rfl rfl rfl rfl).2.2.1,
   (exchange_data_source_agrees scenarioClient scenarioExchangeDataState
      (existingResource "test@testvhost") "test" "testvhost" "test" "testvhost"
      { Name := "test", Vhost := "testvhost", Type_ := "fanout", Durable := true,
        AutoDelete := false, Arguments := [] } rfl rfl rfl rfl rfl).2.2.2.1,
   ((exchange_data_source_agrees scenarioClient scenarioExchangeDataState
      (existingResource "test@testvhost") "test" "testvhost" "test" "testvhost"
      { Name := "test", Vhost := "testvhost", Type_ := "fanout", Durable := true,
        AutoDelete := false, Arguments := [] } rfl rfl rfl rfl rfl).2.2.2.2.2.2.2.2 rfl).1,
   ((exchange_data_source_agrees scenarioClient scenarioExchangeDataState
      (existingResource "test@testvhost") "test" "testvhost" "test" "testvhost"
      { Name := "test", Vhost := "testvhost", Type_ := "fanout", Durable := true,
        AutoDelete := false, Arguments := [] } rfl rfl rfl rfl rfl).2.2.2.2.2.2.2.2 rfl).2⟩

theorem sprintfNameAtVhost_ne_empty (name vhost : String) :
    sprintfNameAtVhost name vhost ≠ "" := by
  intro h
  have hd : (sprintfNameAtVhost name vhost).data = ("" : String).data := by rw [h]
  simp [sprintfNameAtVhost, String.data_append] at hd

/-- C22: after a `dataSourcesReadExchange` whose `GetExchange` call succeeds the
identifier is the requested name, `@` and the requested vhost, which is never the
empty string; after a `dataSourcesReadUser` whose `GetUser` call succeeds the
identifier is the requested name. -/
theorem data_source_sets_identifier (rmqc : Client) (s : State) :
    (∀ name vhost exchangeSettings,
      s.d.Get "name" = Value.str name → s.d.Get "vhost" = Value.str vhost →
      rmqc.GetExchange s.log vhost name = Except.ok exchangeSettings →
      (dataSourcesReadExchange rmqc s).1 = Ret.nil ∧
      (dataSourcesReadExchange rmqc s).2.d.Id = sprintfNameAtVhost name vhost ∧
      (dataSourcesReadExchange rmqc s).2.d.Id ≠ "") ∧
    (∀ name user, s.d.Get "name" = Value.str name →
      rmqc.GetUser s.log name = Except.ok user →
      (dataSourcesReadUser rmqc s).1 = Ret.nil ∧
      (dataSourcesReadUser rmqc s).2.d.Id = name) := by
  constructor
  · intro name vhost exchangeSettings hn hv hget
    have e1 : (s.d.Get "name").asString? = some name := by rw [hn]; rfl
    have e2 : (s.d.Get "vhost").asString? = some vhost := by rw [hv]; rfl
    have hid : (dataSourcesReadExchange rmqc s).2.d.Id = sprintfNameAtVhost name vhost := by
      simp only [dataSourcesReadExchange, e1, e2, hget]
      rfl
    refine ⟨by simp only [dataSourcesReadExchange, e1, e2, hget], hid, ?_⟩
    rw [hid]
    exact sprintfNameAtVhost_ne_empty name vhost
  · intro name user hn hget
    have e1 : (s.d.Get "name").asString? = some name := by rw [hn]; rfl
    constructor
    · simp only [dataSourcesReadUser, e1, hget]
    · simp only [dataSourcesReadUser, e1, hget]
      rfl

/-- Witness for C22: the data sources of the tests end with the identifiers
`test@testvhost` and `test`. -/
theorem data_source_sets_identifier_witness :
    (dataSourcesReadExchange scenarioClient scenarioExchangeDataState).2.d.Id
      = "test@testvhost" ∧
    (dataSourcesReadUser scenarioClient scenarioUserDataState).2.d.Id = "test" :=
  ⟨((data_source_sets_identifier scenarioClient scenarioExchangeDataState).1
      "test" "testvhost" _ rfl rfl rfl).2.1,
   ((data_source_sets_identifier scenarioClient scenarioUserDataState).2
      "test" _ rfl rfl).2⟩

/-! ## A nested list whose element is not a record -/

/-- C23: when the first element of `settings` (`definition`, `info`) is nil or
anything else than a record, `CreateExchange` (`CreateFederationUpstream`,
`CreateShovel`) returns an error and nothing else happened: no remote call, no
identifier set. -/
theorem Create_malformed_nested (rmqc : Client) (s : State) (name vhost : String)
    (first : Value) (rest : List Value)
    (hn : s.d.Get "name" = Value.str name) (hv : s.d.Get "vhost" = Value.str vhost)
    (hfirst : first.asMap? = none) :
    (s.d.Get "settings" = Value.list (first :: rest) →
      CreateExchange rmqc s = (Ret.err (Errorf "Unable to parse settings"), s)) ∧
    (s.d.Get "definition" = Value.list (first :: rest) →
      CreateFederationUpstream rmqc s =
        (Ret.err (Errorf "Unable to parse federation upstream definition"), s)) ∧
    (s.d.Get "info" = Value.list (first :: rest) →
      CreateShovel rmqc s = (Ret.err (Errorf "Unable to parse shovel info"), s)) := by
  have e1 : (s.d.Get "name").asString? = some name := by rw [hn]; rfl
  have e2 : (s.d.Get "vhost").asString? = some vhost := by rw [hv]; rfl
  refine ⟨fun hl => ?_, fun hl => ?_, fun hl => ?_⟩
  · have e3 : (s.d.Get "settings").asList? = some (first :: rest) := by rw [hl]; rfl
    simp only [CreateExchange, e1, e2, e3, hfirst]
  · have e3 : (s.d.Get "definition").asList? = some (first :: rest) := by rw [hl]; rfl
    simp only [CreateFederationUpstream, e1, e2, e3, hfirst]
  · have e3 : (s.d.Get "info").asList? = some (first :: rest) := by rw [hl]; rfl
    simp only [CreateShovel, e1, e2, e3, hfirst]

/-- Witness for C23: an exchange block whose settings element is nil. -/
theorem Create_malformed_nested_witness :
    CreateExchange scenarioClient nilSettingsState =
      (Ret.err (Errorf "Unable to parse settings"), nilSettingsState) :=
  (Create_malformed_nested scenarioClient nilSettingsState "test" "/" Value.null []
    rfl rfl rfl).1 rfl

/-- C24 fails as stated: with a nil element in `permissions`, `CreatePermissions`
calls `UpdatePermissionsIn` with empty patterns, sets the identifier and returns
nil, whereas `UpdatePermissions` with a nil new element returns an error at once. -/
theorem CreatePermissions_nil_element_is_sent :
    nilPermissionsState.d.Get "permissions" = Value.list [Value.null] ∧
    (CreatePermissions scenarioClient nilPermissionsState).1 = Ret.nil ∧
    (CreatePermissions scenarioClient nilPermissionsState).2.d.Id = "mctest@/" ∧
    (CreatePermissions scenarioClient nilPermissionsState).2.log.head? =
      some (Event.call (Call.UpdatePermissionsIn "/" "mctest"
        { Configure := "", Write := "", Read := "" })) ∧
    UpdatePermissions scenarioClient nilChangedPermissionsState =
      (Ret.err (Errorf "Unable to parse permissions"), nilChangedPermissionsState) :=
  ⟨rfl, rfl, rfl, rfl, rfl⟩

/-- C24 as amended: with a nil first element in `permissions`, `CreatePermissions`
goes on as for an empty record: its first step is the `UpdatePermissionsIn` call
with empty configure, write and read patterns, and when that call is answered
with a status below 400 it sets the identifier `user@vhost` and runs
`ReadPermissions`; `UpdatePermissions`, for a nil new first element, returns the
error "Unable to parse permissions" and nothing else happened. -/
theorem CreatePermissions_nil_element (rmqc : Client) (s : State) (user vhost : String)
    (rest : List Value) :
    (s.d.Get "user" = Value.str user → s.d.Get "vhost" = Value.str vhost →
      s.d.Get "permissions" = Value.list (Value.null :: rest) →
      LogExtends
        (s.call (Call.UpdatePermissionsIn vhost user
          { Configure := "", Write := "", Read := "" })).log
        (CreatePermissions rmqc s).2.log ∧
      (∀ resp, rmqc.UpdatePermissionsIn s.log vhost user
          { Configure := "", Write := "", Read := "" } = Except.ok resp →
        resp.StatusCode < 400 →
        CreatePermissions rmqc s =
          ReadPermissions rmqc ((s.call (Call.UpdatePermissionsIn vhost user
            { Configure := "", Write := "", Read := "" })).SetId
              (sprintfNameAtVhost user vhost)))) ∧
    (parseResourceId s.d = Except.ok (user, vhost) → s.d.HasChange "permissions" = true →
      (s.d.GetChange "permissions").2 = Value.list (Value.null :: rest) →
      UpdatePermissions rmqc s = (Ret.err (Errorf "Unable to parse permissions"), s)) := by
  constructor
  · intro hu hv hl
    have e1 : (s.d.Get "user").asString? = some user := by rw [hu]; rfl
    have e2 : (s.d.Get "vhost").asString? = some vhost := by rw [hv]; rfl
    have e3 : (s.d.Get "permissions").asList? = some (Value.null :: rest) := by rw [hl]; rfl
    have hperm : permissionsFromMap [] = { Configure := "", Write := "", Read := "" } := rfl
    have hc : CreatePermissions rmqc s =
        match setPermissionsIn rmqc s vhost user [] with
        | (Ret.nil, s1) => ReadPermissions rmqc (s1.SetId (sprintfNameAtVhost user vhost))
        | (r, s1) => (r, s1) := by
      simp only [CreatePermissions, e1, e2, e3, Value.isNil, if_true]
    constructor
    · rw [hc]
      cases hr : rmqc.UpdatePermissionsIn s.log vhost user (permissionsFromMap []) with
      | error e =>
        simp only [setPermissionsIn, hr]
        exact logExtends_refl _
      | ok resp =>
        by_cases hge : resp.StatusCode ≥ 400
        · simp only [setPermissionsIn, hr, hge, if_true]
          exact logExtends_refl _
        · simp only [setPermissionsIn, hr, hge, if_false]
          exact logExtends_trans (logExtends_SetId _ _) (ReadPermissions_log _ _)
    · intro resp hresp hlt
      have hge : ¬ resp.StatusCode ≥ 400 := by omega
      rw [hc]
      rw [← hperm] at hresp
      simp only [setPermissionsIn, hresp, hge, if_false]
      rfl
  · intro hid hch hnew
    have e3 : (s.d.GetChange "permissions").2.asList? = some (Value.null :: rest) := by
      rw [hnew]; rfl
    simp [UpdatePermissions, hid, hch, e3, Value.asMap?]

/-- Witness for C24 as amended: the block with a nil element is created with empty
patterns; the update with a nil new element is refused. -/
theorem CreatePermissions_nil_element_witness :
    CreatePermissions scenarioClient nilPermissionsState =
      ReadPermissions scenarioClient ((nilPermissionsState.call
        (Call.UpdatePermissionsIn "/" "mctest"
          { Configure := "", Write := "", Read := "" })).SetId
            (sprintfNameAtVhost "mctest" "/")) ∧
    UpdatePermissions scenarioClient nilChangedPermissionsState =
      (Ret.err (Errorf "Unable to parse permissions"), nilChangedPermissionsState) :=
  ⟨((CreatePermissions_nil_element scenarioClient nilPermissionsState "mctest" "/" []).1
      rfl rfl rfl).2 (createdAt "") rfl (by decide),
   (CreatePermissions_nil_element scenarioClient nilChangedPermissionsState "mctest" "/" []).2
      rfl rfl rfl⟩

/-! ## The listing call of `ReadBinding` -/

theorem callsOf_Set (s : State) (key : String) (v : Value) :
    callsOf (s.Set key v).log = callsOf s.log := by
  simp [State.Set, callsOf_append, callsOf]

theorem callsOf_SetId (s : State) (id : String) :
    callsOf (s.SetId id).log = callsOf s.log := by
  simp [State.SetId, callsOf_append, callsOf]

theorem callsOf_call (s : State) (c : Call) :
    callsOf (s.call c).log = callsOf s.log ++ [c] := by
  simp [State.call, callsOf_append, callsOf]

theorem callsOf_writeBindingAttributes (s : State) (binding : BindingInfo) :
    callsOf (writeBindingAttributes s binding).log = callsOf s.log := by
  simp only [writeBindingAttributes, callsOf_Set]

/-- The loop of `ReadBinding` makes no call. -/
theorem ReadBindingLoop_calls (lib : Lib)
    (source destination destinationType propertiesKey : String)
    (bindings : List BindingInfo) :
    ∀ (bindingFound : Bool) (s : State),
      (∀ b s2, ReadBindingLoop lib source destination destinationType propertiesKey
          bindings bindingFound s = Except.ok (b, s2) → callsOf s2.log = callsOf s.log) ∧
      (∀ e s2, ReadBindingLoop lib source destination destinationType propertiesKey
          bindings bindingFound s = Except.error (e, s2) → callsOf s2.log = callsOf s.log) := by
  induction bindings with
  | nil =>
    intro bindingFound s
    constructor
    · intro b s2 h
      simp only [ReadBindingLoop, Except.ok.injEq, Prod.mk.injEq] at h
      rw [← h.2]
    · intro e s2 h
      simp [ReadBindingLoop] at h
  | cons binding rest ih =>
    intro bindingFound s
    by_cases hm : bindingMatches source destination destinationType propertiesKey binding
    · rw [ReadBindingLoop_match lib _ _ _ _ binding rest bindingFound s hm]
      have hw := callsOf_writeBindingAttributes s binding
      split
      · cases hj : lib.jsonMarshal binding.Arguments with
        | error e0 =>
          constructor
          · intro b s2 h
            cases h
          · intro e s2 h
            simp only [Except.error.injEq, Prod.mk.injEq] at h
            rw [← h.2]
            exact hw
        | ok bytes =>
          constructor
          · intro b s2 h
            rw [(ih _ _).1 b s2 h, callsOf_Set]
            exact hw
          · intro e s2 h
            rw [(ih _ _).2 e s2 h, callsOf_Set]
            exact hw
      · constructor
        · intro b s2 h
          rw [(ih _ _).1 b s2 h, callsOf_Set]
          exact hw
        · intro e s2 h
          rw [(ih _ _).2 e s2 h, callsOf_Set]
          exact hw
    · rw [ReadBindingLoop_skip lib _ _ _ _ binding rest bindingFound s hm]
      exact ih _ _

/-- The calls of `ReadBinding` once the identifier is decoded: the listing call
and no other. -/
theorem ReadBinding_calls (lib : Lib) (rmqc : Client) (s : State)
    (seg0 source destination destinationType propertiesKey : String)
    (hseg : bindingIdSegments s.d.Id =
      Except.ok (seg0, source, destination, destinationType, propertiesKey)) :
    callsOf (ReadBinding lib rmqc s).2.log =
      callsOf s.log ++
        [bindingListingCall (percentDecodeSlashes seg0) source destination destinationType] := by
  rw [ReadBinding_decoded lib rmqc s _ _ _ _ _ hseg]
  cases hlist : bindingListing rmqc s.log (percentDecodeSlashes seg0) source destination
      destinationType with
  | error e => exact callsOf_call _ _
  | ok bindings =>
    simp only []
    cases hloop : ReadBindingLoop lib source destination destinationType propertiesKey bindings
        false (s.call (bindingListingCall (percentDecodeSlashes seg0) source destination
          destinationType)) with
    | error r =>
      obtain ⟨e, s2⟩ := r
      have h := (ReadBindingLoop_calls lib _ _ _ _ bindings false _).2 e s2 hloop
      simp only []
      rw [h]
      exact callsOf_call _ _
    | ok r =>
      obtain ⟨b, s2⟩ := r
      have h := (ReadBindingLoop_calls lib _ _ _ _ bindings false _).1 b s2 hloop
      simp only []
      split
      · simp only [callsOf_SetId]
        rw [h]
        exact callsOf_call _ _
      · simp only []
        rw [h]
        exact callsOf_call _ _

/-- C25: for an identifier with at least five segments `ReadBinding` makes exactly
one call, a listing chosen by segment 3: `ListQueueBindingsBetween` for `queue`,
`ListExchangeBindingsBetween` for `exchange`, else `ListBindingsIn`, on the
percent-decoded segment 0 (and source, destination); an error of that call is
returned as it is, with the bag untouched. -/
theorem ReadBinding_listing_dispatch (lib : Lib) (rmqc : Client) (s : State)
    (h5 : 5 ≤ (stringsSplit s.d.Id '/').length) :
    ∃ seg0 source destination destinationType propertiesKey rest,
      stringsSplit s.d.Id '/' =
        seg0 :: source :: destination :: destinationType :: propertiesKey :: rest ∧
      (destinationType = "queue" →
        callsOf (ReadBinding lib rmqc s).2.log = callsOf s.log ++
          [Call.ListQueueBindingsBetween (percentDecodeSlashes seg0) source destination] ∧
        ∀ e, rmqc.ListQueueBindingsBetween s.log (percentDecodeSlashes seg0) source
            destination = Except.error e →
          ReadBinding lib rmqc s = (Ret.err e, s.call
            (Call.ListQueueBindingsBetween (percentDecodeSlashes seg0) source destination))) ∧
      (destinationType = "exchange" →
        callsOf (ReadBinding lib rmqc s).2.log = callsOf s.log ++
          [Call.ListExchangeBindingsBetween (percentDecodeSlashes seg0) source destination] ∧
        ∀ e, rmqc.ListExchangeBindingsBetween s.log (percentDecodeSlashes seg0) source
            destination = Except.error e →
          ReadBinding lib rmqc s = (Ret.err e, s.call
            (Call.ListExchangeBindingsBetween (percentDecodeSlashes seg0) source
              destination))) ∧
      (destinationType ≠ "queue" → destinationType ≠ "exchange" →
        callsOf (ReadBinding lib rmqc s).2.log = callsOf s.log ++
          [Call.ListBindingsIn (percentDecodeSlashes seg0)] ∧
        ∀ e, rmqc.ListBindingsIn s.log (percentDecodeSlashes seg0) = Except.error e →
          ReadBinding lib rmqc s =
            (Ret.err e, s.call (Call.ListBindingsIn (percentDecodeSlashes seg0)))) := by
  obtain ⟨seg0, source, destination, destinationType, propertiesKey, rest, hsplit, hseg⟩ :=
    bindingIdSegments_long _ h5
  refine ⟨seg0, source, destination, destinationType, propertiesKey, rest, hsplit, ?_, ?_, ?_⟩
  · intro hq
    have hc := ReadBinding_calls lib rmqc s _ _ _ _ _ hseg
    have hcall : bindingListingCall (percentDecodeSlashes seg0) source destination
        destinationType =
        Call.ListQueueBindingsBetween (percentDecodeSlashes seg0) source destination := by
      simp [bindingListingCall, hq]
    rw [hcall] at hc
    refine ⟨hc, fun e he => ?_⟩
    rw [ReadBinding_listing_error lib rmqc s _ _ _ _ _ e hseg
      (by simp [bindingListing, hq, he]), hcall]
  · intro hx
    have hnq : destinationType ≠ "queue" := by rw [hx]; decide
    have hc := ReadBinding_calls lib rmqc s _ _ _ _ _ hseg
    have hcall : bindingListingCall (percentDecodeSlashes seg0) source destination
        destinationType =
        Call.ListExchangeBindingsBetween (percentDecodeSlashes seg0) source destination := by
      simp [bindingListingCall, hnq, hx]
    rw [hcall] at hc
    refine ⟨hc, fun e he => ?_⟩
    rw [ReadBinding_listing_error lib rmqc s _ _ _ _ _ e hseg
      (by simp [bindingListing, hnq, hx, he]), hcall]
  · intro hnq hnx
    have hc := ReadBinding_calls lib rmqc s _ _ _ _ _ hseg
    have hcall : bindingListingCall (percentDecodeSlashes seg0) source destination
        destinationType = Call.ListBindingsIn (percentDecodeSlashes seg0) := by
      simp [bindingListingCall, hnq, hnx]
    rw [hcall] at hc
    refine ⟨hc, fun e he => ?_⟩
    rw [ReadBinding_listing_error lib rmqc s _ _ _ _ _ e hseg
      (by simp [bindingListing, hnq, hnx, he]), hcall]

/-- Witness for C25: the binding of the scenario is looked up through the queue
listing on the vhost `/`; an identifier with another destination type goes through
the listing of the vhost, whose error is returned. -/
theorem ReadBinding_listing_dispatch_witness :
    5 ≤ (stringsSplit (existingResource "%2F/ex1/q1/queue/routingkey").d.Id '/').length ∧
    callsOf (ReadBinding scenarioLib scenarioClient
      (existingResource "%2F/ex1/q1/queue/routingkey")).2.log =
        [Call.ListQueueBindingsBetween "/" "ex1" "q1"] ∧
    ReadBinding scenarioLib missingClient (existingResource "%2F/ex1/q1/other/routingkey") =
      (Ret.err notFoundError,
        (existingResource "%2F/ex1/q1/other/routingkey").call (Call.ListBindingsIn "/")) := by
  refine ⟨by decide, ?_, ?_⟩
  · obtain ⟨seg0, source, destination, destinationType, propertiesKey, rest, hsplit, h, -, -⟩ :=
      ReadBinding_listing_dispatch scenarioLib scenarioClient
        (existingResource "%2F/ex1/q1/queue/routingkey") (by decide)
    have hs : stringsSplit (existingResource "%2F/ex1/q1/queue/routingkey").d.Id '/' =
        ["%2F", "ex1", "q1", "queue", "routingkey"] := by decide
    rw [hs] at hsplit
    simp only [List.cons.injEq] at hsplit
    obtain ⟨rfl, rfl, rfl, rfl, rfl, -⟩ := hsplit
    exact (h rfl).1
  · obtain ⟨seg0, source, destination, destinationType, propertiesKey, rest, hsplit, -, -, h⟩ :=
      ReadBinding_listing_dispatch scenarioLib missingClient
        (existingResource "%2F/ex1/q1/other/routingkey") (by decide)
    have hs : stringsSplit (existingResource "%2F/ex1/q1/other/routingkey").d.Id '/' =
        ["%2F", "ex1", "q1", "other", "routingkey"] := by decide
    rw [hs] at hsplit
    simp only [List.cons.injEq] at hsplit
    obtain ⟨rfl, rfl, rfl, rfl, rfl, -⟩ := hsplit
    exact (h (by decide) (by decide)).2 notFoundError rfl

/-! ## Definition records, key by key -/

/-- The adapter `ReadFederationUpstream` writes the named map as the one element of
`definition`. -/
theorem ReadFederationUpstream_definition (rmqc : Client) (s : State) (name vhost : String)
    (upstream : FederationUpstream) (hid : parseResourceId s.d = Except.ok (name, vhost))
    (hget : rmqc.GetFederationUpstream s.log vhost name = Except.ok upstream) :
    ReadFederationUpstream rmqc s =
      (Ret.nil, ((((s.call (Call.GetFederationUpstream vhost name)).Set "name"
        (Value.str upstream.Name)).Set "vhost" (Value.str upstream.Vhost)).Set "component"
        (Value.str upstream.Component)).Set "definition"
        (Value.list [Value.map (federationDefinitionMap upstream.Definition)])) := by
  simp only [ReadFederationUpstream, hid, hget]
  rfl

theorem toInt32_of_range (v : Int) (hlo : -2147483648 ≤ v) (hhi : v < 2147483648) :
    toInt32 v = v := by
  unfold toInt32
  omega

/-- The definition built from a typed record, mapped back key by key, and the zero
value of each field whose key is absent. -/
theorem federationDefinitionMap_fromMap (defMap : GoMap) :
    (∀ (uri exchange queue ackMode : String) (trustUserId : Bool)
        (prefetchCount reconnectDelay maxHops expires messageTTL : Int),
      defMap.index "uri" = Value.str uri → defMap.index "exchange" = Value.str exchange →
      defMap.index "queue" = Value.str queue → defMap.index "ack_mode" = Value.str ackMode →
      defMap.index "trust_user_id" = Value.bool trustUserId →
      defMap.index "prefetch_count" = Value.int prefetchCount →
      defMap.index "reconnect_delay" = Value.int reconnectDelay →
      defMap.index "max_hops" = Value.int maxHops →
      defMap.index "expires" = Value.int expires →
      defMap.index "message_ttl" = Value.int messageTTL →
      -2147483648 ≤ messageTTL → messageTTL < 2147483648 →
      ∀ k ∈ federationKeys,
        (federationDefinitionMap (federationDefinitionFromMap defMap)).index k
          = defMap.index k) ∧
    (defMap.index "uri" = Value.null → (federationDefinitionFromMap defMap).Uri = []) ∧
    (defMap.index "exchange" = Value.null →
      (federationDefinitionFromMap defMap).Exchange = "") ∧
    (defMap.index "queue" = Value.null → (federationDefinitionFromMap defMap).Queue = "") ∧
    (defMap.index "ack_mode" = Value.null →
      (federationDefinitionFromMap defMap).AckMode = "") ∧
    (defMap.index "trust_user_id" = Value.null →
      (federationDefinitionFromMap defMap).TrustUserId = false) ∧
    (defMap.index "prefetch_count" = Value.null →
      (federationDefinitionFromMap defMap).PrefetchCount = 0) ∧
    (defMap.index "reconnect_delay" = Value.null →
      (federationDefinitionFromMap defMap).ReconnectDelay = 0) ∧
    (defMap.index "max_hops" = Value.null →
      (federationDefinitionFromMap defMap).MaxHops = 0) ∧
    (defMap.index "expires" = Value.null →
      (federationDefinitionFromMap defMap).Expires = 0) ∧
    (defMap.index "message_ttl" = Value.null →
      (federationDefinitionFromMap defMap).MessageTTL = 0) := by
  refine ⟨?_, ?_, ?_, ?_, ?_, ?_, ?_, ?_, ?_, ?_, ?_⟩
  · intro uri exchange queue ackMode trustUserId prefetchCount reconnectDelay maxHops expires
      messageTTL h1 h2 h3 h4 h5 h6 h7 h8 h9 h10 hlo hhi k hk
    have hdef : federationDefinitionFromMap defMap =
        { Uri := [uri], Expires := expires, MessageTTL := messageTTL, MaxHops := maxHops,
          PrefetchCount := prefetchCount, ReconnectDelay := reconnectDelay,
          AckMode := ackMode, TrustUserId := trustUserId, Exchange := exchange,
          Queue := queue } := by
      simp only [federationDefinitionFromMap, h1, h2, h3, h4, h5, h6, h7, h8, h9, h10,
        Value.asString?, Value.asInt?, Value.asBool?, Option.getD_some,
        toInt32_of_range messageTTL hlo hhi]
    rw [hdef]
    simp only [federationKeys, List.mem_cons, List.mem_singleton, List.not_mem_nil,
      or_false] at hk
    rcases hk with rfl | rfl | rfl | rfl | rfl | rfl | rfl | rfl | rfl | rfl
    · rw [h1]; rfl
    · rw [h6]; rfl
    · rw [h7]; rfl
    · rw [h4]; rfl
    · rw [h5]; rfl
    · rw [h2]; rfl
    · rw [h8]; rfl
    · rw [h9]; rfl
    · rw [h10]; rfl
    · rw [h3]; rfl
  all_goals
    intro h
    simp [federationDefinitionFromMap, h, Value.asString?, Value.asInt?, Value.asBool?]

/-- The adapter `ReadShovel` writes the named map as the one element of `info`. -/
theorem ReadShovel_info (rmqc : Client) (s : State) (name vhost : String)
    (shovelInfo : ShovelInfo) (hid : parseResourceId s.d = Except.ok (name, vhost))
    (hget : rmqc.GetShovel s.log vhost name = Except.ok shovelInfo) :
    ReadShovel rmqc s =
      (Ret.nil, (((s.call (Call.GetShovel vhost name)).Set "name"
        (Value.str shovelInfo.Name)).Set "vhost" (Value.str shovelInfo.Vhost)).Set "info"
        (Value.list [Value.map (shovelInfoMap shovelInfo.Definition)])) := by
  simp only [ReadShovel, hid, hget]

/-- The shovel definition built from a well-typed record, mapped back key by key,
and the one-element lists of the two URIs. -/
theorem shovelInfoMap_setShovelDefinition (shovelMap : GoMap)
    (hwt : ShovelInfoWellTyped shovelMap) :
    (∀ k ∈ shovelKeys,
      (shovelInfoMap (setShovelDefinition shovelMap)).index k = shovelMap.index k) ∧
    (∀ v, shovelMap.index "source_uri" = Value.str v →
      (setShovelDefinition shovelMap).SourceURI = [v]) ∧
    (∀ v, shovelMap.index "destination_uri" = Value.str v →
      (setShovelDefinition shovelMap).DestinationURI = [v]) := by
  obtain ⟨hs, hb, hm, hi⟩ := hwt
  obtain ⟨v1, h1⟩ := hs "ack_mode" (by decide)
  obtain ⟨v2, h2⟩ := hb "add_forward_headers" (by decide)
  obtain ⟨v3, h3⟩ := hs "delete_after" (by decide)
  obtain ⟨v4, h4⟩ := hb "destination_add_forward_headers" (by decide)
  obtain ⟨v5, h5⟩ := hb "destination_add_timestamp_header" (by decide)
  obtain ⟨v6, h6⟩ := hs "destination_address" (by decide)
  obtain ⟨v7, h7⟩ := hm "destination_application_properties" (by decide)
  obtain ⟨v8, h8⟩ := hs "destination_exchange" (by decide)
  obtain ⟨v9, h9⟩ := hs "destination_exchange_key" (by decide)
  obtain ⟨v10, h10⟩ := hm "destination_properties" (by decide)
  obtain ⟨v11, h11⟩ := hs "destination_protocol" (by decide)
  obtain ⟨v12, h12⟩ := hm "destination_publish_properties" (by decide)
  obtain ⟨v13, h13⟩ := hs "destination_queue" (by decide)
  obtain ⟨v14, h14⟩ := hm "destination_queue_arguments" (by decide)
  obtain ⟨v15, h15⟩ := hs "destination_uri" (by decide)
  obtain ⟨v16, h16⟩ := hi "prefetch_count" (by decide)
  obtain ⟨v17, h17⟩ := hi "reconnect_delay" (by decide)
  obtain ⟨v18, h18⟩ := hs "source_address" (by decide)
  obtain ⟨v19, h19⟩ := hs "source_delete_after" (by decide)
  obtain ⟨v20, h20⟩ := hs "source_exchange" (by decide)
  obtain ⟨v21, h21⟩ := hs "source_exchange_key" (by decide)
  obtain ⟨v22, h22⟩ := hi "source_prefetch_count" (by decide)
  obtain ⟨v23, h23⟩ := hs "source_protocol" (by decide)
  obtain ⟨v24, h24⟩ := hs "source_queue" (by decide)
  obtain ⟨v25, h25⟩ := hs "source_uri" (by decide)
  have hdef : setShovelDefinition shovelMap =
      { AckMode := v1, AddForwardHeaders := v2, DeleteAfter := v3,
        DestinationAddForwardHeaders := v4, DestinationAddTimestampHeader := v5,
        DestinationAddress := v6, DestinationApplicationProperties := v7,
        DestinationExchange := v8, DestinationExchangeKey := v9,
        DestinationProperties := v10, DestinationProtocol := v11,
        DestinationPublishProperties := v12, DestinationQueue := v13,
        DestinationQueueArgs := v14, DestinationURI := [v15], PrefetchCount := v16,
        ReconnectDelay := v17, SourceAddress := v18, SourceDeleteAfter := v19,
        SourceExchange := v20, SourceExchangeKey := v21, SourcePrefetchCount := v22,
        SourceProtocol := v23, SourceQueue := v24, SourceURI := [v25] } := by
    simp only [setShovelDefinition, h1, h2, h3, h4, h5, h6, h7, h8, h9, h10, h11, h12, h13,
      h14, h15, h16, h17, h18, h19, h20, h21, h22, h23, h24, h25, Value.asString?,
      Value.asInt?, Value.asBool?, Value.asMap?, Option.getD_some]
  refine ⟨?_, ?_, ?_⟩
  · intro k hk
    rw [hdef]
    simp only [shovelKeys, shovelStringKeys, shovelBoolKeys, shovelMapKeys, shovelIntKeys,
      List.mem_append, List.mem_cons, List.mem_singleton, List.not_mem_nil, or_false] at hk
    rcases hk with (((rfl | rfl | rfl | rfl | rfl | rfl | rfl | rfl | rfl | rfl | rfl | rfl |
      rfl | rfl | rfl) | (rfl | rfl | rfl)) | (rfl | rfl | rfl | rfl)) | (rfl | rfl | rfl)
    · rw [h1]; rfl
    · rw [h3]; rfl
    · rw [h6]; rfl
    · rw [h8]; rfl
    · rw [h9]; rfl
    · rw [h11]; rfl
    · rw [h13]; rfl
    · rw [h15]; rfl
    · rw [h18]; rfl
    · rw [h19]; rfl
    · rw [h20]; rfl
    · rw [h21]; rfl
    · rw [h23]; rfl
    · rw [h24]; rfl
    · rw [h25]; rfl
    · rw [h2]; rfl
    · rw [h4]; rfl
    · rw [h5]; rfl
    · rw [h7]; rfl
    · rw [h10]; rfl
    · rw [h12]; rfl
    · rw [h14]; rfl
    · rw [h16]; rfl
    · rw [h17]; rfl
    · rw [h22]; rfl
  · intro v hv
    rw [hdef]
    rw [h25] at hv
    cases hv
    rfl
  · intro v hv
    rw [hdef]
    rw [h15] at hv
    cases hv
    rfl

theorem fullShovelInfo_wellTyped : ShovelInfoWellTyped fullShovelInfo := by
  refine ⟨?_, ?_, ?_, ?_⟩
  · intro k hk
    simp only [shovelStringKeys, List.mem_cons, List.mem_singleton, List.not_mem_nil,
      or_false] at hk
    rcases hk with rfl | rfl | rfl | rfl | rfl | rfl | rfl | rfl | rfl | rfl | rfl | rfl |
      rfl | rfl | rfl <;> exact ⟨_, rfl⟩
  · intro k hk
    simp only [shovelBoolKeys, List.mem_cons, List.mem_singleton, List.not_mem_nil,
      or_false] at hk
    rcases hk with rfl | rfl | rfl <;> exact ⟨_, rfl⟩
  · intro k hk
    simp only [shovelMapKeys, List.mem_cons, List.mem_singleton, List.not_mem_nil,
      or_false] at hk
    rcases hk with rfl | rfl | rfl | rfl <;> exact ⟨_, rfl⟩
  · intro k hk
    simp only [shovelIntKeys, List.mem_cons, List.mem_singleton, List.not_mem_nil,
      or_false] at hk
    rcases hk with rfl | rfl | rfl <;> exact ⟨_, rfl⟩

/-! ## The 32-bit message TTL -/

/-- C28: for every integer `message_ttl` in the definition record, the `MessageTTL`
that `putFederationUpstream` transmits is that integer reduced modulo 2^32 into
the signed 32-bit range; it equals the integer exactly when the integer is in
that range; `expires`, `max_hops`, `prefetch_count` and `reconnect_delay` are
transmitted as they are. -/
theorem putFederationUpstream_message_ttl (rmqc : Client) (s : State) (vhost name : String)
    (defMap : GoMap) (v : Int) (hv : defMap.index "message_ttl" = Value.int v) :
    (putFederationUpstream rmqc s vhost name defMap).2 =
      s.call (Call.PutFederationUpstream vhost name (federationDefinitionFromMap defMap)) ∧
    (federationDefinitionFromMap defMap).MessageTTL = toInt32 v ∧
    (-2147483648 ≤ toInt32 v ∧ toInt32 v < 2147483648) ∧
    (∃ q : Int, toInt32 v = v - q * 4294967296) ∧
    (toInt32 v = v ↔ (-2147483648 ≤ v ∧ v < 2147483648)) ∧
    (∀ w, defMap.index "expires" = Value.int w →
      (federationDefinitionFromMap defMap).Expires = w) ∧
    (∀ w, defMap.index "max_hops" = Value.int w →
      (federationDefinitionFromMap defMap).MaxHops = w) ∧
    (∀ w, defMap.index "prefetch_count" = Value.int w →
      (federationDefinitionFromMap defMap).PrefetchCount = w) ∧
    (∀ w, defMap.index "reconnect_delay" = Value.int w →
      (federationDefinitionFromMap defMap).ReconnectDelay = w) := by
  refine ⟨?_, ?_, ?_, ?_, ?_, ?_, ?_, ?_, ?_⟩
  · unfold putFederationUpstream
    simp only []
    split
    · rfl
    · split <;> rfl
  · simp [federationDefinitionFromMap, hv, Value.asInt?]
  · unfold toInt32
    omega
  · refine ⟨(v + 2147483648) / 4294967296, ?_⟩
    unfold toInt32
    omega
  · unfold toInt32
    omega
  all_goals
    intro w hw
    simp [federationDefinitionFromMap, hw, Value.asInt?]

/-- Witness for C28: 2^32 + 5 is transmitted as 5 and 2^31 as -2^31, while an
`expires` of 2^32 + 5 is transmitted as it is. -/
theorem putFederationUpstream_message_ttl_witness :
    (federationDefinitionFromMap
      [("message_ttl", Value.int 4294967301), ("expires", Value.int 4294967301)]).MessageTTL
        = 5 ∧
    (federationDefinitionFromMap
      [("message_ttl", Value.int 4294967301), ("expires", Value.int 4294967301)]).Expires
        = 4294967301 ∧
    (federationDefinitionFromMap [("message_ttl", Value.int 2147483648)]).MessageTTL
      = -2147483648 :=
  ⟨((putFederationUpstream_message_ttl scenarioClient scenarioFederationState "/" "up"
      [("message_ttl", Value.int 4294967301), ("expires", Value.int 4294967301)]
      4294967301 rfl).2.1).trans (by decide),
   (putFederationUpstream_message_ttl scenarioClient scenarioFederationState "/" "up"
      [("message_ttl", Value.int 4294967301), ("expires", Value.int 4294967301)]
      4294967301 rfl).2.2.2.2.2.1 4294967301 rfl,
   ((putFederationUpstream_message_ttl scenarioClient scenarioFederationState "/" "up"
      [("message_ttl", Value.int 2147483648)] 2147483648 rfl).2.1).trans (by decide)⟩

/-! ## The last segment of the Location header -/

theorem splitChars_getLast (sep : Char) (l : List Char) :
    ∃ last, (splitChars sep l).getLast? = some last ∧ sep ∉ last ∧
      ((sep ∉ l ∧ l = last) ∨ ∃ pre, l = pre ++ sep :: last) := by
  induction l with
  | nil => exact ⟨[], rfl, by simp, Or.inl ⟨by simp, rfl⟩⟩
  | cons c cs ih =>
    obtain ⟨last, hl, hn, hc⟩ := ih
    by_cases hcs : c = sep
    · subst hcs
      refine ⟨last, ?_, hn, Or.inr ?_⟩
      · have hu : splitChars c (c :: cs) = [] :: splitChars c cs := by simp [splitChars]
        rw [hu]
        cases hsp : splitChars c cs with
        | nil => exact absurd hsp (splitChars_ne_nil _ _)
        | cons x xs =>
          rw [hsp] at hl
          simpa [List.getLast?_cons_cons] using hl
      · rcases hc with ⟨_, rfl⟩ | ⟨pre, rfl⟩
        · exact ⟨[], rfl⟩
        · exact ⟨c :: pre, rfl⟩
    · rcases hc with ⟨hnot, rfl⟩ | ⟨pre, rfl⟩
      · have hmem : sep ∉ c :: cs := by
          intro h
          rcases List.mem_cons.1 h with h | h
          · exact hcs h.symm
          · exact hnot h
        refine ⟨c :: cs, ?_, hmem, Or.inl ⟨hmem, rfl⟩⟩
        rw [splitChars_of_not_mem sep _ hmem]
        rfl
      · refine ⟨last, ?_, hn, Or.inr ⟨c :: pre, rfl⟩⟩
        have hlen := length_splitChars sep (pre ++ sep :: last)
        cases hsp : splitChars sep (pre ++ sep :: last) with
        | nil => exact absurd hsp (splitChars_ne_nil _ _)
        | cons x xs =>
          cases xs with
          | nil =>
            rw [hsp] at hlen
            simp at hlen
          | cons y ys =>
            rw [hsp] at hl
            have hu : splitChars sep (c :: (pre ++ sep :: last)) = (c :: x) :: y :: ys := by
              simp [splitChars, hcs, hsp]
            rw [hu]
            simpa [List.getLast?_cons_cons] using hl

theorem stringsSplit_last (s : String) (sep : Char) :
    ∃ last : String,
      (stringsSplit s sep)[(stringsSplit s sep).length - 1]? = some last ∧
      sep ∉ last.data ∧
      (s.data = last.data ∨ ∃ pre, s.data = pre ++ sep :: last.data) := by
  obtain ⟨last, hl, hn, hc⟩ := splitChars_getLast sep s.data
  refine ⟨⟨last⟩, ?_, hn, ?_⟩
  · rw [← List.getLast?_eq_getElem?]
    simp [stringsSplit, hl]
  · rcases hc with ⟨_, h⟩ | h
    · exact Or.inl h
    · exact Or.inr h

theorem last_segment_of_trailing_sep (sep : Char) (l pre last : List Char)
    (hn : sep ∉ last) (hl : l = last ∨ ∃ p, l = p ++ sep :: last)
    (hpre : l = pre ++ [sep]) : last = [] := by
  have hrev : l.reverse = sep :: pre.reverse := by rw [hpre]; simp
  rcases hl with h | ⟨p, h⟩
  · exact absurd (by rw [← h, hpre]; simp) hn
  · rw [h] at hrev
    simp only [List.reverse_append, List.reverse_cons, List.append_assoc,
      List.singleton_append] at hrev
    cases hlr : last.reverse with
    | nil => simpa using hlr
    | cons x r =>
      rw [hlr] at hrev
      simp only [List.cons_append, List.cons.injEq] at hrev
      have hx : sep ∈ last := by
        rw [← List.mem_reverse, hlr, hrev.1]
        simp
      exact absurd hx hn

/-- C29: splitting any `Location` value on `/` yields at least one segment, so the
index `len - 1` is in range; after an accepted declaration `declareBinding` returns
the path-unescaped last segment (the text after the last `/`, which is empty when
the header is absent, empty or ends in `/`), or the unescape error; it does not
panic and looks at no other segment. -/
theorem declareBinding_properties_key (lib : Lib) (rmqc : Client) (s : State) (vhost : String)
    (bindingInfo : BindingInfo) (resp : Response)
    (hr : rmqc.DeclareBinding s.log vhost bindingInfo = .ok resp)
    (hs : resp.StatusCode < 400) :
    (∀ loc : String, (stringsSplit loc '/').length - 1 < (stringsSplit loc '/').length) ∧
    ∃ last : String,
      (stringsSplit (resp.HeaderGet "Location") '/')[
        (stringsSplit (resp.HeaderGet "Location") '/').length - 1]? = some last ∧
      '/' ∉ last.data ∧
      ((resp.HeaderGet "Location").data = last.data ∨
        ∃ pre, (resp.HeaderGet "Location").data = pre ++ '/' :: last.data) ∧
      (resp.Header.lookup "Location" = none → last = "") ∧
      (resp.HeaderGet "Location" = "" → last = "") ∧
      ((∃ pre, (resp.HeaderGet "Location").data = pre ++ ['/']) → last = "") ∧
      declareBinding lib rmqc s vhost bindingInfo =
        ((match lib.PathUnescape last with
          | .error e => Except.error (Ret.err e)
          | .ok propertiesKey => Except.ok propertiesKey),
         s.call (Call.DeclareBinding vhost bindingInfo)) ∧
      (declareBinding lib rmqc s vhost bindingInfo).1 ≠ Except.error Ret.goPanic := by
  refine ⟨fun loc => ?_, ?_⟩
  · rw [length_stringsSplit]
    omega
  obtain ⟨last, hlast, hn, hc⟩ := stringsSplit_last (resp.HeaderGet "Location") '/'
  have hempty : resp.HeaderGet "Location" = "" → last = "" := by
    intro he
    rw [he] at hc
    rcases hc with h | ⟨pre, h⟩
    · exact String.ext h.symm
    · exact absurd h (by simp)
  have hdecl : declareBinding lib rmqc s vhost bindingInfo =
      ((match lib.PathUnescape last with
        | .error e => Except.error (Ret.err e)
        | .ok propertiesKey => Except.ok propertiesKey),
       s.call (Call.DeclareBinding vhost bindingInfo)) := by
    have hge : ¬ resp.StatusCode ≥ 400 := by omega
    simp only [declareBinding, hr, hge, if_false, hlast]
    cases lib.PathUnescape last <;> rfl
  refine ⟨last, hlast, hn, hc, ?_, hempty, ?_, hdecl, ?_⟩
  · intro hnone
    exact hempty (by simp [Response.HeaderGet, hnone])
  · rintro ⟨pre, hpre⟩
    exact String.ext (last_segment_of_trailing_sep '/' _ pre last.data hn hc hpre)
  · rw [hdecl]
    cases lib.PathUnescape last <;> simp

/-- Witness for C29: the scenario's server answers with the location
`/api/bindings/%2F/e/ex1/q/q1/routingkey` and the key is `routingkey`; a reply
without the header gives the empty key. -/
theorem declareBinding_properties_key_witness :
    declareBinding scenarioLib scenarioClient scenarioBindingState "/" scenarioBinding =
      (Except.ok "routingkey",
       scenarioBindingState.call (Call.DeclareBinding "/" scenarioBinding)) ∧
    declareBinding scenarioLib headerlessClient scenarioBindingState "/" scenarioBinding =
      (Except.ok "",
       scenarioBindingState.call (Call.DeclareBinding "/" scenarioBinding)) := by
  constructor
  · obtain ⟨last, hlast, -, -, -, -, -, hdecl, -⟩ :=
      (declareBinding_properties_key scenarioLib scenarioClient scenarioBindingState "/"
        scenarioBinding (createdAt "/api/bindings/%2F/e/ex1/q/q1/routingkey") rfl
        (by decide)).2
    have hs : (stringsSplit
        ((createdAt "/api/bindings/%2F/e/ex1/q/q1/routingkey").HeaderGet "Location") '/')[
        (stringsSplit
          ((createdAt "/api/bindings/%2F/e/ex1/q/q1/routingkey").HeaderGet "Location")
          '/').length - 1]? = some "routingkey" := by decide
    rw [hs] at hlast
    obtain rfl := Option.some.inj hlast
    exact hdecl
  · obtain ⟨last, -, -, -, hnone, -, -, hdecl, -⟩ :=
      (declareBinding_properties_key scenarioLib headerlessClient scenarioBindingState "/"
        scenarioBinding noContent rfl (by decide)).2
    obtain rfl := hnone rfl
    exact hdecl

/-! ## Tags that the server does not hold -/

/-- C30: for a remote user whose tag list is empty or holds only empty strings, a
successful `ReadUser` writes `name` alone and `dataSourcesReadUser` writes `name` and
the identifier: neither writes `tags`, and the `tags` attribute of the bag is what it
was before. -/
theorem ReadUser_keeps_tags (rmqc : Client) (s : State) (user : UserInfo)
    (htags : ∀ t ∈ user.Tags, t = "") :
    (rmqc.GetUser s.log s.d.Id = .ok user →
      ReadUser rmqc s = (Ret.nil, (s.call (Call.GetUser s.d.Id)).Set "name" (Value.str user.Name)) ∧
      writesOf ((ReadUser rmqc s).2.log.drop s.log.length) = [("name", Value.str user.Name)] ∧
      (ReadUser rmqc s).2.d.Get "tags" = s.d.Get "tags") ∧
    (∀ name, s.d.Get "name" = Value.str name → rmqc.GetUser s.log name = .ok user →
      dataSourcesReadUser rmqc s =
        (Ret.nil,
         ((s.call (Call.GetUser name)).Set "name" (Value.str user.Name)).SetId name) ∧
      writesOf ((dataSourcesReadUser rmqc s).2.log.drop s.log.length) =
        [("name", Value.str user.Name)] ∧
      (dataSourcesReadUser rmqc s).2.d.Get "tags" = s.d.Get "tags") := by
  have hfilter : user.Tags.filter (fun v => v ≠ "") = [] := by
    rw [List.filter_eq_nil_iff]
    intro t ht
    simp [htags t ht]
  constructor
  · intro hr
    have h1 : ReadUser rmqc s =
        (Ret.nil, (s.call (Call.GetUser s.d.Id)).Set "name" (Value.str user.Name)) := by
      simp only [ReadUser, hr, hfilter]
      split <;> simp
    rw [h1]
    refine ⟨rfl, ?_, ?_⟩
    · simp [State.Set, State.call, writesOf]
    · simp [State.Set, State.call, ResourceData.Get, ResourceData.Set]
  · intro name hname hr
    have e1 : (s.d.Get "name").asString? = some name := by rw [hname]; rfl
    have h1 : dataSourcesReadUser rmqc s =
        (Ret.nil,
         ((s.call (Call.GetUser name)).Set "name" (Value.str user.Name)).SetId name) := by
      simp only [dataSourcesReadUser, e1, hr, hfilter]
      split <;> simp
    rw [h1]
    refine ⟨rfl, ?_, ?_⟩
    · simp [State.Set, State.SetId, State.call, writesOf]
    · simp [State.Set, State.SetId, State.call, ResourceData.Get, ResourceData.Set,
        ResourceData.SetId]

/-- Witness for C30: the server holds `mctest` with the single tag `""`, the bag
holds the tag `administrator`, and after either read the bag still holds it. -/
theorem ReadUser_keeps_tags_witness :
    (∀ t ∈ ([""] : List String), t = "") ∧
    (ReadUser untaggedClient taggedUserState).1 = Ret.nil ∧
    (ReadUser untaggedClient taggedUserState).2.d.Get "tags" =
      Value.list [Value.str "administrator"] ∧
    (dataSourcesReadUser untaggedClient taggedUserState).1 = Ret.nil ∧
    (dataSourcesReadUser untaggedClient taggedUserState).2.d.Get "tags" =
      Value.list [Value.str "administrator"] := by
  have h := ReadUser_keeps_tags untaggedClient taggedUserState
    { Name := "mctest", Tags := [""] } (by simp)
  refine ⟨by simp, ?_, (h.1 rfl).2.2.trans rfl, ?_, (h.2 "mctest" rfl rfl).2.2.trans rfl⟩
  · rw [(h.1 rfl).1]
  · rw [(h.2 "mctest" rfl rfl).1]

/-! ## What `ReadBinding` writes back as arguments -/

theorem writeBindingAttributes_arguments (s : State) (binding : BindingInfo) :
    (writeBindingAttributes s binding).d.Get "arguments" = s.d.Get "arguments" := by
  simp [writeBindingAttributes, State.Set, ResourceData.Set, ResourceData.Get]

theorem writeBindingAttributes_id (s : State) (binding : BindingInfo) :
    (writeBindingAttributes s binding).d.Id = s.d.Id := rfl

/-- C17 fails as stated: the listed binding carries the argument `n` with the number
5 and `arguments_json` is not in use; `ReadBinding` returns nil, keeps the
identifier and calls `d.Set("arguments", ...)` with the remote arguments, but the
write is refused and the `arguments` attribute stays the empty map it was. -/
theorem ReadBinding_numeric_arguments_not_stored :
    createdBindingState.d.Get "arguments_json" = Value.str "" ∧
    (ReadBinding scenarioLib numericBindingClient createdBindingState).1 = Ret.nil ∧
    (ReadBinding scenarioLib numericBindingClient createdBindingState).2.d.Id =
      "%2F/ex1/q1/queue/routingkey" ∧
    (ReadBinding scenarioLib numericBindingClient createdBindingState).2.log.getLast? =
      some (Event.set "arguments" (Value.map [("n", Value.int 5)])) ∧
    (((ReadBinding scenarioLib numericBindingClient createdBindingState).2.d.Get
      "arguments").asMap?.map List.length) = some 0 ∧
    (ReadBinding scenarioLib numericBindingClient createdBindingState).2.d.Get "arguments" ≠
      Value.map numericBinding.Arguments :=
  ⟨rfl, rfl, rfl, rfl, rfl, fun h => by
    have h2 := congrArg (fun v => (Value.asMap? v).map List.length) h
    have h3 : (((ReadBinding scenarioLib numericBindingClient createdBindingState).2.d.Get
        "arguments").asMap?.map List.length) = some 0 := rfl
    simp only [h3] at h2
    cases h2⟩

/-- C17 as amended: on an identifier that decodes and a listing that holds the one
binding named, `ReadBinding` returns nil, keeps the identifier, and after the listing
call and the six attribute writes makes exactly one more write, chosen by the
`arguments_json` held in the bag.  When that is a non-empty string the write is
`arguments_json` with the JSON encoding of the remote arguments, which the bag then
holds, and `arguments` is not written.  When it is empty or not a string (unset) the
write is `arguments` with the remote arguments and `arguments_json` is not written;
the bag then holds the remote arguments when each of them is a string. -/
theorem ReadBinding_arguments_write_back (lib : Lib) (rmqc : Client) (s : State)
    (seg0 source destination destinationType propertiesKey : String) (binding : BindingInfo)
    (hseg : bindingIdSegments s.d.Id =
      Except.ok (seg0, source, destination, destinationType, propertiesKey))
    (hlist : bindingListing rmqc s.log (percentDecodeSlashes seg0) source destination
      destinationType = Except.ok [binding])
    (hm : bindingMatches source destination destinationType propertiesKey binding) :
    (∀ v bytes, s.d.Get "arguments_json" = Value.str v → v ≠ "" →
      lib.jsonMarshal binding.Arguments = Except.ok bytes →
      (ReadBinding lib rmqc s).1 = Ret.nil ∧
      (ReadBinding lib rmqc s).2.d.Id = s.d.Id ∧
      (ReadBinding lib rmqc s).2.log =
        s.log ++ [Event.call (bindingListingCall (percentDecodeSlashes seg0) source
            destination destinationType),
          Event.set "vhost" (Value.str binding.Vhost),
          Event.set "source" (Value.str binding.Source),
          Event.set "destination" (Value.str binding.Destination),
          Event.set "destination_type" (Value.str binding.DestinationType),
          Event.set "routing_key" (Value.str binding.RoutingKey),
          Event.set "properties_key" (Value.str binding.PropertiesKey),
          Event.set "arguments_json" (Value.str bytes)] ∧
      (ReadBinding lib rmqc s).2.d.Get "arguments_json" = Value.str bytes ∧
      (ReadBinding lib rmqc s).2.d.Get "arguments" = s.d.Get "arguments") ∧
    ((s.d.Get "arguments_json" = Value.str "" ∨ (s.d.Get "arguments_json").asString? = none) →
      (ReadBinding lib rmqc s).1 = Ret.nil ∧
      (ReadBinding lib rmqc s).2.d.Id = s.d.Id ∧
      (ReadBinding lib rmqc s).2.log =
        s.log ++ [Event.call (bindingListingCall (percentDecodeSlashes seg0) source
            destination destinationType),
          Event.set "vhost" (Value.str binding.Vhost),
          Event.set "source" (Value.str binding.Source),
          Event.set "destination" (Value.str binding.Destination),
          Event.set "destination_type" (Value.str binding.DestinationType),
          Event.set "routing_key" (Value.str binding.RoutingKey),
          Event.set "properties_key" (Value.str binding.PropertiesKey),
          Event.set "arguments" (Value.map binding.Arguments)] ∧
      (ReadBinding lib rmqc s).2.d.Get "arguments_json" = s.d.Get "arguments_json" ∧
      (GoMap.allStrings binding.Arguments = true →
        (ReadBinding lib rmqc s).2.d.Get "arguments" = Value.map binding.Arguments)) := by
  have hcall : (s.call (bindingListingCall (percentDecodeSlashes seg0) source destination
      destinationType)).d = s.d := rfl
  constructor
  · intro v bytes hv hne hj
    have hR : ReadBinding lib rmqc s =
        (Ret.nil, (writeBindingAttributes (s.call (bindingListingCall (percentDecodeSlashes seg0)
          source destination destinationType)) binding).Set "arguments_json"
            (Value.str bytes)) := by
      rw [ReadBinding_decoded lib rmqc s _ _ _ _ _ hseg, hlist]
      simp only []
      rw [ReadBindingLoop_match lib _ _ _ _ binding [] false _ hm,
        writeBindingAttributes_arguments_json, hcall, hv]
      simp [Value.asString?, hne, hj, ReadBindingLoop]
    rw [hR]
    refine ⟨rfl, rfl, ?_, ?_, ?_⟩
    · simp [writeBindingAttributes, State.Set, State.call]
    · simp [State.Set, ResourceData.Set, ResourceData.Get, Value.fitsSchema]
    · have h1 : (((writeBindingAttributes (s.call (bindingListingCall
          (percentDecodeSlashes seg0) source destination destinationType)) binding).Set
          "arguments_json" (Value.str bytes)).d.Get "arguments") =
          (writeBindingAttributes (s.call (bindingListingCall
          (percentDecodeSlashes seg0) source destination destinationType)) binding).d.Get
            "arguments" := by
        simp [State.Set, ResourceData.Set, ResourceData.Get]
      simp only [h1, writeBindingAttributes_arguments, hcall]
  · intro hempty
    have hR : ReadBinding lib rmqc s =
        (Ret.nil, (writeBindingAttributes (s.call (bindingListingCall (percentDecodeSlashes seg0)
          source destination destinationType)) binding).Set "arguments"
            (Value.map binding.Arguments)) := by
      rw [ReadBinding_decoded lib rmqc s _ _ _ _ _ hseg, hlist]
      simp only []
      rw [ReadBindingLoop_match lib _ _ _ _ binding [] false _ hm,
        writeBindingAttributes_arguments_json, hcall]
      rcases hempty with h | h
      · rw [h]
        simp [Value.asString?, ReadBindingLoop]
      · rw [h]
        simp [ReadBindingLoop]
    rw [hR]
    refine ⟨rfl, rfl, ?_, ?_, ?_⟩
    · simp [writeBindingAttributes, State.Set, State.call]
    · have h1 : (((writeBindingAttributes (s.call (bindingListingCall
          (percentDecodeSlashes seg0) source destination destinationType)) binding).Set
          "arguments" (Value.map binding.Arguments)).d.Get "arguments_json") =
          (writeBindingAttributes (s.call (bindingListingCall
          (percentDecodeSlashes seg0) source destination destinationType)) binding).d.Get
            "arguments_json" := by
        simp [State.Set, ResourceData.Set, ResourceData.Get]
      simp only [h1, writeBindingAttributes_arguments_json, hcall]
    · intro hs
      simp [State.Set, ResourceData.Set, ResourceData.Get, Value.fitsSchema, hs]

/-- Witness for C17 as amended: with `arguments_json` in use the binding is written
back as JSON text; without it, a binding with the string argument `x-match` is
written back as the structured map, which the bag then holds. -/
theorem ReadBinding_arguments_write_back_witness :
    (ReadBinding scenarioLib headersBindingClient createdJsonBindingState).2.log =
      [Event.call (Call.ListQueueBindingsBetween "/" "ex1" "q1"),
       Event.set "vhost" (Value.str "/"), Event.set "source" (Value.str "ex1"),
       Event.set "destination" (Value.str "q1"),
       Event.set "destination_type" (Value.str "queue"),
       Event.set "routing_key" (Value.str "routingkey"),
       Event.set "properties_key" (Value.str "routingkey"),
       Event.set "arguments_json" (Value.str "\x7b\x7d")] ∧
    (ReadBinding scenarioLib headersBindingClient createdJsonBindingState).2.d.Get
      "arguments_json" = Value.str "\x7b\x7d" ∧
    (ReadBinding scenarioLib headersBindingClient createdBindingState).2.log =
      [Event.call (Call.ListQueueBindingsBetween "/" "ex1" "q1"),
       Event.set "vhost" (Value.str "/"), Event.set "source" (Value.str "ex1"),
       Event.set "destination" (Value.str "q1"),
       Event.set "destination_type" (Value.str "queue"),
       Event.set "routing_key" (Value.str "routingkey"),
       Event.set "properties_key" (Value.str "routingkey"),
       Event.set "arguments" (Value.map [("x-match", Value.str "all")])] ∧
    (ReadBinding scenarioLib headersBindingClient createdBindingState).2.d.Get "arguments" =
      Value.map [("x-match", Value.str "all")] :=
  ⟨((ReadBinding_arguments_write_back scenarioLib headersBindingClient
      createdJsonBindingState "%2F" "ex1" "q1" "queue" "routingkey" headersBinding
      rfl rfl ⟨rfl, rfl, rfl, rfl⟩).1 "\x7b\"x\":1\x7d" "\x7b\x7d" rfl (by decide)
      rfl).2.2.1,
   ((ReadBinding_arguments_write_back scenarioLib headersBindingClient
      createdJsonBindingState "%2F" "ex1" "q1" "queue" "routingkey" headersBinding
      rfl rfl ⟨rfl, rfl, rfl, rfl⟩).1 "\x7b\"x\":1\x7d" "\x7b\x7d" rfl (by decide)
      rfl).2.2.2.1,
   ((ReadBinding_arguments_write_back scenarioLib headersBindingClient
      createdBindingState "%2F" "ex1" "q1" "queue" "routingkey" headersBinding
      rfl rfl ⟨rfl, rfl, rfl, rfl⟩).2 (Or.inl rfl)).2.2.1,
   ((ReadBinding_arguments_write_back scenarioLib headersBindingClient
      createdBindingState "%2F" "ex1" "q1" "queue" "routingkey" headersBinding
      rfl rfl ⟨rfl, rfl, rfl, rfl⟩).2 (Or.inl rfl)).2.2.2.2 rfl⟩

/-! ## Definition records through the adapters -/

theorem putFederationUpstream_log (rmqc : Client) (s : State) (vhost name : String)
    (defMap : GoMap) :
    (putFederationUpstream rmqc s vhost name defMap).2.log =
      s.log ++ [Event.call (Call.PutFederationUpstream vhost name
        (federationDefinitionFromMap defMap))] := by
  unfold putFederationUpstream
  simp only []
  split
  · rfl
  · split <;> rfl

theorem fitsSchema_federationDefinitionMap (definition : FederationDefinition) :
    (Value.list [Value.map (federationDefinitionMap definition)]).fitsSchema = true := by
  simp [Value.fitsSchema, federationDefinitionMap]

/-- C26: when the definition that the server returns is the one that
`putFederationUpstream` transmitted for a definition record, `ReadFederationUpstream`
returns nil and writes, after `name`, `vhost` and `component`, a one-element
`definition` list whose record has exactly the ten keys and which the bag then holds.
For a record that gives the ten keys values of their types, with `message_ttl` in
the signed 32-bit range, the record written has the same ten values; a key that is
absent from the record leaves its field of the transmitted definition at the zero
value. -/
theorem federation_definition_roundtrip (rmqc : Client) (s0 s : State) (name vhost : String)
    (defMap : GoMap) (upstream : FederationUpstream)
    (hput : (putFederationUpstream rmqc s0 vhost name defMap).2.log =
      s0.log ++ [Event.call (Call.PutFederationUpstream vhost name upstream.Definition)])
    (hid : parseResourceId s.d = Except.ok (name, vhost))
    (hget : rmqc.GetFederationUpstream s.log vhost name = Except.ok upstream) :
    (∃ m : GoMap,
      (ReadFederationUpstream rmqc s).1 = Ret.nil ∧
      (ReadFederationUpstream rmqc s).2.log =
        s.log ++ [Event.call (Call.GetFederationUpstream vhost name),
          Event.set "name" (Value.str upstream.Name),
          Event.set "vhost" (Value.str upstream.Vhost),
          Event.set "component" (Value.str upstream.Component),
          Event.set "definition" (Value.list [Value.map m])] ∧
      (ReadFederationUpstream rmqc s).2.d.Get "definition" = Value.list [Value.map m] ∧
      m.map Prod.fst = federationKeys ∧
      (∀ (uri exchange queue ackMode : String) (trustUserId : Bool)
          (prefetchCount reconnectDelay maxHops expires messageTTL : Int),
        defMap.index "uri" = Value.str uri → defMap.index "exchange" = Value.str exchange →
        defMap.index "queue" = Value.str queue → defMap.index "ack_mode" = Value.str ackMode →
        defMap.index "trust_user_id" = Value.bool trustUserId →
        defMap.index "prefetch_count" = Value.int prefetchCount →
        defMap.index "reconnect_delay" = Value.int reconnectDelay →
        defMap.index "max_hops" = Value.int maxHops →
        defMap.index "expires" = Value.int expires →
        defMap.index "message_ttl" = Value.int messageTTL →
        -2147483648 ≤ messageTTL → messageTTL < 2147483648 →
        ∀ k ∈ federationKeys, m.index k = defMap.index k)) ∧
    (defMap.index "uri" = Value.null → upstream.Definition.Uri = []) ∧
    (defMap.index "exchange" = Value.null → upstream.Definition.Exchange = "") ∧
    (defMap.index "queue" = Value.null → upstream.Definition.Queue = "") ∧
    (defMap.index "ack_mode" = Value.null → upstream.Definition.AckMode = "") ∧
    (defMap.index "trust_user_id" = Value.null → upstream.Definition.TrustUserId = false) ∧
    (defMap.index "prefetch_count" = Value.null → upstream.Definition.PrefetchCount = 0) ∧
    (defMap.index "reconnect_delay" = Value.null →
      upstream.Definition.ReconnectDelay = 0) ∧
    (defMap.index "max_hops" = Value.null → upstream.Definition.MaxHops = 0) ∧
    (defMap.index "expires" = Value.null → upstream.Definition.Expires = 0) ∧
    (defMap.index "message_ttl" = Value.null → upstream.Definition.MessageTTL = 0) := by
  have hdef : upstream.Definition = federationDefinitionFromMap defMap := by
    rw [putFederationUpstream_log] at hput
    have h1 := List.append_cancel_left hput
    simp only [List.cons.injEq, Event.call.injEq, Call.PutFederationUpstream.injEq,
      and_true, true_and] at h1
    exact h1.symm
  have hR := ReadFederationUpstream_definition rmqc s name vhost upstream hid hget
  have hmap := federationDefinitionMap_fromMap defMap
  refine ⟨⟨federationDefinitionMap upstream.Definition, ?_, ?_, ?_, rfl, ?_⟩, ?_⟩
  · rw [hR]
  · rw [hR]
    simp [State.Set, State.call]
  · rw [hR]
    simp [State.Set, ResourceData.Set, ResourceData.Get,
      fitsSchema_federationDefinitionMap]
  · rw [hdef]
    exact hmap.1
  · rw [hdef]
    exact hmap.2

/-- Witness for C26: the upstream `up@/` put from a full definition record and read
back from the server that holds it. -/
theorem federation_definition_roundtrip_witness :
    ∃ m : GoMap,
      (ReadFederationUpstream fullFederationClient (existingResource "up@/")).2.d.Get
        "definition" = Value.list [Value.map m] ∧
      m.map Prod.fst = federationKeys ∧
      ∀ k ∈ federationKeys, m.index k = fullFederationDefinition.index k := by
  obtain ⟨m, -, -, hget, hkeys, hvals⟩ :=
    (federation_definition_roundtrip fullFederationClient scenarioFederationState
      (existingResource "up@/") "up" "/" fullFederationDefinition
      { Name := "up", Vhost := "/", Component := "federation-upstream",
        Definition :=
          { Uri := ["amqp://server-name"], Expires := 3600000, MessageTTL := 2147483647,
            MaxHops := 1, PrefetchCount := 1000, ReconnectDelay := 5,
            AckMode := "on-confirm", TrustUserId := true, Exchange := "ex",
            Queue := "q" } }
      rfl rfl rfl).1
  exact ⟨m, hget, hkeys,
    hvals "amqp://server-name" "ex" "q" "on-confirm" true 1000 5 1 3600000 2147483647
      rfl rfl rfl rfl rfl rfl rfl rfl rfl rfl (by decide) (by decide)⟩

theorem fitsSchema_shovelInfoMap (definition : ShovelDefinition)
    (h1 : GoMap.allStrings definition.DestinationApplicationProperties = true)
    (h2 : GoMap.allStrings definition.DestinationProperties = true)
    (h3 : GoMap.allStrings definition.DestinationPublishProperties = true)
    (h4 : GoMap.allStrings definition.DestinationQueueArgs = true) :
    (Value.list [Value.map (shovelInfoMap definition)]).fitsSchema = true := by
  cases hd : definition.DestinationURI <;> cases hs : definition.SourceURI <;>
    simp [Value.fitsSchema, shovelInfoMap, hd, hs, h1, h2, h3, h4]

theorem setShovelDefinition_maps (shovelMap : GoMap) :
    (∀ v, shovelMap.index "destination_application_properties" = Value.map v →
      (setShovelDefinition shovelMap).DestinationApplicationProperties = v) ∧
    (∀ v, shovelMap.index "destination_properties" = Value.map v →
      (setShovelDefinition shovelMap).DestinationProperties = v) ∧
    (∀ v, shovelMap.index "destination_publish_properties" = Value.map v →
      (setShovelDefinition shovelMap).DestinationPublishProperties = v) ∧
    (∀ v, shovelMap.index "destination_queue_arguments" = Value.map v →
      (setShovelDefinition shovelMap).DestinationQueueArgs = v) := by
  refine ⟨?_, ?_, ?_, ?_⟩ <;>
  · intro v hv
    simp [setShovelDefinition, hv, Value.asMap?]

/-- C27: when the definition that the server returns is the one that
`setShovelDefinition` builds from an info record giving each of the 25 keys a value
of its type, `ReadShovel` returns nil and writes, after `name` and `vhost`, a
one-element `info` list whose record equals the input on all 25 keys: the
deprecated aliases and their replacements are copied each on its own, and the two
URIs go through a one-element list.  The bag then holds that list when the four
maps of the record hold strings only. -/
theorem shovel_definition_roundtrip (rmqc : Client) (s : State) (name vhost : String)
    (shovelMap : GoMap) (shovelInfo : ShovelInfo)
    (hwt : ShovelInfoWellTyped shovelMap)
    (hid : parseResourceId s.d = Except.ok (name, vhost))
    (hget : rmqc.GetShovel s.log vhost name = Except.ok shovelInfo)
    (hdef : shovelInfo.Definition = setShovelDefinition shovelMap) :
    (∃ m : GoMap,
      (ReadShovel rmqc s).1 = Ret.nil ∧
      (ReadShovel rmqc s).2.log =
        s.log ++ [Event.call (Call.GetShovel vhost name),
          Event.set "name" (Value.str shovelInfo.Name),
          Event.set "vhost" (Value.str shovelInfo.Vhost),
          Event.set "info" (Value.list [Value.map m])] ∧
      (∀ k ∈ shovelKeys, m.index k = shovelMap.index k) ∧
      ((∀ k ∈ shovelMapKeys, ∀ v, shovelMap.index k = Value.map v →
          GoMap.allStrings v = true) →
        (ReadShovel rmqc s).2.d.Get "info" = Value.list [Value.map m])) ∧
    (∀ v, shovelMap.index "source_uri" = Value.str v →
      shovelInfo.Definition.SourceURI = [v]) ∧
    (∀ v, shovelMap.index "destination_uri" = Value.str v →
      shovelInfo.Definition.DestinationURI = [v]) := by
  have hR := ReadShovel_info rmqc s name vhost shovelInfo hid hget
  have hmap := shovelInfoMap_setShovelDefinition shovelMap hwt
  have hmaps := setShovelDefinition_maps shovelMap
  refine ⟨⟨shovelInfoMap shovelInfo.Definition, ?_, ?_, ?_, ?_⟩, ?_, ?_⟩
  · rw [hR]
  · rw [hR]
    simp [State.Set, State.call]
  · rw [hdef]
    exact hmap.1
  · intro hstr
    obtain ⟨-, -, hm, -⟩ := hwt
    obtain ⟨v1, h1⟩ := hm "destination_application_properties" (by decide)
    obtain ⟨v2, h2⟩ := hm "destination_properties" (by decide)
    obtain ⟨v3, h3⟩ := hm "destination_publish_properties" (by decide)
    obtain ⟨v4, h4⟩ := hm "destination_queue_arguments" (by decide)
    have hfit : (Value.list [Value.map (shovelInfoMap shovelInfo.Definition)]).fitsSchema
        = true := by
      apply fitsSchema_shovelInfoMap
      · rw [hdef, hmaps.1 v1 h1]
        exact hstr _ (by decide) v1 h1
      · rw [hdef, hmaps.2.1 v2 h2]
        exact hstr _ (by decide) v2 h2
      · rw [hdef, hmaps.2.2.1 v3 h3]
        exact hstr _ (by decide) v3 h3
      · rw [hdef, hmaps.2.2.2 v4 h4]
        exact hstr _ (by decide) v4 h4
    rw [hR]
    simp [State.Set, ResourceData.Set, ResourceData.Get, hfit]
  · rw [hdef]
    exact hmap.2.1
  · rw [hdef]
    exact hmap.2.2

/-- Witness for C27: a record with all 25 keys, aliases and replacements together,
declared and read back from the server that holds it. -/
theorem shovel_definition_roundtrip_witness :
    shovelKeys.length = 25 ∧ shovelKeys.Nodup ∧
    (∃ m : GoMap,
      (ReadShovel fullShovelClient (existingResource "sh@/")).2.d.Get "info" =
        Value.list [Value.map m] ∧
      ∀ k ∈ shovelKeys, m.index k = fullShovelInfo.index k) ∧
    (setShovelDefinition fullShovelInfo).SourceURI = ["amqp:///src"] ∧
    (setShovelDefinition fullShovelInfo).DestinationURI = ["amqp:///dst"] := by
  have h := shovel_definition_roundtrip fullShovelClient (existingResource "sh@/") "sh" "/"
    fullShovelInfo { Name := "sh", Vhost := "/", Definition := setShovelDefinition fullShovelInfo }
    fullShovelInfo_wellTyped rfl rfl rfl
  obtain ⟨⟨m, -, -, hvals, hbag⟩, hsrc, hdst⟩ := h
  refine ⟨by decide, by decide, ⟨m, hbag ?_, hvals⟩, hsrc "amqp:///src" rfl,
    hdst "amqp:///dst" rfl⟩
  intro k hk v hv
  simp only [shovelMapKeys, List.mem_cons, List.mem_singleton, List.not_mem_nil,
    or_false] at hk
  rcases hk with rfl | rfl | rfl | rfl
  · have e : fullShovelInfo.index "destination_application_properties" =
        Value.map [("a", Value.str "b")] := rfl
    rw [e] at hv
    cases hv
    rfl
  · have e : fullShovelInfo.index "destination_properties" = Value.map [] := rfl
    rw [e] at hv
    cases hv
    rfl
  · have e : fullShovelInfo.index "destination_publish_properties" = Value.map [] := rfl
    rw [e] at hv
    cases hv
    rfl
  · have e : fullShovelInfo.index "destination_queue_arguments" = Value.map [] := rfl
    rw [e] at hv
    cases hv
    rfl

end Rabbitmq
